import Mathlib

/-!
# CwMcuSensor: the sensor-hub event aggregator

A shallow embedding of `sensor_hub/libsensors/CwMcuSensor.cpp`.

* The object's fields and the parts of the outside world the code talks to (the
  event device, the control files) are one record, `Hub`, passed explicitly.
* The results of system calls are read from an environment `Env`.
* `CwMcuSensor.h` is not among the sources: the slot indices, the external
  handles, the absolute event codes and `numSensors` are the parameter `Consts`.
* The Android header `hardware/sensors.h` is not among the sources either: the
  sensor types and the other constants the constructor takes from it are the
  parameter `SysConsts`.
* Float payloads are kept as terms `FVal` over the operations the code applies
  to them, so that every definition can be evaluated.
-/

namespace CwMcu

/-! ## Constants -/

/-- The slot identifiers of `CW_SENSORS_ID` that the source file names. -/
inductive Slot
  | CW_ACCELERATION | CW_MAGNETIC | CW_GYRO | CW_LIGHT | CW_PRESSURE
  | CW_ORIENTATION | CW_ROTATIONVECTOR | CW_LINEARACCELERATION | CW_GRAVITY
  | CW_MAGNETIC_UNCALIBRATED | CW_GYROSCOPE_UNCALIBRATED
  | CW_GAME_ROTATION_VECTOR | CW_GEOMAGNETIC_ROTATION_VECTOR
  | CW_SIGNIFICANT_MOTION | CW_STEP_DETECTOR | CW_STEP_COUNTER | HTC_ANY_MOTION
  deriving DecidableEq, Repr

/-- The external handles (`ID_*`) that the source file names. -/
inductive Handle
  | ID_A | ID_M | ID_GY | ID_PS | ID_O | ID_RV | ID_LA | ID_G
  | ID_CW_MAGNETIC_UNCALIBRATED | ID_CW_GYROSCOPE_UNCALIBRATED
  | ID_CW_GAME_ROTATION_VECTOR | ID_CW_GEOMAGNETIC_ROTATION_VECTOR
  | ID_CW_SIGNIFICANT_MOTION | ID_CW_STEP_DETECTOR | ID_CW_STEP_COUNTER
  | ID_L | ID_Any_Motion
  deriving DecidableEq, Repr

/-- The absolute event codes that the source file names. -/
inductive AbsCode
  | EVENT_TYPE_LIGHT
  | ABS_ACC_X | ABS_ACC_Y | ABS_ACC_Z
  | ABS_MAG_X | ABS_MAG_Y | ABS_MAG_Z | ABS_MAG_ACCURACY
  | ABS_GYRO_X | ABS_GYRO_Y | ABS_GYRO_Z
  | ABS_PRESSURE_X | ABS_PRESSURE_Y | ABS_PRESSURE_Z
  | ABS_ORI_X | ABS_ORI_Y | ABS_ORI_Z | ABS_ORI_ACCURACY
  | ABS_ROT_X | ABS_ROT_Y | ABS_ROT_Z
  | ABS_LIN_X | ABS_LIN_Y | ABS_LIN_Z
  | ABS_GRA_X | ABS_GRA_Y | ABS_GRA_Z
  | ABS_MAGNETIC_UNCALIBRATED_X | ABS_MAGNETIC_UNCALIBRATED_Y
  | ABS_MAGNETIC_UNCALIBRATED_Z
  | ABS_MAGNETIC_UNCALIBRATED_BIAS_X | ABS_MAGNETIC_UNCALIBRATED_BIAS_Y
  | ABS_MAGNETIC_UNCALIBRATED_BIAS_Z
  | ABS_GYROSCOPE_UNCALIBRATED_X | ABS_GYROSCOPE_UNCALIBRATED_Y
  | ABS_GYROSCOPE_UNCALIBRATED_Z
  | ABS_GYROSCOPE_UNCALIBRATED_BIAS_X | ABS_GYROSCOPE_UNCALIBRATED_BIAS_Y
  | ABS_GYROSCOPE_UNCALIBRATED_BIAS_Z
  | ABS_GAME_ROTATION_VECTOR_X | ABS_GAME_ROTATION_VECTOR_Y
  | ABS_GAME_ROTATION_VECTOR_Z
  | ABS_GEOMAGNETIC_ROTATION_VECTOR_X | ABS_GEOMAGNETIC_ROTATION_VECTOR_Y
  | ABS_GEOMAGNETIC_ROTATION_VECTOR_Z
  | ABS_STEP_DETECTOR | ABS_STEP_COUNTER
  deriving DecidableEq, Repr

/-- The conversion constants (`CONVERT_*`) that the source file names. -/
inductive Conv
  | CONVERT_A | CONVERT_M | CONVERT_GYRO | CONVERT_PRESSURE | CONVERT_O
  | CONVERT_RV | CONVERT_ALL
  deriving DecidableEq, Repr

/-- The sensor types (`SENSOR_TYPE_*`) that the constructor names. -/
inductive SensorType
  | SENSOR_TYPE_ACCELEROMETER | SENSOR_TYPE_MAGNETIC_FIELD | SENSOR_TYPE_GYROSCOPE
  | SENSOR_TYPE_LIGHT | SENSOR_TYPE_PRESSURE | SENSOR_TYPE_ORIENTATION
  | SENSOR_TYPE_ROTATION_VECTOR | SENSOR_TYPE_LINEAR_ACCELERATION | SENSOR_TYPE_GRAVITY
  | SENSOR_TYPE_MAGNETIC_FIELD_UNCALIBRATED | SENSOR_TYPE_GYROSCOPE_UNCALIBRATED
  | SENSOR_TYPE_GAME_ROTATION_VECTOR | SENSOR_TYPE_GEOMAGNETIC_ROTATION_VECTOR
  | SENSOR_TYPE_SIGNIFICANT_MOTION | SENSOR_TYPE_STEP_DETECTOR | SENSOR_TYPE_STEP_COUNTER
  deriving DecidableEq, Repr

/-- What the constructor takes from the Android header `hardware/sensors.h`,
which is not among the sources. -/
structure SysConsts where
  /-- The value of each `SENSOR_TYPE_*` constant. -/
  sensorType : SensorType → Int
  /-- The value of `sizeof(sensors_event_t)`. -/
  eventSize : Int
  /-- The value of `SENSOR_STATUS_ACCURACY_HIGH`. -/
  accuracyHigh : Int

/-- The values that `CwMcuSensor.h` gives to the names used by the source file.
The header is not part of the sources, so the values are a parameter. -/
structure Consts where
  /-- The number of slots, the bound of the scan on a sync marker. -/
  numSensors : Nat
  /-- The index of each slot. -/
  slot : Slot → Nat
  /-- The value of each external handle. -/
  handle : Handle → Int
  /-- The value of each absolute event code. -/
  abs : AbsCode → Nat
  /-- The width in bits of `size_t` on the target. -/
  sizeBits : Nat

/-- What the code needs of the header for its shifts, its array accesses and
the `switch` of `find_sensor` to be defined: at most 32 slots (the masks are 32
bits wide), every named slot index below `numSensors`, distinct slots at
distinct indices, and the handles (the labels of the `switch`) pairwise
distinct. -/
structure Consts.WF (C : Consts) : Prop where
  numSensors_le : C.numSensors ≤ 32
  slot_lt : ∀ k, C.slot k < C.numSensors
  slot_inj : Function.Injective C.slot
  handle_inj : Function.Injective C.handle

/-- The absolute event codes are pairwise distinct: the labels of the `switch`
of `processEvent`, and the light code that `readEvents` tests before it. -/
def Consts.AbsDistinct (C : Consts) : Prop := Function.Injective C.abs

/-- The value of `EINVAL` in `errno.h`. -/
def EINVAL : Int := 22

/-- The event type `EV_SYN` of `linux/input.h`. -/
def EV_SYN : Nat := 0

/-- The event type `EV_REL` of `linux/input.h`. -/
def EV_REL : Nat := 2

/-- The event type `EV_ABS` of `linux/input.h`. -/
def EV_ABS : Nat := 3

/-- The code `REL_Significant_Motion`, defined in the source as `REL_WHEEL` (8). -/
def REL_Significant_Motion : Nat := 8

/-- The code `REL_HTC_Any_Motion`, defined in the source as `0x09`. -/
def REL_HTC_Any_Motion : Nat := 9

/-- The table size `LIGHTSENSOR_LEVEL`, defined in the source as 10. -/
def LIGHTSENSOR_LEVEL : Nat := 10

/-- The number of events the reader is built for: the argument of
`mInputReader(4)` in the initializer list of the constructor. -/
def READER_CAPACITY : Nat := 4

/-! ## Values and records -/

/-- A float payload, kept as the term the code computes it by. `ofInt n` is the
float converted from (or written as) the integer `n`; `mul` and `div` are the
float operations; `conv` is a conversion constant of the header; `rv4 q1 q2 q3`
is the scalar component that `calculate_rv_4th_element` derives. -/
inductive FVal
  | ofInt (n : Int)
  | conv (c : Conv)
  | mul (a b : FVal)
  | div (a b : FVal)
  | rv4 (q1 q2 q3 : FVal)
  deriving DecidableEq, Repr

/-- The part of `sensors_event_t` the code touches. `data` is the float array of
the union (`light`, `pressure`, `uncalib` and `bias` are views of it: `light` and
`pressure` are `data 0`, `uncalib[i]` is `data i`, `bias[i]` is `data (3 + i)`).
`status` is the accuracy byte of the vector view; it is kept apart from `data`,
which is adequate because the code writes `status` only in slots whose
`data 3` it never writes. It holds the value of the signed byte. -/
structure SensorsEvent where
  version : Int
  sensor : Int
  type : Int
  timestamp : Int
  data : Nat → FVal
  status : Int

/-- One `input_event` of the event device. -/
structure InputEvent where
  type : Nat
  code : Nat
  value : Int
  /-- Seconds of the event time. -/
  sec : Int
  /-- Microseconds of the event time. -/
  usec : Int
  deriving DecidableEq, Repr

/-- One operation on a control file, recorded in the order issued. -/
inductive CtrlOp
  /-- The line `what flags` written to the `enable` file, and whether the write
  succeeded. -/
  | enable (what : Nat) (flags : Nat) (ok : Bool)
  /-- The line `what ms` written to the `delay_ms` file. -/
  | delay (what : Nat) (ms : Int)
  /-- The compass calibration copied from the driver to durable storage. -/
  | saveMag (values : List Int)
  deriving DecidableEq, Repr

/-- The fields of the `CwMcuSensor` object, with the outside world it acts on. -/
structure Hub where
  mEnabled : Nat
  mPendingMask : Nat
  mPendingEvents : Nat → SensorsEvent
  mHasPendingEventPressure : Bool
  mHasPendingEventActivity : Bool
  mHasPendingEventLight : Bool
  mHasPendingEventMagnetic : Bool
  mHasPendingEventOrientation : Bool
  /-- The events that `mInputReader` holds and has not handed out yet. -/
  mInputReader : List InputEvent
  /-- The events waiting in the event device `data_fd`, oldest first. -/
  dataFd : List InputEvent
  /-- The number of attempts to open a control file so far. -/
  nOpen : Nat
  /-- The operations issued on the control files so far, oldest first. -/
  ctrlLog : List CtrlOp

/-- The results of the system calls of one call of an entry point. -/
structure Env where
  /-- The result of `getTimestamp()`. -/
  now : Int
  /-- Whether the attempt number `n` to open a control file succeeds. -/
  openOk : Nat → Bool
  /-- Whether the write to the `enable` file opened by attempt `n` succeeds. -/
  writeOk : Nat → Bool
  /-- The value that `ioctl(data_fd, EVIOCGABS(code))` reports, `none` when the
  call fails. -/
  query : Nat → Option Int
  /-- The compass calibration that `cw_read_calibrator_file` reads from the
  driver, `none` when it does not return 0. -/
  driverMag : Option (List Int)
  /-- The negative result of `mInputReader.fill`, `none` when the fill works. -/
  fillError : Option Int

/-! ## Bit masks (32 bits wide) -/

/-- The value `0xFFFFFFFF`. -/
def mask32 : Nat := 4294967295

/-- The mask `1 << j`. -/
def bitOf (j : Nat) : Nat := 1 <<< j

/-- The test `mask & (1 << j)`. -/
def hasBit (mask j : Nat) : Bool := mask &&& bitOf j != 0

/-- The update `mask |= 1 << j`. -/
def setBit (mask j : Nat) : Nat := mask ||| bitOf j

/-- The update `mask &= ~(1 << j)` on a 32-bit mask. -/
def clearBit (mask j : Nat) : Nat := mask &&& (mask32 ^^^ bitOf j)

/-! ## The operations -/

/-- The table lookup `CwMcuSensor::indexToValue`. -/
def indexToValue (index : Nat) : FVal :=
  let luxValues : List Int := [0, 10, 40, 90, 160, 225, 320, 640, 1280, 2600]
  let maxIndex := LIGHTSENSOR_LEVEL - 1
  let index := if index > maxIndex then maxIndex else index
  FVal.ofInt (luxValues.getD index 0)

/-- The conversion of a float holding the integer `v` to `size_t`, as in
`indexToValue(temp_value)`: defined for `0 ≤ v`, where it gives `v` back (up to
the rounding of integers above `2^24`, which stay above the table). -/
def floatToIndex (v : Int) : Nat := v.toNat

/-- The conversion of the `int` `v` to a `size_t` of `w` bits, as in
`indexToValue(event->value)`. -/
def intToIndex (w : Nat) (v : Int) : Nat := (v % (2 : Int) ^ w).toNat

/-- Write element `i` of the float array of slot `j`. -/
def Hub.setData (s : Hub) (j i : Nat) (v : FVal) : Hub :=
  let r := s.mPendingEvents j
  { s with mPendingEvents :=
      Function.update s.mPendingEvents j ({ r with data := Function.update r.data i v }) }

/-- The conversion of a float holding the integer `v` to `int8_t`, the type of
`status`: for `-128 ≤ v ≤ 127` it gives `v` back. Outside that range the C++
standard leaves the conversion undefined; the definition takes the low 8 bits as
a signed byte, which is what the conversion through a 32-bit integer and a byte
store yields (200 becomes -56). -/
def floatToInt8 (v : Int) : Int := (v + 128) % 256 - 128

/-- Write the accuracy byte of slot `j`: the assignment of the float holding the
integer `v` to the `int8_t` field `status`. -/
def Hub.setStatus (s : Hub) (j : Nat) (v : Int) : Hub :=
  let r := s.mPendingEvents j
  { s with mPendingEvents :=
      Function.update s.mPendingEvents j ({ r with status := floatToInt8 v }) }

/-- Write the timestamp of slot `j`. -/
def Hub.setTimestamp (s : Hub) (j : Nat) (t : Int) : Hub :=
  let r := s.mPendingEvents j
  { s with mPendingEvents := Function.update s.mPendingEvents j ({ r with timestamp := t }) }

/-- The update `mPendingMask |= 1 << j`. -/
def Hub.pend (s : Hub) (j : Nat) : Hub :=
  { s with mPendingMask := setBit s.mPendingMask j }

/-- One axis of the pressure baseline in `setInitialState`: on success the
pending bit, the element and the flag are set, on failure the element is zeroed. -/
def initPressureAxis (C : Consts) (env : Env) (s : Hub) (code : AbsCode) (i : Nat) : Hub :=
  match env.query (C.abs code) with
  | some v =>
    { ((s.pend (C.slot .CW_PRESSURE)).setData (C.slot .CW_PRESSURE) i
        (FVal.div (FVal.ofInt v) (FVal.ofInt 100))) with mHasPendingEventPressure := true }
  | none => s.setData (C.slot .CW_PRESSURE) i (FVal.ofInt 0)

/-- The method `CwMcuSensor::setInitialState`. -/
def setInitialState (C : Consts) (env : Env) (s : Hub) (id : Int) : Int × Hub :=
  if id = C.handle .ID_L then
    match env.query (C.abs .EVENT_TYPE_LIGHT) with
    | some v =>
      (0, { ((s.pend (C.slot .CW_LIGHT)).setData (C.slot .CW_LIGHT) 0
              (indexToValue (floatToIndex v))) with mHasPendingEventLight := true })
    | none => (0, s)
  else if id = C.handle .ID_PS then
    let s1 := initPressureAxis C env s .ABS_PRESSURE_X 0
    let s2 := initPressureAxis C env s1 .ABS_PRESSURE_Y 1
    let s3 := initPressureAxis C env s2 .ABS_PRESSURE_Z 2
    (0, s3)
  else if id = C.handle .ID_M then
    match env.query (C.abs .ABS_MAG_ACCURACY) with
    | some v =>
      (0, { ((s.pend (C.slot .CW_MAGNETIC)).setStatus (C.slot .CW_MAGNETIC) v)
              with mHasPendingEventMagnetic := true })
    | none => (0, s)
  else if id = C.handle .ID_O then
    match env.query (C.abs .ABS_ORI_ACCURACY) with
    | some v => (0, s.setStatus (C.slot .CW_ORIENTATION) v)
    | none => (0, s)
  else
    (-EINVAL, s)

/-- The method `CwMcuSensor::find_sensor`. -/
def find_sensor (C : Consts) (handle : Int) : Int :=
  if handle = C.handle .ID_A then C.slot .CW_ACCELERATION
  else if handle = C.handle .ID_M then C.slot .CW_MAGNETIC
  else if handle = C.handle .ID_GY then C.slot .CW_GYRO
  else if handle = C.handle .ID_PS then C.slot .CW_PRESSURE
  else if handle = C.handle .ID_O then C.slot .CW_ORIENTATION
  else if handle = C.handle .ID_RV then C.slot .CW_ROTATIONVECTOR
  else if handle = C.handle .ID_LA then C.slot .CW_LINEARACCELERATION
  else if handle = C.handle .ID_G then C.slot .CW_GRAVITY
  else if handle = C.handle .ID_CW_MAGNETIC_UNCALIBRATED then
    C.slot .CW_MAGNETIC_UNCALIBRATED
  else if handle = C.handle .ID_CW_GYROSCOPE_UNCALIBRATED then
    C.slot .CW_GYROSCOPE_UNCALIBRATED
  else if handle = C.handle .ID_CW_GAME_ROTATION_VECTOR then
    C.slot .CW_GAME_ROTATION_VECTOR
  else if handle = C.handle .ID_CW_GEOMAGNETIC_ROTATION_VECTOR then
    C.slot .CW_GEOMAGNETIC_ROTATION_VECTOR
  else if handle = C.handle .ID_CW_SIGNIFICANT_MOTION then C.slot .CW_SIGNIFICANT_MOTION
  else if handle = C.handle .ID_CW_STEP_DETECTOR then C.slot .CW_STEP_DETECTOR
  else if handle = C.handle .ID_CW_STEP_COUNTER then C.slot .CW_STEP_COUNTER
  else if handle = C.handle .ID_L then C.slot .CW_LIGHT
  else if handle = C.handle .ID_Any_Motion then C.slot .HTC_ANY_MOTION
  else -1

/-- The conversion `uint32_t(what)`. -/
def toUInt32 (what : Int) : Nat := (what % 4294967296).toNat

/-- The method `CwMcuSensor::setEnable`. The calibration copy made on disabling a
magnetic-family slot acts on files only; it is recorded in `ctrlLog`. -/
def setEnable (C : Consts) (env : Env) (s : Hub) (handle : Int) (en : Int) : Int × Hub :=
  let flags : Nat := if en ≠ 0 then 1 else 0
  let what := find_sensor C handle
  if toUInt32 what ≥ C.numSensors then
    (-EINVAL, s)
  else
    let w := what.toNat
    let n := s.nOpen
    let s0 := { s with nOpen := n + 1 }
    let s1 :=
      if env.openOk n then
        let sa := { s0 with ctrlLog := s0.ctrlLog ++ [CtrlOp.enable w flags (env.writeOk n)] }
        let sb :=
          if (w = C.slot .CW_MAGNETIC_UNCALIBRATED ∨ w = C.slot .CW_PRESSURE ∨
              w = C.slot .CW_LIGHT ∨ w = C.slot .CW_MAGNETIC ∨
              w = C.slot .CW_ORIENTATION) ∧ en ≠ 0 then
            (setInitialState C env sa what).2
          else sa
        { sb with mEnabled := clearBit sb.mEnabled w ||| (flags <<< w) }
      else s0
    let s2 :=
      if (w = C.slot .CW_MAGNETIC ∨ w = C.slot .CW_ORIENTATION ∨
          w = C.slot .CW_ROTATIONVECTOR) ∧ flags = 0 then
        match env.driverMag with
        | some values => { s1 with ctrlLog := s1.ctrlLog ++ [CtrlOp.saveMag values] }
        | none => s1
      else s1
    (0, s2)

/-- The method `CwMcuSensor::setDelay`. -/
def setDelay (C : Consts) (env : Env) (s : Hub) (handle : Int) (delay_ns : Int) : Int × Hub :=
  let what := find_sensor C handle
  if toUInt32 what ≥ C.numSensors then
    (-EINVAL, s)
  else
    let n := s.nOpen
    let s0 := { s with nOpen := n + 1 }
    if env.openOk n then
      (0, { s0 with ctrlLog := s0.ctrlLog ++ [CtrlOp.delay what.toNat (Int.tdiv delay_ns 1000000)] })
    else (0, s0)

/-- The method `CwMcuSensor::calculate_rv_4th_element`. -/
def calculate_rv_4th_element (C : Consts) (s : Hub) (sensors_id : Nat) : Hub :=
  if sensors_id = C.slot .CW_ROTATIONVECTOR ∨ sensors_id = C.slot .CW_GAME_ROTATION_VECTOR ∨
      sensors_id = C.slot .CW_GEOMAGNETIC_ROTATION_VECTOR then
    let q1 := (s.mPendingEvents sensors_id).data 0
    let q2 := (s.mPendingEvents sensors_id).data 1
    let q3 := (s.mPendingEvents sensors_id).data 2
    s.setData sensors_id 3 (FVal.rv4 q1 q2 q3)
  else s

/-- A case of `processEvent` that stores a float: the pending bit of the slot is
set and element `i` of its float array is written. -/
def Hub.axis (s : Hub) (j i : Nat) (v : FVal) : Hub := (s.pend j).setData j i v

/-- A case of `processEvent` that stores an accuracy: the pending bit of the slot
is set and its status byte is written. -/
def Hub.accuracy (s : Hub) (j : Nat) (v : Int) : Hub := (s.pend j).setStatus j v

/-- The method `CwMcuSensor::processEvent`; `value` is the integer of the event,
which the call converts to a float. -/
def processEvent (C : Consts) (s : Hub) (code : Nat) (value : Int) : Hub :=
  let x := FVal.ofInt value
  let k := fun c => FVal.conv c
  if code = C.abs .ABS_ACC_X then s.axis (C.slot .CW_ACCELERATION) 0 (x.mul (k .CONVERT_A))
  else if code = C.abs .ABS_ACC_Y then s.axis (C.slot .CW_ACCELERATION) 1 (x.mul (k .CONVERT_A))
  else if code = C.abs .ABS_ACC_Z then s.axis (C.slot .CW_ACCELERATION) 2 (x.mul (k .CONVERT_A))
  else if code = C.abs .ABS_MAG_X then s.axis (C.slot .CW_MAGNETIC) 0 (x.mul (k .CONVERT_M))
  else if code = C.abs .ABS_MAG_Y then s.axis (C.slot .CW_MAGNETIC) 1 (x.mul (k .CONVERT_M))
  else if code = C.abs .ABS_MAG_Z then s.axis (C.slot .CW_MAGNETIC) 2 (x.mul (k .CONVERT_M))
  else if code = C.abs .ABS_MAG_ACCURACY then s.accuracy (C.slot .CW_MAGNETIC) value
  else if code = C.abs .ABS_GYRO_X then s.axis (C.slot .CW_GYRO) 0 (x.mul (k .CONVERT_GYRO))
  else if code = C.abs .ABS_GYRO_Y then s.axis (C.slot .CW_GYRO) 1 (x.mul (k .CONVERT_GYRO))
  else if code = C.abs .ABS_GYRO_Z then s.axis (C.slot .CW_GYRO) 2 (x.mul (k .CONVERT_GYRO))
  else if code = C.abs .ABS_PRESSURE_X then
    s.axis (C.slot .CW_PRESSURE) 0 (x.div (k .CONVERT_PRESSURE))
  else if code = C.abs .ABS_PRESSURE_Y then
    s.axis (C.slot .CW_PRESSURE) 1 (x.div (k .CONVERT_PRESSURE))
  else if code = C.abs .ABS_PRESSURE_Z then
    s.axis (C.slot .CW_PRESSURE) 2 (x.div (k .CONVERT_PRESSURE))
  else if code = C.abs .ABS_ORI_X then s.axis (C.slot .CW_ORIENTATION) 0 (x.mul (k .CONVERT_O))
  else if code = C.abs .ABS_ORI_Y then s.axis (C.slot .CW_ORIENTATION) 1 (x.mul (k .CONVERT_O))
  else if code = C.abs .ABS_ORI_Z then s.axis (C.slot .CW_ORIENTATION) 2 (x.mul (k .CONVERT_O))
  else if code = C.abs .ABS_ORI_ACCURACY then s.accuracy (C.slot .CW_ORIENTATION) value
  else if code = C.abs .ABS_ROT_X then s.axis (C.slot .CW_ROTATIONVECTOR) 0 (x.div (k .CONVERT_RV))
  else if code = C.abs .ABS_ROT_Y then s.axis (C.slot .CW_ROTATIONVECTOR) 1 (x.div (k .CONVERT_RV))
  else if code = C.abs .ABS_ROT_Z then s.axis (C.slot .CW_ROTATIONVECTOR) 2 (x.div (k .CONVERT_RV))
  else if code = C.abs .ABS_LIN_X then
    s.axis (C.slot .CW_LINEARACCELERATION) 0 (x.mul (k .CONVERT_ALL))
  else if code = C.abs .ABS_LIN_Y then
    s.axis (C.slot .CW_LINEARACCELERATION) 1 (x.mul (k .CONVERT_ALL))
  else if code = C.abs .ABS_LIN_Z then
    s.axis (C.slot .CW_LINEARACCELERATION) 2 (x.mul (k .CONVERT_ALL))
  else if code = C.abs .ABS_GRA_X then s.axis (C.slot .CW_GRAVITY) 0 (x.mul (k .CONVERT_ALL))
  else if code = C.abs .ABS_GRA_Y then s.axis (C.slot .CW_GRAVITY) 1 (x.mul (k .CONVERT_ALL))
  else if code = C.abs .ABS_GRA_Z then s.axis (C.slot .CW_GRAVITY) 2 (x.mul (k .CONVERT_ALL))
  else if code = C.abs .ABS_MAGNETIC_UNCALIBRATED_X then
    s.axis (C.slot .CW_MAGNETIC_UNCALIBRATED) 0 (x.mul (k .CONVERT_M))
  else if code = C.abs .ABS_MAGNETIC_UNCALIBRATED_Y then
    s.axis (C.slot .CW_MAGNETIC_UNCALIBRATED) 1 (x.mul (k .CONVERT_M))
  else if code = C.abs .ABS_MAGNETIC_UNCALIBRATED_Z then
    s.axis (C.slot .CW_MAGNETIC_UNCALIBRATED) 2 (x.mul (k .CONVERT_M))
  else if code = C.abs .ABS_MAGNETIC_UNCALIBRATED_BIAS_X then
    s.axis (C.slot .CW_MAGNETIC_UNCALIBRATED) 3 (x.mul (k .CONVERT_M))
  else if code = C.abs .ABS_MAGNETIC_UNCALIBRATED_BIAS_Y then
    s.axis (C.slot .CW_MAGNETIC_UNCALIBRATED) 4 (x.mul (k .CONVERT_M))
  else if code = C.abs .ABS_MAGNETIC_UNCALIBRATED_BIAS_Z then
    s.axis (C.slot .CW_MAGNETIC_UNCALIBRATED) 5 (x.mul (k .CONVERT_M))
  else if code = C.abs .ABS_GYROSCOPE_UNCALIBRATED_X then
    s.axis (C.slot .CW_GYROSCOPE_UNCALIBRATED) 0 (x.mul (k .CONVERT_GYRO))
  else if code = C.abs .ABS_GYROSCOPE_UNCALIBRATED_Y then
    s.axis (C.slot .CW_GYROSCOPE_UNCALIBRATED) 1 (x.mul (k .CONVERT_GYRO))
  else if code = C.abs .ABS_GYROSCOPE_UNCALIBRATED_Z then
    s.axis (C.slot .CW_GYROSCOPE_UNCALIBRATED) 2 (x.mul (k .CONVERT_GYRO))
  else if code = C.abs .ABS_GYROSCOPE_UNCALIBRATED_BIAS_X then
    s.axis (C.slot .CW_GYROSCOPE_UNCALIBRATED) 3 (x.mul (k .CONVERT_GYRO))
  else if code = C.abs .ABS_GYROSCOPE_UNCALIBRATED_BIAS_Y then
    s.axis (C.slot .CW_GYROSCOPE_UNCALIBRATED) 4 (x.mul (k .CONVERT_GYRO))
  else if code = C.abs .ABS_GYROSCOPE_UNCALIBRATED_BIAS_Z then
    s.axis (C.slot .CW_GYROSCOPE_UNCALIBRATED) 5 (x.mul (k .CONVERT_GYRO))
  else if code = C.abs .ABS_GAME_ROTATION_VECTOR_X then
    s.axis (C.slot .CW_GAME_ROTATION_VECTOR) 0 (x.div (k .CONVERT_RV))
  else if code = C.abs .ABS_GAME_ROTATION_VECTOR_Y then
    s.axis (C.slot .CW_GAME_ROTATION_VECTOR) 1 (x.div (k .CONVERT_RV))
  else if code = C.abs .ABS_GAME_ROTATION_VECTOR_Z then
    s.axis (C.slot .CW_GAME_ROTATION_VECTOR) 2 (x.div (k .CONVERT_RV))
  else if code = C.abs .ABS_GEOMAGNETIC_ROTATION_VECTOR_X then
    s.axis (C.slot .CW_GEOMAGNETIC_ROTATION_VECTOR) 0 (x.div (k .CONVERT_RV))
  else if code = C.abs .ABS_GEOMAGNETIC_ROTATION_VECTOR_Y then
    s.axis (C.slot .CW_GEOMAGNETIC_ROTATION_VECTOR) 1 (x.div (k .CONVERT_RV))
  else if code = C.abs .ABS_GEOMAGNETIC_ROTATION_VECTOR_Z then
    s.axis (C.slot .CW_GEOMAGNETIC_ROTATION_VECTOR) 2 (x.div (k .CONVERT_RV))
  else if code = C.abs .ABS_STEP_DETECTOR then s.axis (C.slot .CW_STEP_DETECTOR) 0 x
  else if code = C.abs .ABS_STEP_COUNTER then s.axis (C.slot .CW_STEP_COUNTER) 0 x
  else s

/-- Modelled from the spec: `timevalToNano` of the base class, which is not among
the sources; the sync marker's time value converted to nanoseconds. -/
def timevalToNano (sec usec : Int) : Int := sec * 1000000000 + usec * 1000

/-- Modelled from the spec: `mInputReader.fill(data_fd)` of the event reader,
which is not among the sources. The event source yields its events in arrival
order, and the reader has room for `READER_CAPACITY` events: a fill that works
moves the oldest waiting events, as many as the reader has room for, behind the
ones the reader still holds and reports how many it moved; a fill that fails
reports its error and moves nothing. -/
def fill (env : Env) (s : Hub) : Int × Hub :=
  match env.fillError with
  | some e => (e, s)
  | none =>
    let free := READER_CAPACITY - s.mInputReader.length
    let got := s.dataFd.take free
    (got.length, { s with mInputReader := s.mInputReader ++ got, dataFd := s.dataFd.drop free })

/-- A record copied to the caller's buffer, with the slot it was copied from. -/
structure Emitted where
  slot : Nat
  event : SensorsEvent

/-- The start of the loop body for a slot `j` whose pending bit is set: the bit
is cleared, significant motion disables itself, and the record is stamped. -/
def syncVisit (C : Consts) (env : Env) (time : Int) (s : Hub) (j : Nat) : Hub :=
  let s1 := { s with mPendingMask := clearBit s.mPendingMask j }
  let s2 :=
    if j = C.slot .CW_SIGNIFICANT_MOTION then
      (setEnable C env s1 (C.handle .ID_CW_SIGNIFICANT_MOTION) 0).2
    else s1
  s2.setTimestamp j time

/-- The scan of the slots on a sync marker, from slot `j` on, with `n` bounding
the number of iterations (the loop makes at most `numSensors - j` of them).
Returns the state, the capacity left and the records copied out, in order. -/
def syncLoop (C : Consts) (env : Env) (time : Int) :
    Nat → Nat → Hub → Int → Hub × Int × List Emitted
  | 0, _, s, count => (s, count, [])
  | n + 1, j, s, count =>
    if count ≠ 0 ∧ s.mPendingMask ≠ 0 ∧ j < C.numSensors then
      if hasBit s.mPendingMask j then
        let s3 := syncVisit C env time s j
        if hasBit s3.mEnabled j then
          let s4 := calculate_rv_4th_element C s3 j
          let r := syncLoop C env time n (j + 1) s4 (count - 1)
          (r.1, r.2.1, ⟨j, s4.mPendingEvents j⟩ :: r.2.2)
        else syncLoop C env time n (j + 1) s3 count
      else syncLoop C env time n (j + 1) s count
    else (s, count, [])

/-- The scan of all slots that a sync marker with time `time` triggers. -/
def syncStep (C : Consts) (env : Env) (time : Int) (s : Hub) (count : Int) :
    Hub × Int × List Emitted :=
  syncLoop C env time C.numSensors 0 s count

/-- The branch of the loop of `readEvents` for an `EV_ABS` event. -/
def absEvent (C : Consts) (s : Hub) (event : InputEvent) : Hub :=
  if event.code = C.abs .EVENT_TYPE_LIGHT then
    if event.value ≠ -1 then
      (s.pend (C.slot .CW_LIGHT)).setData (C.slot .CW_LIGHT) 0
        (indexToValue (intToIndex C.sizeBits event.value))
    else s
  else processEvent C s event.code event.value

/-- The branch of the loop of `readEvents` for an `EV_REL` event. -/
def relEvent (C : Consts) (s : Hub) (event : InputEvent) : Hub :=
  let s1 :=
    if event.code = REL_HTC_Any_Motion then
      (s.pend (C.slot .HTC_ANY_MOTION)).setData (C.slot .HTC_ANY_MOTION) 0 (FVal.ofInt 1)
    else s
  if event.code = REL_Significant_Motion then
    (s1.pend (C.slot .CW_SIGNIFICANT_MOTION)).setData (C.slot .CW_SIGNIFICANT_MOTION) 0
      (FVal.ofInt 1)
  else s1

/-- The `while` loop of `readEvents` over the events the reader holds: it stops
when the capacity is used up or the reader is empty, and leaves the events it
did not reach in the reader. Returns the state and the records copied out. -/
def eventLoop (C : Consts) (env : Env) : List InputEvent → Hub → Int → Hub × List Emitted
  | [], s, _ => ({ s with mInputReader := [] }, [])
  | event :: rest, s, count =>
    if count = 0 then ({ s with mInputReader := event :: rest }, [])
    else if event.type = EV_ABS then eventLoop C env rest (absEvent C s event) count
    else if event.type = EV_REL then eventLoop C env rest (relEvent C s event) count
    else if event.type = EV_SYN then
      let r := syncStep C env (timevalToNano event.sec event.usec) s count
      let r2 := eventLoop C env rest r.1 r.2.1
      (r2.1, r.2.2 ++ r2.2)
    else eventLoop C env rest s count

/-- What a call of `readEvents` does: its return value, the records it copies to
the caller's buffer (in buffer order) and the state it leaves. -/
structure ReadResult where
  ret : Int
  written : List Emitted
  hub : Hub

/-- Serve the synthetic record of slot `j`: stamp it with the time of the call,
copy it to the buffer and return `!!mEnabled`. -/
def serveSynthetic (env : Env) (s : Hub) (j : Nat) : ReadResult :=
  let s1 := s.setTimestamp j env.now
  { ret := if s1.mEnabled ≠ 0 then 1 else 0
    written := [⟨j, s1.mPendingEvents j⟩]
    hub := s1 }

/-- The method `CwMcuSensor::readEvents`. -/
def readEvents (C : Consts) (env : Env) (s : Hub) (count : Int) : ReadResult :=
  if count < 1 then ⟨-EINVAL, [], s⟩
  else if s.mHasPendingEventPressure then
    serveSynthetic env { s with mHasPendingEventPressure := false } (C.slot .CW_PRESSURE)
  else if s.mHasPendingEventLight then
    serveSynthetic env { s with mHasPendingEventLight := false } (C.slot .CW_LIGHT)
  else if s.mHasPendingEventMagnetic then
    serveSynthetic env { s with mHasPendingEventMagnetic := false } (C.slot .CW_MAGNETIC)
  else if s.mHasPendingEventOrientation then
    serveSynthetic env { s with mHasPendingEventOrientation := false } (C.slot .CW_ORIENTATION)
  else
    let f := fill env s
    if f.1 < 0 then ⟨f.1, [], f.2⟩
    else
      let r := eventLoop C env f.2.mInputReader f.2 count
      ⟨r.2.length, r.2, r.1⟩

/-- The method `CwMcuSensor::hasPendingEvents`. -/
def hasPendingEvents (s : Hub) : Bool :=
  s.mHasPendingEventPressure || s.mHasPendingEventActivity || s.mHasPendingEventLight ||
    s.mHasPendingEventMagnetic || s.mHasPendingEventOrientation

/-- The destructor `CwMcuSensor::~CwMcuSensor`. -/
def destroy (C : Consts) (env : Env) (s : Hub) : Hub :=
  if s.mEnabled ≠ 0 then (setEnable C env s 0 0).2 else s

/-! ## The constructor -/

/-- One block of the constructor: the assignments to `version`, `sensor` and
`type` of slot `j`. -/
def Hub.setMeta (s : Hub) (j : Nat) (version sensor type : Int) : Hub :=
  let r := s.mPendingEvents j
  let r1 := { r with version := version, sensor := sensor, type := type }
  { s with mPendingEvents := Function.update s.mPendingEvents j r1 }

/-- The call `memset(mPendingEvents[j].data, 0, sizeof(mPendingEvents[j].data))`:
every element of the float array becomes zero, and so does the accuracy byte,
which lies inside the array. -/
def Hub.zeroData (s : Hub) (j : Nat) : Hub :=
  let r := s.mPendingEvents j
  let r1 := { r with data := fun _ => FVal.ofInt 0, status := 0 }
  { s with mPendingEvents := Function.update s.mPendingEvents j r1 }

/-- The three assignments that start the block of a slot in the constructor. -/
def Hub.initRecord (s : Hub) (C : Consts) (A : SysConsts) (k : Slot) (h : Handle)
    (t : SensorType) : Hub :=
  s.setMeta (C.slot k) A.eventSize (C.handle h) (A.sensorType t)

/-- The block of a slot in the constructor that also assigns
`SENSOR_STATUS_ACCURACY_HIGH` to the accuracy byte (the constant is narrowed to
the signed byte like every value assigned to `status`). -/
def Hub.initRecordHigh (s : Hub) (C : Consts) (A : SysConsts) (k : Slot) (h : Handle)
    (t : SensorType) : Hub :=
  (s.initRecord C A k h t).setStatus (C.slot k) A.accuracyHigh

/-- The constructor `CwMcuSensor::CwMcuSensor`, as far as it acts on the object.
`mem` is the storage before the constructor runs: the initializer list sets the
enabled mask, the reader and the five flags, and leaves the pending mask and the
records as the storage holds them; `hasFd` tells whether `data_fd` is not zero.
The calibration copies that end the constructor act on files only. -/
def CwMcuSensor (C : Consts) (A : SysConsts) (env : Env) (hasFd : Bool) (mem : Hub) : Hub :=
  let s0 : Hub :=
    { mem with
      mEnabled := 0
      mInputReader := []
      mHasPendingEventPressure := false
      mHasPendingEventActivity := false
      mHasPendingEventLight := false
      mHasPendingEventMagnetic := false
      mHasPendingEventOrientation := false }
  let s1 := s0.initRecord C A .CW_ACCELERATION .ID_A .SENSOR_TYPE_ACCELEROMETER
  let s2 := s1.initRecord C A .CW_MAGNETIC .ID_M .SENSOR_TYPE_MAGNETIC_FIELD
  let s3 := s2.initRecord C A .CW_GYRO .ID_GY .SENSOR_TYPE_GYROSCOPE
  let s4 := (s3.initRecord C A .CW_LIGHT .ID_L .SENSOR_TYPE_LIGHT).zeroData (C.slot .CW_LIGHT)
  let s5 :=
    (s4.initRecord C A .CW_PRESSURE .ID_PS .SENSOR_TYPE_PRESSURE).zeroData (C.slot .CW_PRESSURE)
  let s6 := s5.initRecordHigh C A .CW_ORIENTATION .ID_O .SENSOR_TYPE_ORIENTATION
  let s7 := s6.initRecordHigh C A .CW_ROTATIONVECTOR .ID_RV .SENSOR_TYPE_ROTATION_VECTOR
  let s8 :=
    s7.initRecordHigh C A .CW_LINEARACCELERATION .ID_LA .SENSOR_TYPE_LINEAR_ACCELERATION
  let s9 := s8.initRecordHigh C A .CW_GRAVITY .ID_G .SENSOR_TYPE_GRAVITY
  let s10 := s9.initRecordHigh C A .CW_MAGNETIC_UNCALIBRATED .ID_CW_MAGNETIC_UNCALIBRATED
    .SENSOR_TYPE_MAGNETIC_FIELD_UNCALIBRATED
  let s11 := s10.initRecordHigh C A .CW_GYROSCOPE_UNCALIBRATED .ID_CW_GYROSCOPE_UNCALIBRATED
    .SENSOR_TYPE_GYROSCOPE_UNCALIBRATED
  let s12 := s11.initRecordHigh C A .CW_GAME_ROTATION_VECTOR .ID_CW_GAME_ROTATION_VECTOR
    .SENSOR_TYPE_GAME_ROTATION_VECTOR
  let s13 := s12.initRecordHigh C A .CW_GEOMAGNETIC_ROTATION_VECTOR
    .ID_CW_GEOMAGNETIC_ROTATION_VECTOR .SENSOR_TYPE_GEOMAGNETIC_ROTATION_VECTOR
  let s14 := s13.initRecordHigh C A .CW_SIGNIFICANT_MOTION .ID_CW_SIGNIFICANT_MOTION
    .SENSOR_TYPE_SIGNIFICANT_MOTION
  let s15 := s14.initRecordHigh C A .CW_STEP_DETECTOR .ID_CW_STEP_DETECTOR
    .SENSOR_TYPE_STEP_DETECTOR
  let s16 := s15.initRecord C A .CW_STEP_COUNTER .ID_CW_STEP_COUNTER .SENSOR_TYPE_STEP_COUNTER
  if hasFd then (setEnable C env s16 0 1).2 else s16

/-! ## The calibration file reader -/

/-- The test `isspace` of the C library on a byte. -/
def isspace (c : Nat) : Bool := c = 32 || (9 ≤ c && c ≤ 13)

/-- The test `isdigit` of the C library on a byte. -/
def isdigit (c : Nat) : Bool := 48 ≤ c && c ≤ 57

/-- The number that a run of decimal digits writes. -/
def digitsValue (digits : List Nat) : Nat :=
  digits.foldl (fun acc d => 10 * acc + (d - 48)) 0

/-- The outcome of one `%d` conversion of `fscanf`. -/
inductive Scan
  /-- An integer was read; `rest` is the input after it. -/
  | value (v : Int) (rest : List Nat)
  /-- The input does not start with an integer (a matching failure). -/
  | noMatch
  /-- The input ended before any character of an integer (an input failure). -/
  | endOfInput
  deriving DecidableEq, Repr

/-- One `%d` conversion of `fscanf` on the bytes `input`, after the C standard:
white space is skipped, then an optional sign and a non-empty run of digits are
read. Numbers outside the range of `int` are not modelled. -/
def scanInt (input : List Nat) : Scan :=
  match input.dropWhile isspace with
  | [] => Scan.endOfInput
  | c :: cs =>
    let body := if c = 45 ∨ c = 43 then cs else c :: cs
    let digits := body.takeWhile isdigit
    if digits.isEmpty then Scan.noMatch
    else
      let n : Int := digitsValue digits
      Scan.value (if c = 45 then -n else n) (body.dropWhile isdigit)

/-- The value `EOF` of the C library. -/
def EOF : Int := -1

/-- The call `fscanf(fp, "%d %d %d\n", &str[0], &str[1], &str[2])`: the number of
integers assigned (`EOF` when the input ends before the first), and the array. -/
def fscanf3 (input : List Nat) (str : Nat → Int) : Int × (Nat → Int) :=
  match scanInt input with
  | Scan.endOfInput => (EOF, str)
  | Scan.noMatch => (0, str)
  | Scan.value v0 rest0 =>
    let str0 := Function.update str 0 v0
    match scanInt rest0 with
    | Scan.value v1 rest1 =>
      let str1 := Function.update str0 1 v1
      match scanInt rest1 with
      | Scan.value v2 _ => (3, Function.update str1 2 v2)
      | _ => (2, str1)
    | _ => (1, str0)

/-- The loop of `cw_read_calibrator_file` for the compass: `n` more calls of
`fscanf(fp, "%d ", &str[i])` from index `i` on; a call that assigns nothing ends
the function with its result (0 on a matching failure, `EOF` at the end of the
input). -/
def readCompass : Nat → Nat → List Nat → (Nat → Int) → Int × (Nat → Int)
  | 0, _, _, str => (0, str)
  | n + 1, i, input, str =>
    match scanInt input with
    | Scan.value v rest => readCompass n (i + 1) rest (Function.update str i v)
    | Scan.noMatch => (0, str)
    | Scan.endOfInput => (EOF, str)

/-- The constant `COMPASS_CALIBRATION_DATA_SIZE`, defined in the source as 26. -/
def COMPASS_CALIBRATION_DATA_SIZE : Nat := 26

/-- The method `CwMcuSensor::cw_read_calibrator_file`; `file` is the content of
the file at `path`, `none` when it cannot be opened. Returns the result and the
array `str`. -/
def cw_read_calibrator_file (C : Consts) (type : Nat) (file : Option (List Nat))
    (str : Nat → Int) : Int × (Nat → Int) :=
  match file with
  | none => (-1, str)
  | some content =>
    if type = C.slot .CW_GYRO ∨ type = C.slot .CW_ACCELERATION then
      (0, (fscanf3 content str).2)
    else if type = C.slot .CW_MAGNETIC then
      readCompass COMPASS_CALIBRATION_DATA_SIZE 0 content str
    else (0, str)

/-! ## The calibration file writer -/

/-- The decimal digits of `n` as bytes, most significant first, written in front
of `acc`; `fuel` bounds the number of digits. -/
def decimalDigitsAux : Nat → Nat → List Nat → List Nat
  | 0, _, acc => acc
  | fuel + 1, n, acc =>
    let acc1 := (48 + n % 10) :: acc
    if n / 10 = 0 then acc1 else decimalDigitsAux fuel (n / 10) acc1

/-- The decimal digits of `n` as bytes. -/
def decimalDigits (n : Nat) : List Nat := decimalDigitsAux (n + 1) n []

/-- The bytes that the conversion `%d` of `printf` writes for `v`. -/
def formatInt (v : Int) : List Nat :=
  (if v < 0 then [45] else []) ++ decimalDigits v.natAbs

/-- The size of the buffer `buf` of `cw_save_calibrator_file`. -/
def SAVE_BUFFER_SIZE : Nat := 256

/-- The loop of `cw_save_calibrator_file` for the compass: `n` more rounds from
index `i` on, while `pbuf` is inside the buffer. `text` is the string that `buf`
holds and `pos` the offset of `pbuf`; `snprintf(pbuf, size, "%d ", str[i])` writes
at most `size - 1` bytes of the item and returns the length of the whole item. -/
def saveCompass : Nat → Nat → (Nat → Int) → List Nat → Nat → List Nat
  | 0, _, _, text, _ => text
  | n + 1, i, str, text, pos =>
    if pos < SAVE_BUFFER_SIZE then
      let item := formatInt (str i) ++ [32]
      let size := SAVE_BUFFER_SIZE - pos
      saveCompass n (i + 1) str (text ++ item.take (size - 1)) (pos + item.length)
    else text

/-- The method `CwMcuSensor::cw_save_calibrator_file`; `canOpen` tells whether
`fopen(path, "w+")` works. Returns the new content of the file, `none` when the
file is not touched. -/
def cw_save_calibrator_file (C : Consts) (type : Nat) (canOpen : Bool) (str : Nat → Int) :
    Option (List Nat) :=
  if canOpen = false then none
  else if type = C.slot .CW_GYRO ∨ type = C.slot .CW_ACCELERATION then
    some (formatInt (str 0) ++ [32] ++ formatInt (str 1) ++ [32] ++ formatInt (str 2) ++ [10])
  else if type = C.slot .CW_MAGNETIC then
    some (saveCompass COMPASS_CALIBRATION_DATA_SIZE 0 str [] 0 ++ [10])
  else some []

/-! ## Notions used to state the properties -/

/-- Whether the pending bit and the enabled bit of slot `j` are both set. -/
def isPendingEnabled (s : Hub) (j : Nat) : Bool :=
  hasBit s.mPendingMask j && hasBit s.mEnabled j

/-- The slots below `numSensors` whose pending bit and enabled bit are both set,
in ascending order. -/
def pendingEnabled (C : Consts) (s : Hub) : List Nat :=
  (List.range C.numSensors).filter (isPendingEnabled s)

/-- The four synthetic-pending flags that `readEvents` serves. -/
inductive SynFlag
  | pressure | light | magnetic | orientation
  deriving DecidableEq, Repr

/-- The slot whose record a synthetic flag announces. -/
def SynFlag.slot (C : Consts) : SynFlag → Nat
  | .pressure => C.slot .CW_PRESSURE
  | .light => C.slot .CW_LIGHT
  | .magnetic => C.slot .CW_MAGNETIC
  | .orientation => C.slot .CW_ORIENTATION

/-- The synthetic flags that are raised, in the order pressure, light, magnetic,
orientation. -/
def raised (s : Hub) : List SynFlag :=
  (if s.mHasPendingEventPressure then [SynFlag.pressure] else []) ++
  (if s.mHasPendingEventLight then [SynFlag.light] else []) ++
  (if s.mHasPendingEventMagnetic then [SynFlag.magnetic] else []) ++
  (if s.mHasPendingEventOrientation then [SynFlag.orientation] else [])

/-- Successive calls of `readEvents` with the same capacity, one for each
environment of the list; returns what each call wrote and the final state. -/
def readMany (C : Consts) (count : Int) : List Env → Hub → List (List Emitted) × Hub
  | [], s => ([], s)
  | env :: envs, s =>
    let r := readEvents C env s count
    let rs := readMany C count envs r.hub
    (r.written :: rs.1, rs.2)

/-- The value of a float term in exact arithmetic, over an ordered field `K`
with a square root `sqrt` and values `cv` for the conversion constants. The case
`rv4` is the arithmetic of `calculate_rv_4th_element`:
`q0 = 1 - q1*q1 - q2*q2 - q3*q3; q0 = (q0 > 0) ? sqrt(q0) : 0`. -/
def FVal.eval {K : Type} [LinearOrderedField K] (sqrt : K → K) (cv : Conv → K) : FVal → K
  | FVal.ofInt n => (n : K)
  | FVal.conv c => cv c
  | FVal.mul a b => a.eval sqrt cv * b.eval sqrt cv
  | FVal.div a b => a.eval sqrt cv / b.eval sqrt cv
  | FVal.rv4 q1 q2 q3 =>
    let q0 := 1 - q1.eval sqrt cv * q1.eval sqrt cv - q2.eval sqrt cv * q2.eval sqrt cv -
      q3.eval sqrt cv * q3.eval sqrt cv
    if q0 > 0 then sqrt q0 else 0

/-- The state `s` with the reader holding `held` and `waiting` waiting in the
event device. -/
def Hub.withBatch (s : Hub) (held waiting : List InputEvent) : Hub :=
  { s with mInputReader := held, dataFd := waiting }

/-- The state `s` with the events that `drop` selects removed from the batch:
from the events the reader holds and from those waiting in the event device. -/
def Hub.withoutEvents (s : Hub) (drop : InputEvent → Bool) : Hub :=
  { s with
    mInputReader := s.mInputReader.filter (fun e => !drop e)
    dataFd := s.dataFd.filter (fun e => !drop e) }

/-- Whether slot `j` is one of the three rotation-vector slots. -/
def isRotationSlot (C : Consts) (j : Nat) : Prop :=
  j = C.slot .CW_ROTATIONVECTOR ∨ j = C.slot .CW_GAME_ROTATION_VECTOR ∨
    j = C.slot .CW_GEOMAGNETIC_ROTATION_VECTOR

/-- The slot that owns an absolute code: the slot whose record and pending bit
the case of the code in `processEvent` (for the light code, the branch of
`readEvents`) writes. -/
def AbsCode.owner : AbsCode → Slot
  | .EVENT_TYPE_LIGHT => .CW_LIGHT
  | .ABS_ACC_X | .ABS_ACC_Y | .ABS_ACC_Z => .CW_ACCELERATION
  | .ABS_MAG_X | .ABS_MAG_Y | .ABS_MAG_Z | .ABS_MAG_ACCURACY => .CW_MAGNETIC
  | .ABS_GYRO_X | .ABS_GYRO_Y | .ABS_GYRO_Z => .CW_GYRO
  | .ABS_PRESSURE_X | .ABS_PRESSURE_Y | .ABS_PRESSURE_Z => .CW_PRESSURE
  | .ABS_ORI_X | .ABS_ORI_Y | .ABS_ORI_Z | .ABS_ORI_ACCURACY => .CW_ORIENTATION
  | .ABS_ROT_X | .ABS_ROT_Y | .ABS_ROT_Z => .CW_ROTATIONVECTOR
  | .ABS_LIN_X | .ABS_LIN_Y | .ABS_LIN_Z => .CW_LINEARACCELERATION
  | .ABS_GRA_X | .ABS_GRA_Y | .ABS_GRA_Z => .CW_GRAVITY
  | .ABS_MAGNETIC_UNCALIBRATED_X | .ABS_MAGNETIC_UNCALIBRATED_Y
  | .ABS_MAGNETIC_UNCALIBRATED_Z | .ABS_MAGNETIC_UNCALIBRATED_BIAS_X
  | .ABS_MAGNETIC_UNCALIBRATED_BIAS_Y | .ABS_MAGNETIC_UNCALIBRATED_BIAS_Z =>
    .CW_MAGNETIC_UNCALIBRATED
  | .ABS_GYROSCOPE_UNCALIBRATED_X | .ABS_GYROSCOPE_UNCALIBRATED_Y
  | .ABS_GYROSCOPE_UNCALIBRATED_Z | .ABS_GYROSCOPE_UNCALIBRATED_BIAS_X
  | .ABS_GYROSCOPE_UNCALIBRATED_BIAS_Y | .ABS_GYROSCOPE_UNCALIBRATED_BIAS_Z =>
    .CW_GYROSCOPE_UNCALIBRATED
  | .ABS_GAME_ROTATION_VECTOR_X | .ABS_GAME_ROTATION_VECTOR_Y
  | .ABS_GAME_ROTATION_VECTOR_Z => .CW_GAME_ROTATION_VECTOR
  | .ABS_GEOMAGNETIC_ROTATION_VECTOR_X | .ABS_GEOMAGNETIC_ROTATION_VECTOR_Y
  | .ABS_GEOMAGNETIC_ROTATION_VECTOR_Z => .CW_GEOMAGNETIC_ROTATION_VECTOR
  | .ABS_STEP_DETECTOR => .CW_STEP_DETECTOR
  | .ABS_STEP_COUNTER => .CW_STEP_COUNTER

/-- Whether a float term is the raw value `v` scaled by a conversion constant:
the product or the quotient of the float of `v` and one of the constants. -/
def isScaledBy (v : Int) : FVal → Bool
  | FVal.mul (FVal.ofInt n) (FVal.conv _) => n == v
  | FVal.div (FVal.ofInt n) (FVal.conv _) => n == v
  | _ => false

/-- The element of the float array that the name of a code designates: 0, 1, 2
for the axes X, Y, Z, 3, 4, 5 for the bias axes X, Y, Z, and 0 for the two step
codes. The light code and the two accuracy codes designate no element of their
own; they are given 0. -/
def AbsCode.element : AbsCode → Nat
  | .ABS_ACC_X | .ABS_MAG_X | .ABS_GYRO_X | .ABS_PRESSURE_X | .ABS_ORI_X | .ABS_ROT_X
  | .ABS_LIN_X | .ABS_GRA_X | .ABS_MAGNETIC_UNCALIBRATED_X | .ABS_GYROSCOPE_UNCALIBRATED_X
  | .ABS_GAME_ROTATION_VECTOR_X | .ABS_GEOMAGNETIC_ROTATION_VECTOR_X => 0
  | .ABS_ACC_Y | .ABS_MAG_Y | .ABS_GYRO_Y | .ABS_PRESSURE_Y | .ABS_ORI_Y | .ABS_ROT_Y
  | .ABS_LIN_Y | .ABS_GRA_Y | .ABS_MAGNETIC_UNCALIBRATED_Y | .ABS_GYROSCOPE_UNCALIBRATED_Y
  | .ABS_GAME_ROTATION_VECTOR_Y | .ABS_GEOMAGNETIC_ROTATION_VECTOR_Y => 1
  | .ABS_ACC_Z | .ABS_MAG_Z | .ABS_GYRO_Z | .ABS_PRESSURE_Z | .ABS_ORI_Z | .ABS_ROT_Z
  | .ABS_LIN_Z | .ABS_GRA_Z | .ABS_MAGNETIC_UNCALIBRATED_Z | .ABS_GYROSCOPE_UNCALIBRATED_Z
  | .ABS_GAME_ROTATION_VECTOR_Z | .ABS_GEOMAGNETIC_ROTATION_VECTOR_Z => 2
  | .ABS_MAGNETIC_UNCALIBRATED_BIAS_X | .ABS_GYROSCOPE_UNCALIBRATED_BIAS_X => 3
  | .ABS_MAGNETIC_UNCALIBRATED_BIAS_Y | .ABS_GYROSCOPE_UNCALIBRATED_BIAS_Y => 4
  | .ABS_MAGNETIC_UNCALIBRATED_BIAS_Z | .ABS_GYROSCOPE_UNCALIBRATED_BIAS_Z => 5
  | .ABS_STEP_DETECTOR | .ABS_STEP_COUNTER => 0
  | .EVENT_TYPE_LIGHT | .ABS_MAG_ACCURACY | .ABS_ORI_ACCURACY => 0

/-- The raw value `v` converted for the physical quantity of a slot: multiplied
by `CONVERT_A` (acceleration), `CONVERT_M` (magnetic field, calibrated or not),
`CONVERT_GYRO` (angular rate, calibrated or not), `CONVERT_O` (orientation angle)
or `CONVERT_ALL` (linear acceleration, gravity), divided by `CONVERT_PRESSURE`
(pressure) or `CONVERT_RV` (the three rotation vectors). The step slots have no
conversion constant: their value is the raw value, and so it is for the slots
that no code of the table of `processEvent` owns. -/
def Slot.scaled (k : Slot) (v : Int) : FVal :=
  match k with
  | .CW_ACCELERATION => (FVal.ofInt v).mul (FVal.conv .CONVERT_A)
  | .CW_MAGNETIC | .CW_MAGNETIC_UNCALIBRATED => (FVal.ofInt v).mul (FVal.conv .CONVERT_M)
  | .CW_GYRO | .CW_GYROSCOPE_UNCALIBRATED => (FVal.ofInt v).mul (FVal.conv .CONVERT_GYRO)
  | .CW_PRESSURE => (FVal.ofInt v).div (FVal.conv .CONVERT_PRESSURE)
  | .CW_ORIENTATION => (FVal.ofInt v).mul (FVal.conv .CONVERT_O)
  | .CW_ROTATIONVECTOR | .CW_GAME_ROTATION_VECTOR | .CW_GEOMAGNETIC_ROTATION_VECTOR =>
    (FVal.ofInt v).div (FVal.conv .CONVERT_RV)
  | .CW_LINEARACCELERATION | .CW_GRAVITY => (FVal.ofInt v).mul (FVal.conv .CONVERT_ALL)
  | .CW_STEP_DETECTOR | .CW_STEP_COUNTER | .CW_LIGHT | .CW_SIGNIFICANT_MOTION
  | .HTC_ANY_MOTION => FVal.ofInt v

/-! ## A concrete layout, to evaluate the definitions on -/

/-- A layout of the slot indices, for evaluation. -/
def exampleSlot : Slot → Nat
  | .CW_ACCELERATION => 0 | .CW_MAGNETIC => 1 | .CW_GYRO => 2 | .CW_LIGHT => 3
  | .CW_PRESSURE => 5 | .CW_ORIENTATION => 6 | .CW_ROTATIONVECTOR => 7
  | .CW_LINEARACCELERATION => 8 | .CW_GRAVITY => 9 | .HTC_ANY_MOTION => 11
  | .CW_MAGNETIC_UNCALIBRATED => 16 | .CW_GYROSCOPE_UNCALIBRATED => 17
  | .CW_GAME_ROTATION_VECTOR => 18 | .CW_GEOMAGNETIC_ROTATION_VECTOR => 19
  | .CW_SIGNIFICANT_MOTION => 20 | .CW_STEP_DETECTOR => 21 | .CW_STEP_COUNTER => 22

/-- A layout of the handles, for evaluation: each handle is the index of its slot. -/
def exampleHandle : Handle → Int
  | .ID_A => 0 | .ID_M => 1 | .ID_GY => 2 | .ID_L => 3 | .ID_PS => 5 | .ID_O => 6
  | .ID_RV => 7 | .ID_LA => 8 | .ID_G => 9 | .ID_Any_Motion => 11
  | .ID_CW_MAGNETIC_UNCALIBRATED => 16 | .ID_CW_GYROSCOPE_UNCALIBRATED => 17
  | .ID_CW_GAME_ROTATION_VECTOR => 18 | .ID_CW_GEOMAGNETIC_ROTATION_VECTOR => 19
  | .ID_CW_SIGNIFICANT_MOTION => 20 | .ID_CW_STEP_DETECTOR => 21
  | .ID_CW_STEP_COUNTER => 22

/-- A layout of the header constants, for evaluation: 23 slots, the absolute
codes numbered in the order listed, a 64-bit `size_t`. -/
def exampleConsts : Consts where
  numSensors := 23
  slot := exampleSlot
  handle := exampleHandle
  abs := AbsCode.toCtorIdx
  sizeBits := 64

/-- A record with every field zero. -/
def zeroEvent : SensorsEvent := ⟨0, 0, 0, 0, fun _ => FVal.ofInt 0, 0⟩

/-- A state with nothing enabled, nothing pending, no flag raised and no event
waiting. -/
def idleHub : Hub :=
  { mEnabled := 0, mPendingMask := 0, mPendingEvents := fun _ => zeroEvent
    mHasPendingEventPressure := false, mHasPendingEventActivity := false
    mHasPendingEventLight := false, mHasPendingEventMagnetic := false
    mHasPendingEventOrientation := false
    mInputReader := [], dataFd := [], nOpen := 0, ctrlLog := [] }

/-- An environment in which every system call works: the clock reads `now` and
every current-value query reports `v`. -/
def okEnv (now v : Int) : Env :=
  { now := now, openOk := fun _ => true, writeOk := fun _ => true
    query := fun _ => some v, driverMag := some [], fillError := none }

/-- A sync marker with the time `sec` seconds. -/
def syncAt (sec : Int) : InputEvent := ⟨EV_SYN, 0, 0, sec, 0⟩

/-- The relative event that reports significant motion. -/
def significantMotionEvent : InputEvent := ⟨EV_REL, REL_Significant_Motion, 1, 0, 0⟩

/-- The idle state after `setEnable(ID_CW_SIGNIFICANT_MOTION, 1)`, with a
significant-motion event and a sync marker waiting in the event device. -/
def armedHub : Hub :=
  { (setEnable exampleConsts (okEnv 0 0) idleHub
      (exampleConsts.handle .ID_CW_SIGNIFICANT_MOTION) 1).2 with
    dataFd := [significantMotionEvent, syncAt 5] }

/-- The idle state after `setEnable(ID_L, 1)` (the light level is queried as 4),
`setEnable(ID_A, 1)` and `setEnable(ID_L, 0)`: the light flag is raised, the
light slot is disabled and the accelerometer is enabled. -/
def lightOffHub : Hub :=
  (setEnable exampleConsts (okEnv 0 4)
    (setEnable exampleConsts (okEnv 0 4)
      (setEnable exampleConsts (okEnv 0 4) idleHub (exampleConsts.handle .ID_L) 1).2
      (exampleConsts.handle .ID_A) 1).2
    (exampleConsts.handle .ID_L) 0).2

/-- The idle state after `setEnable(ID_L, 1)` (the light level is queried as 4)
and `setEnable(ID_L, 0)`: the light flag is raised and nothing is enabled. -/
def allOffHub : Hub :=
  (setEnable exampleConsts (okEnv 0 4)
    (setEnable exampleConsts (okEnv 0 4) idleHub (exampleConsts.handle .ID_L) 1).2
    (exampleConsts.handle .ID_L) 0).2

/-- The idle state, with a sync marker waiting in the event device, after
`setEnable(ID_M, 1)`, `setEnable(ID_L, 1)` and `setEnable(ID_PS, 1)`, every query
answering 4: the magnetic, light and pressure flags are raised. -/
def threeFlagsHub : Hub :=
  (setEnable exampleConsts (okEnv 0 4)
    (setEnable exampleConsts (okEnv 0 4)
      (setEnable exampleConsts (okEnv 0 4) { idleHub with dataFd := [syncAt 9] }
        (exampleConsts.handle .ID_M) 1).2
      (exampleConsts.handle .ID_L) 1).2
    (exampleConsts.handle .ID_PS) 1).2

/-- A state in which the accelerometer (slot 0) and the magnetometer (slot 1)
are enabled and pending, with a sync marker waiting in the event device. -/
def twoPendingHub : Hub :=
  { idleHub with mEnabled := 3, mPendingMask := 3, dataFd := [syncAt 9] }

/-- An absolute event with the given code and value. -/
def absAt (code : Nat) (value : Int) : InputEvent := ⟨EV_ABS, code, value, 0, 0⟩

/-- The idle state after `setEnable(ID_M, 1)` with a failing accuracy query, with
the magnetometer frame 100, 200, 300, accuracy 3 and a sync marker at 1000
seconds waiting in the event device. -/
def magnetometerHub : Hub :=
  { (setEnable exampleConsts { okEnv 0 0 with query := fun _ => none } idleHub
      (exampleConsts.handle .ID_M) 1).2 with
    dataFd := [absAt (exampleConsts.abs .ABS_MAG_X) 100,
      absAt (exampleConsts.abs .ABS_MAG_Y) 200, absAt (exampleConsts.abs .ABS_MAG_Z) 300,
      absAt (exampleConsts.abs .ABS_MAG_ACCURACY) 3, syncAt 1000] }

/-- The values of the Android header, for evaluation: the sensor types as the
Android sensors interface numbers them, a record of 104 bytes and the accuracy
level 3. -/
def exampleSys : SysConsts where
  sensorType := fun t =>
    match t with
    | .SENSOR_TYPE_ACCELEROMETER => 1 | .SENSOR_TYPE_MAGNETIC_FIELD => 2
    | .SENSOR_TYPE_ORIENTATION => 3 | .SENSOR_TYPE_GYROSCOPE => 4
    | .SENSOR_TYPE_LIGHT => 5 | .SENSOR_TYPE_PRESSURE => 6
    | .SENSOR_TYPE_GRAVITY => 9 | .SENSOR_TYPE_LINEAR_ACCELERATION => 10
    | .SENSOR_TYPE_ROTATION_VECTOR => 11 | .SENSOR_TYPE_MAGNETIC_FIELD_UNCALIBRATED => 14
    | .SENSOR_TYPE_GAME_ROTATION_VECTOR => 15 | .SENSOR_TYPE_GYROSCOPE_UNCALIBRATED => 16
    | .SENSOR_TYPE_SIGNIFICANT_MOTION => 17 | .SENSOR_TYPE_STEP_DETECTOR => 18
    | .SENSOR_TYPE_STEP_COUNTER => 19 | .SENSOR_TYPE_GEOMAGNETIC_ROTATION_VECTOR => 20
  eventSize := 104
  accuracyHigh := 3

/-- The magnetometer frame `x`, `y`, `z` with accuracy `a`, followed by a sync
marker at `sec` seconds, on the example layout. -/
def magnetometerFrame (x y z a sec : Int) : List InputEvent :=
  [absAt (exampleConsts.abs .ABS_MAG_X) x, absAt (exampleConsts.abs .ABS_MAG_Y) y,
    absAt (exampleConsts.abs .ABS_MAG_Z) z, absAt (exampleConsts.abs .ABS_MAG_ACCURACY) a,
    syncAt sec]

/-- The state the constructor builds from zeroed storage (it enables the
accelerometer), after `setEnable(ID_M, 1)` with a failing accuracy query, with
the magnetometer frame 100, 200, 300, accuracy 3 and a sync marker at 1000
seconds waiting in the event device. -/
def builtMagnetometerHub : Hub :=
  { (setEnable exampleConsts { okEnv 0 0 with query := fun _ => none }
      (CwMcuSensor exampleConsts exampleSys (okEnv 0 0) true idleHub)
      (exampleConsts.handle .ID_M) 1).2 with
    dataFd := magnetometerFrame 100 200 300 3 1000 }

/-- The state `magnetometerHub` with the accuracy 200 in the frame waiting. -/
def wideAccuracyHub : Hub :=
  { magnetometerHub with dataFd := magnetometerFrame 100 200 300 200 1000 }

/-- The idle state after `setEnable(ID_L, 1)` with a failing light query: only the
light slot (slot 3) is enabled. -/
def lightOnHub : Hub :=
  (setEnable exampleConsts { okEnv 0 0 with query := fun _ => none } idleHub
    (exampleConsts.handle .ID_L) 1).2

/-- A state in which the rotation-vector slot (slot 7) and the accelerometer
(slot 0) are enabled and pending, the rotation vector holding (0, 0, 0). -/
def rotationHub : Hub :=
  { idleHub with mEnabled := 129, mPendingMask := 129 }

/-- The bytes of a file holding the text `1 2` and a line feed. -/
def shortFile : List Nat := [49, 32, 50, 10]

/-- The bytes of a file holding the text `1 2 x` and a line feed. -/
def malformedFile : List Nat := [49, 32, 50, 32, 120, 10]

/-- A compass calibration whose 26 values are all -2147483648. -/
def extremeCalibration : Nat → Int := fun _ => -2147483648

/-- A compass calibration whose first 25 values are 123456789 and whose last
value is 1234567. -/
def longCalibration : Nat → Int := fun i => if i < 25 then 123456789 else 1234567

/-- A compass calibration with the values 0, -1, 2, -3, ..., -25. -/
def smallCalibration : Nat → Int := fun i => if i % 2 = 0 then (i : Int) else -(i : Int)

/-- An absolute event with a code that is in no table: the code 999. -/
def unknownEvent : InputEvent := absAt 999 5

/-- Whether an event is `unknownEvent`. -/
def isUnknownEvent (e : InputEvent) : Bool := decide (e = unknownEvent)

/-- A state with the accelerometer (slot 0) and the magnetometer (slot 1) enabled
and a batch waiting in which events of the unknown code 999 stand between an
accelerometer sample, two sync markers and a magnetometer sample. -/
def noisyHub : Hub :=
  { idleHub with
    mEnabled := 3
    dataFd := [unknownEvent, absAt (exampleConsts.abs .ABS_ACC_X) 7, unknownEvent, syncAt 9,
      absAt (exampleConsts.abs .ABS_MAG_X) 8, unknownEvent, syncAt 10, unknownEvent] }

/-- A state with the accelerometer (slot 0) and the magnetometer (slot 1) enabled
and a batch of four events waiting: an accelerometer sample and a sync marker,
each behind an event of the unknown code 999. -/
def smallNoisyHub : Hub :=
  { idleHub with
    mEnabled := 3
    dataFd := [unknownEvent, absAt (exampleConsts.abs .ABS_ACC_X) 7, unknownEvent, syncAt 9] }

theorem hasBit_eq_testBit (m j : Nat) : hasBit m j = m.testBit j := by
  unfold hasBit bitOf
  rw [Nat.one_shiftLeft, Nat.and_two_pow]
  cases h : m.testBit j <;> simp

theorem hasBit_setBit (m j i : Nat) :
    hasBit (setBit m j) i = (hasBit m i || decide (j = i)) := by
  simp only [hasBit_eq_testBit]
  unfold setBit bitOf
  rw [Nat.one_shiftLeft, Nat.testBit_or, Nat.testBit_two_pow]

theorem hasBit_clearBit (m j i : Nat) :
    hasBit (clearBit m j) i = (hasBit m i && (decide (i < 32) ^^ decide (j = i))) := by
  simp only [hasBit_eq_testBit]
  unfold clearBit bitOf mask32
  rw [Nat.one_shiftLeft, Nat.testBit_and, Nat.testBit_xor, Nat.testBit_two_pow]
  have h32 : (4294967295 : Nat) = 2 ^ 32 - 1 := by norm_num
  rw [h32, Nat.testBit_two_pow_sub_one]

theorem hasBit_clearBit_self {m j : Nat} (hj : j < 32) : hasBit (clearBit m j) j = false := by
  simp [hasBit_clearBit, hj]

theorem hasBit_clearBit_of_ne {m j i : Nat} (hi : i < 32) (hne : j ≠ i) :
    hasBit (clearBit m j) i = hasBit m i := by
  simp [hasBit_clearBit, hi, hne]

theorem hasBit_clearBit_imp {m j i : Nat} (h : hasBit (clearBit m j) i = true) :
    hasBit m i = true := by
  rw [hasBit_clearBit] at h
  simp only [Bool.and_eq_true] at h
  exact h.1

theorem hasBit_zero (i : Nat) : hasBit 0 i = false := by
  simp [hasBit_eq_testBit]

theorem hasBit_or_bit (m f w i : Nat) :
    hasBit (m ||| (f <<< w)) i = (hasBit m i || hasBit (f <<< w) i) := by
  simp only [hasBit_eq_testBit, Nat.testBit_or]

theorem hasBit_one_shift (w i : Nat) : hasBit (1 <<< w) i = decide (w = i) := by
  rw [hasBit_eq_testBit, Nat.one_shiftLeft, Nat.testBit_two_pow]

theorem mask_eq_zero_of_bits {m n : Nat} (hm : m < 2 ^ n)
    (h : ∀ i, i < n → hasBit m i = false) : m = 0 := by
  apply Nat.eq_of_testBit_eq
  intro i
  rw [Nat.zero_testBit]
  by_cases hi : i < n
  · rw [← hasBit_eq_testBit]; exact h i hi
  · apply Nat.testBit_lt_two_pow
    exact lt_of_lt_of_le hm (Nat.pow_le_pow_right (by norm_num) (not_lt.mp hi))

/-! ## The example layout is well formed -/

theorem exampleConsts_wf : exampleConsts.WF where
  numSensors_le := by decide
  slot_lt := by intro k; cases k <;> decide
  slot_inj := by
    intro a b h
    cases a <;> cases b <;> first | rfl | exact absurd h (by decide)
  handle_inj := by
    intro a b h
    cases a <;> cases b <;> first | rfl | exact absurd h (by decide)

theorem exampleConsts_absDistinct : exampleConsts.AbsDistinct :=
  Function.LeftInverse.injective AbsCode.ofNat_toCtorIdx

/-! ## What `setEnable` leaves alone -/

theorem find_sensor_significant_motion {C : Consts} (hC : C.WF) :
    find_sensor C (C.handle .ID_CW_SIGNIFICANT_MOTION) = C.slot .CW_SIGNIFICANT_MOTION := by
  simp [find_sensor, hC.handle_inj.eq_iff]

theorem toUInt32_slot {C : Consts} (hC : C.WF) (k : Slot) :
    toUInt32 (C.slot k : Int) = C.slot k := by
  have h1 := hC.slot_lt k
  have h2 := hC.numSensors_le
  unfold toUInt32
  omega

theorem setInitialState_frame (C : Consts) (env : Env) (s : Hub) (id : Int) :
    (setInitialState C env s id).2.mEnabled = s.mEnabled ∧
    (setInitialState C env s id).2.mInputReader = s.mInputReader ∧
    (setInitialState C env s id).2.dataFd = s.dataFd ∧
    (setInitialState C env s id).2.nOpen = s.nOpen ∧
    (setInitialState C env s id).2.ctrlLog = s.ctrlLog ∧
    (setInitialState C env s id).2.mHasPendingEventOrientation = s.mHasPendingEventOrientation ∧
    (setInitialState C env s id).2.mHasPendingEventActivity = s.mHasPendingEventActivity := by
  unfold setInitialState initPressureAxis
  split_ifs <;> (repeat' split) <;>
    simp [Hub.pend, Hub.setData, Hub.setStatus]

/-- Disabling through `setEnable` changes nothing but the enabled mask and the
record of control operations. -/
theorem setEnable_zero_frame (C : Consts) (env : Env) (s : Hub) (handle : Int) :
    (setEnable C env s handle 0).2.mPendingMask = s.mPendingMask ∧
    (setEnable C env s handle 0).2.mPendingEvents = s.mPendingEvents ∧
    (setEnable C env s handle 0).2.mHasPendingEventPressure = s.mHasPendingEventPressure ∧
    (setEnable C env s handle 0).2.mHasPendingEventActivity = s.mHasPendingEventActivity ∧
    (setEnable C env s handle 0).2.mHasPendingEventLight = s.mHasPendingEventLight ∧
    (setEnable C env s handle 0).2.mHasPendingEventMagnetic = s.mHasPendingEventMagnetic ∧
    (setEnable C env s handle 0).2.mHasPendingEventOrientation =
      s.mHasPendingEventOrientation ∧
    (setEnable C env s handle 0).2.mInputReader = s.mInputReader ∧
    (setEnable C env s handle 0).2.dataFd = s.dataFd := by
  unfold setEnable
  simp only [ne_eq, not_true_eq_false, and_false, if_false]
  split_ifs <;> (try split) <;> simp

/-- Disabling through `setEnable` sets no bit of the enabled mask. -/
theorem setEnable_zero_enabled_imp (C : Consts) (env : Env) (s : Hub) (handle : Int) (i : Nat)
    (h : hasBit (setEnable C env s handle 0).2.mEnabled i = true) :
    hasBit s.mEnabled i = true := by
  unfold setEnable at h
  simp only [ne_eq, not_true_eq_false, and_false, if_false] at h
  split_ifs at h <;> (try split at h) <;>
    simp only [Nat.zero_shiftLeft, Nat.or_zero] at h <;>
    first | exact h | exact hasBit_clearBit_imp h

/-- With a well-formed header, the self-disable of significant motion touches no
other enabled bit. -/
theorem setEnable_significant_other {C : Consts} (hC : C.WF) (env : Env) (s : Hub) (i : Nat)
    (hi : i < 32) (hne : C.slot .CW_SIGNIFICANT_MOTION ≠ i) :
    hasBit (setEnable C env s (C.handle .ID_CW_SIGNIFICANT_MOTION) 0).2.mEnabled i =
      hasBit s.mEnabled i := by
  unfold setEnable
  simp only [find_sensor_significant_motion hC, toUInt32_slot hC, Int.toNat_ofNat, ne_eq,
    not_true_eq_false, and_false, if_false]
  have hlt := hC.slot_lt .CW_SIGNIFICANT_MOTION
  split_ifs <;> (try split) <;>
    simp only [Nat.zero_shiftLeft, Nat.or_zero] <;>
    first | rfl | exact hasBit_clearBit_of_ne hi hne

/-- With a well-formed header and a control file that opens, the self-disable
of significant motion clears its enabled bit. -/
theorem setEnable_significant_clears {C : Consts} (hC : C.WF) (env : Env) (s : Hub)
    (hopen : env.openOk s.nOpen = true) :
    hasBit (setEnable C env s (C.handle .ID_CW_SIGNIFICANT_MOTION) 0).2.mEnabled
      (C.slot .CW_SIGNIFICANT_MOTION) = false := by
  have hlt := hC.slot_lt .CW_SIGNIFICANT_MOTION
  have hle := hC.numSensors_le
  have h32 : C.slot .CW_SIGNIFICANT_MOTION < 32 := by omega
  unfold setEnable
  simp only [find_sensor_significant_motion hC, toUInt32_slot hC, Int.toNat_ofNat, ne_eq,
    not_true_eq_false, and_false, if_false, hopen, if_true]
  split_ifs <;> (try split) <;>
    simp only [Nat.zero_shiftLeft, Nat.or_zero] <;>
    first | exact hasBit_clearBit_self h32 | omega

/-! ## The loop body on a sync marker -/

theorem calculate_rv_4th_element_frame (C : Consts) (s : Hub) (j : Nat) :
    (calculate_rv_4th_element C s j).mPendingMask = s.mPendingMask ∧
    (calculate_rv_4th_element C s j).mEnabled = s.mEnabled ∧
    (calculate_rv_4th_element C s j).mHasPendingEventPressure = s.mHasPendingEventPressure ∧
    (calculate_rv_4th_element C s j).mHasPendingEventLight = s.mHasPendingEventLight ∧
    (calculate_rv_4th_element C s j).mHasPendingEventMagnetic = s.mHasPendingEventMagnetic ∧
    (calculate_rv_4th_element C s j).mHasPendingEventOrientation =
      s.mHasPendingEventOrientation ∧
    (calculate_rv_4th_element C s j).mInputReader = s.mInputReader ∧
    (calculate_rv_4th_element C s j).dataFd = s.dataFd := by
  unfold calculate_rv_4th_element
  split_ifs <;> simp [Hub.setData]

theorem syncVisit_pending (C : Consts) (env : Env) (time : Int) (s : Hub) (j : Nat) :
    (syncVisit C env time s j).mPendingMask = clearBit s.mPendingMask j := by
  unfold syncVisit
  split_ifs
  · simp [Hub.setTimestamp, (setEnable_zero_frame C env _ _).1]
  · simp [Hub.setTimestamp]

theorem syncVisit_frame (C : Consts) (env : Env) (time : Int) (s : Hub) (j : Nat) :
    (syncVisit C env time s j).mHasPendingEventPressure = s.mHasPendingEventPressure ∧
    (syncVisit C env time s j).mHasPendingEventLight = s.mHasPendingEventLight ∧
    (syncVisit C env time s j).mHasPendingEventMagnetic = s.mHasPendingEventMagnetic ∧
    (syncVisit C env time s j).mHasPendingEventOrientation = s.mHasPendingEventOrientation ∧
    (syncVisit C env time s j).mInputReader = s.mInputReader ∧
    (syncVisit C env time s j).dataFd = s.dataFd := by
  unfold syncVisit
  split_ifs
  · have h := setEnable_zero_frame C env { s with mPendingMask := clearBit s.mPendingMask j }
      (C.handle .ID_CW_SIGNIFICANT_MOTION)
    simp [Hub.setTimestamp, h]
  · simp [Hub.setTimestamp]

theorem syncVisit_enabled_imp (C : Consts) (env : Env) (time : Int) (s : Hub) (j i : Nat)
    (h : hasBit (syncVisit C env time s j).mEnabled i = true) : hasBit s.mEnabled i = true := by
  unfold syncVisit at h
  split_ifs at h
  · have h2 : hasBit (setEnable C env { s with mPendingMask := clearBit s.mPendingMask j }
        (C.handle .ID_CW_SIGNIFICANT_MOTION) 0).2.mEnabled i = true := by
      simpa [Hub.setTimestamp] using h
    have h3 := setEnable_zero_enabled_imp C env _ _ i h2
    exact h3
  · simpa [Hub.setTimestamp] using h

theorem syncVisit_enabled_other {C : Consts} (hC : C.WF) (env : Env) (time : Int) (s : Hub)
    (j i : Nat) (hi : i < 32) (hne : j ≠ i) :
    hasBit (syncVisit C env time s j).mEnabled i = hasBit s.mEnabled i := by
  unfold syncVisit
  split_ifs with hj
  · have h := setEnable_significant_other hC env
      { s with mPendingMask := clearBit s.mPendingMask j } i hi (hj ▸ hne)
    simpa [Hub.setTimestamp] using h
  · simp [Hub.setTimestamp]

theorem syncVisit_enabled_of_ne (C : Consts) (env : Env) (time : Int) (s : Hub) (j : Nat)
    (hj : j ≠ C.slot .CW_SIGNIFICANT_MOTION) :
    (syncVisit C env time s j).mEnabled = s.mEnabled := by
  unfold syncVisit
  simp [hj, Hub.setTimestamp]

theorem syncVisit_significant_disabled {C : Consts} (hC : C.WF) (env : Env) (time : Int)
    (s : Hub) (hopen : ∀ n, env.openOk n = true) :
    hasBit (syncVisit C env time s (C.slot .CW_SIGNIFICANT_MOTION)).mEnabled
      (C.slot .CW_SIGNIFICANT_MOTION) = false := by
  unfold syncVisit
  have h := setEnable_significant_clears hC env
    { s with mPendingMask := clearBit s.mPendingMask (C.slot .CW_SIGNIFICANT_MOTION) }
    (hopen _)
  simpa [Hub.setTimestamp] using h

/-! ## The scan on a sync marker -/

/-- The capacity left after the scan is the capacity before it less the number
of records copied out. -/
theorem syncLoop_count (C : Consts) (env : Env) (time : Int) (n j : Nat) (s : Hub)
    (count : Int) :
    (syncLoop C env time n j s count).2.1 =
      count - (syncLoop C env time n j s count).2.2.length := by
  induction n generalizing j s count with
  | zero => simp [syncLoop]
  | succ n ih =>
    simp only [syncLoop]
    split_ifs
    · simp only [List.length_cons, ih]; push_cast; omega
    · exact ih _ _ _
    · exact ih _ _ _
    · simp

/-- The scan copies out no more records than the capacity allows. -/
theorem syncLoop_length_le (C : Consts) (env : Env) (time : Int) (n j : Nat) (s : Hub)
    (count : Int) (hc : 0 ≤ count) :
    ((syncLoop C env time n j s count).2.2.length : Int) ≤ count := by
  induction n generalizing j s count with
  | zero => simpa [syncLoop] using hc
  | succ n ih =>
    simp only [syncLoop]
    split_ifs with h1 h2 h3
    · have := ih (j + 1) (calculate_rv_4th_element C (syncVisit C env time s j) j) (count - 1)
        (by omega)
      simp only [List.length_cons]; push_cast; omega
    · exact ih _ _ _ hc
    · exact ih _ _ _ hc
    · simpa using hc

/-- The scan sets no pending bit and no enabled bit. -/
theorem syncLoop_masks_imp (C : Consts) (env : Env) (time : Int) (n j : Nat) (s : Hub)
    (count : Int) (i : Nat) :
    (hasBit (syncLoop C env time n j s count).1.mPendingMask i = true →
      hasBit s.mPendingMask i = true) ∧
    (hasBit (syncLoop C env time n j s count).1.mEnabled i = true →
      hasBit s.mEnabled i = true) := by
  induction n generalizing j s count with
  | zero => simp [syncLoop]
  | succ n ih =>
    simp only [syncLoop]
    split_ifs with h1 h2 h3
    · have h := ih (j + 1) (calculate_rv_4th_element C (syncVisit C env time s j) j) (count - 1)
      rw [(calculate_rv_4th_element_frame C _ j).1, (calculate_rv_4th_element_frame C _ j).2.1,
        syncVisit_pending] at h
      exact ⟨fun hp => hasBit_clearBit_imp (h.1 hp),
        fun he => syncVisit_enabled_imp C env time s j i (h.2 he)⟩
    · have h := ih (j + 1) (syncVisit C env time s j) count
      rw [syncVisit_pending] at h
      exact ⟨fun hp => hasBit_clearBit_imp (h.1 hp),
        fun he => syncVisit_enabled_imp C env time s j i (h.2 he)⟩
    · exact ih _ _ _
    · simp

/-- The scan leaves the synthetic flags and the event queues alone. -/
theorem syncLoop_frame (C : Consts) (env : Env) (time : Int) (n j : Nat) (s : Hub)
    (count : Int) :
    (syncLoop C env time n j s count).1.mHasPendingEventPressure = s.mHasPendingEventPressure ∧
    (syncLoop C env time n j s count).1.mHasPendingEventLight = s.mHasPendingEventLight ∧
    (syncLoop C env time n j s count).1.mHasPendingEventMagnetic = s.mHasPendingEventMagnetic ∧
    (syncLoop C env time n j s count).1.mHasPendingEventOrientation =
      s.mHasPendingEventOrientation ∧
    (syncLoop C env time n j s count).1.mInputReader = s.mInputReader ∧
    (syncLoop C env time n j s count).1.dataFd = s.dataFd := by
  induction n generalizing j s count with
  | zero => simp [syncLoop]
  | succ n ih =>
    simp only [syncLoop]
    split_ifs with h1 h2 h3
    · have h := ih (j + 1) (calculate_rv_4th_element C (syncVisit C env time s j) j) (count - 1)
      have hv := syncVisit_frame C env time s j
      have hr := calculate_rv_4th_element_frame C (syncVisit C env time s j) j
      simp only [hr.2.2.1, hr.2.2.2.1, hr.2.2.2.2.1, hr.2.2.2.2.2.1, hr.2.2.2.2.2.2.1,
        hr.2.2.2.2.2.2.2, hv.1, hv.2.1, hv.2.2.1, hv.2.2.2.1, hv.2.2.2.2.1, hv.2.2.2.2.2] at h
      exact h
    · have h := ih (j + 1) (syncVisit C env time s j) count
      have hv := syncVisit_frame C env time s j
      simp only [hv.1, hv.2.1, hv.2.2.1, hv.2.2.2.1, hv.2.2.2.2.1, hv.2.2.2.2.2] at h
      exact h
    · exact ih _ _ _
    · simp

/-- Every record the scan copies out is of a slot at or after the start of the
scan, below `numSensors`, whose pending and enabled bits were set before it. -/
theorem syncLoop_mem (C : Consts) (env : Env) (time : Int) (n j : Nat) (s : Hub)
    (count : Int) (e : Emitted) (he : e ∈ (syncLoop C env time n j s count).2.2) :
    j ≤ e.slot ∧ e.slot < C.numSensors ∧ hasBit s.mPendingMask e.slot = true ∧
      hasBit s.mEnabled e.slot = true := by
  induction n generalizing j s count with
  | zero => simp [syncLoop] at he
  | succ n ih =>
    simp only [syncLoop] at he
    split_ifs at he with h1 h2 h3
    · rcases List.mem_cons.mp he with rfl | he
      · exact ⟨le_refl _, h1.2.2, h2, syncVisit_enabled_imp C env time s j j h3⟩
      · have h := ih _ _ _ he
        rw [(calculate_rv_4th_element_frame C _ j).1, (calculate_rv_4th_element_frame C _ j).2.1,
          syncVisit_pending] at h
        exact ⟨by omega, h.2.1, hasBit_clearBit_imp h.2.2.1,
          syncVisit_enabled_imp C env time s j _ h.2.2.2⟩
    · have h := ih _ _ _ he
      rw [syncVisit_pending] at h
      exact ⟨by omega, h.2.1, hasBit_clearBit_imp h.2.2.1,
        syncVisit_enabled_imp C env time s j _ h.2.2.2⟩
    · have h := ih _ _ _ he
      exact ⟨by omega, h.2⟩
    · simp at he

/-- The scan copies the records out in strictly ascending slot order. -/
theorem syncLoop_pairwise (C : Consts) (env : Env) (time : Int) (n j : Nat) (s : Hub)
    (count : Int) :
    ((syncLoop C env time n j s count).2.2.map Emitted.slot).Pairwise (· < ·) := by
  induction n generalizing j s count with
  | zero => simp [syncLoop]
  | succ n ih =>
    simp only [syncLoop]
    split_ifs with h1 h2 h3
    · simp only [List.map_cons, List.pairwise_cons]
      refine ⟨?_, ih _ _ _⟩
      intro a ha
      obtain ⟨e, he, rfl⟩ := List.mem_map.mp ha
      have := (syncLoop_mem C env time n (j + 1) _ _ e he).1
      omega
    · exact ih _ _ _
    · exact ih _ _ _
    · simp

/-- When the scan ends with capacity left, no slot from its start up to
`numSensors` is pending any more. -/
theorem syncLoop_drained (C : Consts) (hle : C.numSensors ≤ 32) (env : Env) (time : Int)
    (n j : Nat) (s : Hub) (count : Int) (hn : C.numSensors ≤ j + n)
    (hleft : (syncLoop C env time n j s count).2.1 ≠ 0) (i : Nat) (hji : j ≤ i)
    (hi : i < C.numSensors) :
    hasBit (syncLoop C env time n j s count).1.mPendingMask i = false := by
  induction n generalizing j s count with
  | zero => omega
  | succ n ih =>
    simp only [syncLoop] at hleft ⊢
    split_ifs at hleft ⊢ with h1 h2 h3
    · rcases Nat.eq_or_lt_of_le hji with rfl | hlt
      · have hm := (syncLoop_masks_imp C env time n (j + 1)
          (calculate_rv_4th_element C (syncVisit C env time s j) j) (count - 1) j).1
        rw [(calculate_rv_4th_element_frame C _ j).1, syncVisit_pending,
          hasBit_clearBit_self (by omega)] at hm
        cases hb : hasBit (syncLoop C env time n (j + 1)
          (calculate_rv_4th_element C (syncVisit C env time s j) j) (count - 1)).1.mPendingMask j
        · rfl
        · exact absurd (hm hb) (by simp)
      · exact ih _ _ _ (by omega) hleft (by omega)
    · rcases Nat.eq_or_lt_of_le hji with rfl | hlt
      · have hm := (syncLoop_masks_imp C env time n (j + 1)
          (syncVisit C env time s j) count j).1
        rw [syncVisit_pending, hasBit_clearBit_self (by omega)] at hm
        cases hb : hasBit (syncLoop C env time n (j + 1)
          (syncVisit C env time s j) count).1.mPendingMask j
        · rfl
        · exact absurd (hm hb) (by simp)
      · exact ih _ _ _ (by omega) hleft (by omega)
    · rcases Nat.eq_or_lt_of_le hji with rfl | hlt
      · have hm := (syncLoop_masks_imp C env time n (j + 1) s count j).1
        cases hb : hasBit (syncLoop C env time n (j + 1) s count).1.mPendingMask j
        · rfl
        · exact absurd (hm hb) (by simpa using h2)
      · exact ih _ _ _ (by omega) hleft (by omega)
    · simp only [not_and_or, not_not] at h1
      rcases h1 with h1 | h1 | h1
      · exact absurd h1 hleft
      · rw [h1]; exact hasBit_zero i
      · omega

/-- With a well-formed header and a control file that opens, the scan never
copies out the record of significant motion. -/
theorem syncLoop_no_significant {C : Consts} (hC : C.WF) (env : Env)
    (hopen : ∀ k, env.openOk k = true) (time : Int) (n j : Nat) (s : Hub) (count : Int)
    (e : Emitted) (he : e ∈ (syncLoop C env time n j s count).2.2) :
    e.slot ≠ C.slot .CW_SIGNIFICANT_MOTION := by
  induction n generalizing j s count with
  | zero => simp [syncLoop] at he
  | succ n ih =>
    simp only [syncLoop] at he
    split_ifs at he with h1 h2 h3
    · rcases List.mem_cons.mp he with rfl | he
      · intro hj
        simp only at hj
        rw [hj, syncVisit_significant_disabled hC env time s hopen] at h3
        exact absurd h3 (by simp)
      · exact ih _ _ _ he
    · exact ih _ _ _ he
    · exact ih _ _ _ he
    · simp at he

theorem isPendingEnabled_syncVisit {C : Consts} (hC : C.WF) (env : Env) (time : Int) (s : Hub)
    (j i : Nat) (hi : i < 32) (hne : j ≠ i) :
    isPendingEnabled (syncVisit C env time s j) i = isPendingEnabled s i := by
  unfold isPendingEnabled
  rw [syncVisit_pending, hasBit_clearBit_of_ne hi hne, syncVisit_enabled_other hC env time s j i hi hne]

theorem isPendingEnabled_calculate (C : Consts) (s : Hub) (j i : Nat) :
    isPendingEnabled (calculate_rv_4th_element C s j) i = isPendingEnabled s i := by
  unfold isPendingEnabled
  rw [(calculate_rv_4th_element_frame C s j).1, (calculate_rv_4th_element_frame C s j).2.1]

theorem isPendingEnabled_syncVisit_self {C : Consts} (hC : C.WF) (env : Env) (time : Int)
    (s : Hub) (j : Nat) (hj : j < C.numSensors) :
    isPendingEnabled (syncVisit C env time s j) j = false := by
  have := hC.numSensors_le
  unfold isPendingEnabled
  rw [syncVisit_pending, hasBit_clearBit_self (by omega)]
  rfl

/-- With a well-formed header, when significant motion is not both pending and
enabled, the scan copies out the pending-and-enabled slots from its start on,
lowest first, as far as the capacity reaches, and the ones it does not reach
stay pending. -/
theorem syncLoop_exact {C : Consts} (hC : C.WF) (env : Env) (time : Int) (n j : Nat) (s : Hub)
    (count : Int) (hn : j + n = C.numSensors) (hc : 0 ≤ count)
    (hsig : isPendingEnabled s (C.slot .CW_SIGNIFICANT_MOTION) = false) :
    (syncLoop C env time n j s count).2.2.map Emitted.slot =
        ((List.range' j n).filter (isPendingEnabled s)).take count.toNat ∧
    ∀ i ∈ ((List.range' j n).filter (isPendingEnabled s)).drop count.toNat,
      hasBit (syncLoop C env time n j s count).1.mPendingMask i = true := by
  have hle := hC.numSensors_le
  have hsiglt := hC.slot_lt .CW_SIGNIFICANT_MOTION
  induction n generalizing j s count with
  | zero => simp [syncLoop]
  | succ n ih =>
    have hcongr : ∀ s' : Hub, (∀ i, i < 32 → j ≠ i → isPendingEnabled s' i = isPendingEnabled s i) →
        (List.range' (j + 1) n).filter (isPendingEnabled s') =
          (List.range' (j + 1) n).filter (isPendingEnabled s) := by
      intro s' hs'
      apply List.filter_congr
      intro x hx
      rw [List.mem_range'_1] at hx
      exact hs' x (by omega) (by omega)
    simp only [syncLoop, List.range'_succ]
    split_ifs with h1 h2 h3
    · -- the slot is pending and still enabled: it is copied out
      have hen : hasBit s.mEnabled j = true := syncVisit_enabled_imp C env time s j j h3
      have hpe : isPendingEnabled s j = true := by simp [isPendingEnabled, h2, hen]
      have hjs : j ≠ C.slot .CW_SIGNIFICANT_MOTION := by
        intro h; rw [h, hsig] at hpe; exact absurd hpe (by simp)
      have hfr : ∀ i, i < 32 → j ≠ i →
          isPendingEnabled (calculate_rv_4th_element C (syncVisit C env time s j) j) i =
            isPendingEnabled s i := by
        intro i hi hne
        rw [isPendingEnabled_calculate, isPendingEnabled_syncVisit hC env time s j i hi hne]
      have h := ih (j + 1) (calculate_rv_4th_element C (syncVisit C env time s j) j) (count - 1)
        (by omega) (by omega) (by rw [hfr _ (by omega) hjs]; exact hsig)
      rw [hcongr _ hfr] at h
      obtain ⟨k, hk⟩ : ∃ k, count.toNat = k + 1 := ⟨count.toNat - 1, by omega⟩
      have hk' : (count - 1).toNat = k := by omega
      rw [hk'] at h
      rw [List.filter_cons_of_pos hpe, hk]
      simp only [List.map_cons, List.take_succ_cons, List.drop_succ_cons]
      exact ⟨by rw [h.1], h.2⟩
    · -- the slot is pending but disabled: its bit is consumed, nothing is copied
      have hpe : isPendingEnabled s j = false := by
        by_cases hjs : j = C.slot .CW_SIGNIFICANT_MOTION
        · rw [hjs]; exact hsig
        · rw [syncVisit_enabled_of_ne C env time s j hjs] at h3
          simp [isPendingEnabled, h3]
      have hfr : ∀ i, i < 32 → j ≠ i →
          isPendingEnabled (syncVisit C env time s j) i = isPendingEnabled s i :=
        fun i hi hne => isPendingEnabled_syncVisit hC env time s j i hi hne
      have hsig' : isPendingEnabled (syncVisit C env time s j)
          (C.slot .CW_SIGNIFICANT_MOTION) = false := by
        by_cases hjs : j = C.slot .CW_SIGNIFICANT_MOTION
        · rw [← hjs]; exact isPendingEnabled_syncVisit_self hC env time s j (by omega)
        · rw [hfr _ (by omega) hjs]; exact hsig
      have h := ih (j + 1) (syncVisit C env time s j) count (by omega) hc hsig'
      rw [hcongr _ hfr] at h
      rw [List.filter_cons_of_neg (by simp [hpe])]
      exact h
    · -- the slot is not pending
      have hpe : isPendingEnabled s j = false := by simp [isPendingEnabled, h2]
      have h := ih (j + 1) s count (by omega) hc hsig
      rw [List.filter_cons_of_neg (by simp [hpe])]
      exact h
    · simp only [not_and_or, not_not] at h1
      rcases h1 with h1 | h1 | h1
      · subst h1
        simp only [Int.toNat_zero, List.take_zero, List.map_nil, List.drop_zero, true_and]
        intro i hi
        have := (List.mem_filter.mp hi).2
        simp only [isPendingEnabled, Bool.and_eq_true] at this
        exact this.1
      · have hnil : (j :: List.range' (j + 1) n).filter (isPendingEnabled s) = [] := by
          rw [List.filter_eq_nil_iff]
          intro a _
          simp [isPendingEnabled, h1, hasBit_zero]
        rw [hnil]
        simp
      · omega

/-! ## The loop over the events and the entry point -/

theorem raised_eq_nil_iff (s : Hub) :
    raised s = [] ↔ s.mHasPendingEventPressure = false ∧ s.mHasPendingEventLight = false ∧
      s.mHasPendingEventMagnetic = false ∧ s.mHasPendingEventOrientation = false := by
  unfold raised
  cases s.mHasPendingEventPressure <;> cases s.mHasPendingEventLight <;>
    cases s.mHasPendingEventMagnetic <;> cases s.mHasPendingEventOrientation <;> simp

/-- The loop over the events copies out no more records than the capacity. -/
theorem eventLoop_length_le (C : Consts) (env : Env) (events : List InputEvent) (s : Hub)
    (count : Int) (hc : 0 ≤ count) :
    ((eventLoop C env events s count).2.length : Int) ≤ count := by
  induction events generalizing s count with
  | nil => simpa [eventLoop] using hc
  | cons event rest ih =>
    simp only [eventLoop]
    split_ifs with h0 h1 h2 h3
    · simpa using hc
    · exact ih _ _ hc
    · exact ih _ _ hc
    · have hl := syncLoop_length_le C env (timevalToNano event.sec event.usec) C.numSensors 0 s
        count hc
      have hcnt := syncLoop_count C env (timevalToNano event.sec event.usec) C.numSensors 0 s
        count
      have h := ih (syncStep C env (timevalToNano event.sec event.usec) s count).1
        (syncStep C env (timevalToNano event.sec event.usec) s count).2.1
        (by unfold syncStep; omega)
      unfold syncStep at h ⊢
      simp only [List.length_append]
      push_cast
      omega
    · exact ih _ _ hc

/-- With a well-formed header and a control file that opens, the loop over the
events never copies out the record of significant motion. -/
theorem eventLoop_no_significant {C : Consts} (hC : C.WF) (env : Env)
    (hopen : ∀ k, env.openOk k = true) (events : List InputEvent) (s : Hub) (count : Int)
    (e : Emitted) (he : e ∈ (eventLoop C env events s count).2) :
    e.slot ≠ C.slot .CW_SIGNIFICANT_MOTION := by
  induction events generalizing s count with
  | nil => simp [eventLoop] at he
  | cons event rest ih =>
    simp only [eventLoop] at he
    split_ifs at he with h0 h1 h2 h3
    · simp at he
    · exact ih _ _ he
    · exact ih _ _ he
    · rcases List.mem_append.mp he with he | he
      · exact syncLoop_no_significant hC env hopen _ _ _ _ _ e he
      · exact ih _ _ he
    · exact ih _ _ he

/-- A fill that works, when the events waiting fit the room the reader has, moves
all of them into the reader. -/
theorem fill_of_fit (env : Env) (s : Hub) (hfill : env.fillError = none)
    (hfit : s.mInputReader.length + s.dataFd.length ≤ READER_CAPACITY) :
    (fill env s).2 = { s with mInputReader := s.mInputReader ++ s.dataFd, dataFd := [] } := by
  unfold fill
  simp only [hfill]
  rw [List.take_of_length_le (by omega), List.drop_of_length_le (by omega)]

/-- A call with room in the buffer, no synthetic flag raised and a fill that
works runs the loop over the events the reader holds after the fill. -/
theorem readEvents_after_fill (C : Consts) (env : Env) (s : Hub) (count : Int)
    (hcount : 1 ≤ count) (hflags : raised s = []) (hfill : env.fillError = none) :
    readEvents C env s count =
      ⟨((eventLoop C env (fill env s).2.mInputReader (fill env s).2 count).2.length : Int),
        (eventLoop C env (fill env s).2.mInputReader (fill env s).2 count).2,
        (eventLoop C env (fill env s).2.mInputReader (fill env s).2 count).1⟩ := by
  obtain ⟨h1, h2, h3, h4⟩ := (raised_eq_nil_iff s).mp hflags
  have hnn : ¬ (fill env s).1 < 0 := by
    unfold fill
    simp only [hfill]
    omega
  unfold readEvents
  simp only [h1, h2, h3, h4, not_lt.mpr hcount, if_false, Bool.false_eq_true]
  rw [if_neg hnn]

/-- A call with room in the buffer, no synthetic flag raised and a fill that
works, when the events held and waiting fit the reader, runs the loop over all
of them. -/
theorem readEvents_of_no_flags (C : Consts) (env : Env) (s : Hub) (count : Int)
    (hcount : 1 ≤ count) (hflags : raised s = []) (hfill : env.fillError = none)
    (hfit : s.mInputReader.length + s.dataFd.length ≤ READER_CAPACITY) :
    readEvents C env s count =
      ⟨((eventLoop C env (s.mInputReader ++ s.dataFd)
          { s with mInputReader := s.mInputReader ++ s.dataFd, dataFd := [] } count).2.length : Int),
        (eventLoop C env (s.mInputReader ++ s.dataFd)
          { s with mInputReader := s.mInputReader ++ s.dataFd, dataFd := [] } count).2,
        (eventLoop C env (s.mInputReader ++ s.dataFd)
          { s with mInputReader := s.mInputReader ++ s.dataFd, dataFd := [] } count).1⟩ := by
  rw [readEvents_after_fill C env s count hcount hflags hfill, fill_of_fit env s hfill hfit]

/-- C1: the code never reports significant motion when the control channel
works. For every well-formed header, every state with no synthetic flag raised
(the significant-motion slot enabled or not) and a working control channel, a
`readEvents` call with capacity at least 1 over a relative event with the
significant-motion code followed by a sync marker writes no record of the
significant-motion slot (the slot is disabled before its enabled bit is
tested); when nothing else is pending the call returns 0 and writes nothing,
where the specification promises one record. -/
theorem readEvents_significant_motion_not_reported {C : Consts} (hC : C.WF) (env : Env)
    (hopen : ∀ k, env.openOk k = true) (hfill : env.fillError = none) (s : Hub) (count : Int)
    (hcount : 1 ≤ count) (hflags : raised s = []) (hreader : s.mInputReader = [])
    (motion sync : InputEvent) (hmotion : motion.type = EV_REL)
    (hcode : motion.code = REL_Significant_Motion) (hsync : sync.type = EV_SYN)
    (hfd : s.dataFd = [motion, sync]) :
    (∀ e ∈ (readEvents C env s count).written, e.slot ≠ C.slot .CW_SIGNIFICANT_MOTION) ∧
    (s.mPendingMask = 0 →
      (readEvents C env s count).ret = 0 ∧ (readEvents C env s count).written = []) := by
  rw [readEvents_of_no_flags C env s count hcount hflags hfill
    (by rw [hreader, hfd]; simp [READER_CAPACITY])]
  refine ⟨fun e he => eventLoop_no_significant hC env hopen _ _ _ e he, ?_⟩
  intro hmask
  have hw : (eventLoop C env (s.mInputReader ++ s.dataFd)
      { s with mInputReader := s.mInputReader ++ s.dataFd, dataFd := [] } count).2 = [] := by
    apply List.eq_nil_iff_forall_not_mem.mpr
    intro e he
    have hns := eventLoop_no_significant hC env hopen _ _ _ e he
    rw [hreader, hfd] at he
    have hc0 : count ≠ 0 := by omega
    simp only [List.nil_append, eventLoop, hc0, hmotion, hcode, hsync, EV_REL, EV_ABS,
      EV_SYN, if_false, if_true, List.append_nil, relEvent, REL_Significant_Motion,
      REL_HTC_Any_Motion, syncStep] at he
    norm_num at he
    have hm := (syncLoop_mem C env _ _ _ _ _ e he).2.2.1
    simp only [Hub.setData, Hub.pend, hmask, hasBit_setBit, hasBit_zero, Bool.false_or,
      decide_eq_true_eq] at hm
    exact hns hm.symm
  exact ⟨by simp [hw], hw⟩

/-- C1 (witness): on the example layout, with significant motion enabled and its
event followed by a sync marker waiting, a call with capacity 1 returns 0,
writes nothing and leaves the slot disabled. -/
theorem readEvents_significant_motion_not_reported_witness :
    hasBit armedHub.mEnabled (exampleConsts.slot .CW_SIGNIFICANT_MOTION) = true ∧
    (readEvents exampleConsts (okEnv 77 0) armedHub 1).ret = 0 ∧
    (readEvents exampleConsts (okEnv 77 0) armedHub 1).written = [] ∧
    hasBit (readEvents exampleConsts (okEnv 77 0) armedHub 1).hub.mEnabled
      (exampleConsts.slot .CW_SIGNIFICANT_MOTION) = false :=
  ⟨by decide,
    ((readEvents_significant_motion_not_reported exampleConsts_wf (okEnv 77 0) (fun _ => rfl) rfl
      armedHub 1 (by decide) (by decide) rfl significantMotionEvent (syncAt 5) rfl rfl rfl
      rfl).2 (by decide)).1,
    ((readEvents_significant_motion_not_reported exampleConsts_wf (okEnv 77 0) (fun _ => rfl) rfl
      armedHub 1 (by decide) (by decide) rfl significantMotionEvent (syncAt 5) rfl rfl rfl
      rfl).2 (by decide)).2,
    by decide⟩

/-- C2: the code reports a synthetic record of a disabled slot. For every state
in which the light flag is raised (and the pressure flag is not), the light
slot is disabled and some other slot is enabled, a `readEvents` call with
capacity at least 1 writes the light record and counts it in its return value
1, although the enabled bit of the light slot is clear when it is written. -/
theorem readEvents_counts_disabled_light (C : Consts) (env : Env) (s : Hub) (count : Int)
    (hcount : 1 ≤ count) (hpressure : s.mHasPendingEventPressure = false)
    (hlight : s.mHasPendingEventLight = true)
    (hoff : hasBit s.mEnabled (C.slot .CW_LIGHT) = false) (hany : s.mEnabled ≠ 0) :
    (readEvents C env s count).ret = 1 ∧
    (readEvents C env s count).written.map Emitted.slot = [C.slot .CW_LIGHT] ∧
    hasBit (readEvents C env s count).hub.mEnabled (C.slot .CW_LIGHT) = false := by
  unfold readEvents
  simp [hpressure, hlight, not_lt.mpr hcount, serveSynthetic, Hub.setTimestamp, hany, hoff]

/-- C2 (witness): on the example layout, after `setEnable(ID_L, 1)`,
`setEnable(ID_A, 1)` and `setEnable(ID_L, 0)` a call with capacity 1 returns 1
for the record of the disabled light slot. -/
theorem readEvents_counts_disabled_light_witness :
    (readEvents exampleConsts (okEnv 77 0) lightOffHub 1).ret = 1 ∧
    (readEvents exampleConsts (okEnv 77 0) lightOffHub 1).written.map Emitted.slot =
      [exampleConsts.slot .CW_LIGHT] ∧
    hasBit (readEvents exampleConsts (okEnv 77 0) lightOffHub 1).hub.mEnabled
      (exampleConsts.slot .CW_LIGHT) = false :=
  readEvents_counts_disabled_light exampleConsts (okEnv 77 0) lightOffHub 1 (by decide)
    (by decide) (by decide) (by decide) (by decide)

/-- C3: for every state and every sync marker, whatever the capacity, the
records the scan copies out are of pairwise distinct slots in strictly
ascending slot order, every such slot had its pending bit set before the scan,
and no slot whose enabled bit is clear before the scan is copied out. -/
theorem syncStep_ascending_pending_enabled (C : Consts) (env : Env) (time : Int) (s : Hub)
    (count : Int) :
    ((syncStep C env time s count).2.2.map Emitted.slot).Pairwise (· < ·) ∧
    ((syncStep C env time s count).2.2.map Emitted.slot).Nodup ∧
    (∀ e ∈ (syncStep C env time s count).2.2, hasBit s.mPendingMask e.slot = true) ∧
    (∀ j, hasBit s.mEnabled j = false →
      ∀ e ∈ (syncStep C env time s count).2.2, e.slot ≠ j) := by
  have hp := syncLoop_pairwise C env time C.numSensors 0 s count
  refine ⟨hp, ?_, ?_, ?_⟩
  · exact hp.imp (fun h => Nat.ne_of_lt h)
  · intro e he
    exact (syncLoop_mem C env time C.numSensors 0 s count e he).2.2.1
  · intro j hj e he hej
    have := (syncLoop_mem C env time C.numSensors 0 s count e he).2.2.2
    rw [hej, hj] at this
    exact absurd this (by simp)

theorem pendingEnabled_eq (C : Consts) (s : Hub) :
    pendingEnabled C s = (List.range' 0 C.numSensors).filter (isPendingEnabled s) := by
  unfold pendingEnabled
  rw [List.range_eq_range']

/-- C4: the capacity limit on a sync step. For every well-formed header, every
state in which significant motion is not both pending and enabled, and every
capacity `c ≥ 1`, the scan of one sync marker copies out exactly the
`min c k` lowest of the `k` pending-and-enabled slots, in order, and every
pending-and-enabled slot it does not reach keeps its pending bit; a `readEvents`
call whose whole input is that sync marker returns `min c k` and writes those
records. -/
theorem sync_capacity_limit {C : Consts} (hC : C.WF) (env : Env) (s : Hub) (count : Int)
    (hcount : 1 ≤ count)
    (hsig : isPendingEnabled s (C.slot .CW_SIGNIFICANT_MOTION) = false) :
    (∀ time,
      (syncStep C env time s count).2.2.map Emitted.slot =
          (pendingEnabled C s).take count.toNat ∧
      ((syncStep C env time s count).2.2.length : Int) =
          min count (pendingEnabled C s).length ∧
      ∀ j ∈ (pendingEnabled C s).drop count.toNat,
        hasBit (syncStep C env time s count).1.mPendingMask j = true) ∧
    (∀ event, raised s = [] → env.fillError = none → s.mInputReader = [] →
      event.type = EV_SYN → s.dataFd = [event] →
      (readEvents C env s count).ret = min count (pendingEnabled C s).length ∧
      (readEvents C env s count).written.map Emitted.slot =
          (pendingEnabled C s).take count.toNat ∧
      ∀ j ∈ (pendingEnabled C s).drop count.toNat,
        hasBit (readEvents C env s count).hub.mPendingMask j = true) := by
  have key : ∀ (s' : Hub) (time : Int), s'.mPendingMask = s.mPendingMask →
      s'.mEnabled = s.mEnabled →
      (syncStep C env time s' count).2.2.map Emitted.slot =
          (pendingEnabled C s).take count.toNat ∧
      ((syncStep C env time s' count).2.2.length : Int) =
          min count (pendingEnabled C s).length ∧
      ∀ j ∈ (pendingEnabled C s).drop count.toNat,
        hasBit (syncStep C env time s' count).1.mPendingMask j = true := by
    intro s' time hp he
    have hpe : isPendingEnabled s' = isPendingEnabled s := by
      funext i; simp [isPendingEnabled, hp, he]
    have h := syncLoop_exact hC env time C.numSensors 0 s' count (by omega) (by omega)
      (by rw [hpe]; exact hsig)
    rw [hpe, ← pendingEnabled_eq] at h
    refine ⟨h.1, ?_, h.2⟩
    have hlen := congrArg List.length h.1
    rw [List.length_map, List.length_take] at hlen
    unfold syncStep
    rw [hlen]
    rcases le_total count ((pendingEnabled C s).length : Int) with hle | hle
    · rw [min_eq_left hle, min_eq_left (by omega)]; omega
    · rw [min_eq_right hle, min_eq_right (by omega)]
  refine ⟨fun time => key s time rfl rfl, ?_⟩
  intro event hflags hfill hreader hev hfd
  rw [readEvents_of_no_flags C env s count hcount hflags hfill
    (by rw [hreader, hfd]; simp [READER_CAPACITY]), hreader, hfd]
  have hc0 : count ≠ 0 := by omega
  have h := key { s with mInputReader := [event], dataFd := [] }
    (timevalToNano event.sec event.usec) rfl rfl
  simp only [List.nil_append, eventLoop, hc0, hev, EV_SYN, EV_ABS, EV_REL, if_false, if_true,
    List.append_nil]
  norm_num
  exact ⟨h.2.1, h.1, h.2.2⟩

/-- C4 (witness): on the example layout, with slots 0 and 1 pending and enabled
and capacity 1, exactly slot 0 is copied out, the call returns 1 and slot 1
stays pending. -/
theorem sync_capacity_limit_witness :
    pendingEnabled exampleConsts twoPendingHub = [0, 1] ∧
    (readEvents exampleConsts (okEnv 77 0) twoPendingHub 1).ret = 1 ∧
    (readEvents exampleConsts (okEnv 77 0) twoPendingHub 1).written.map Emitted.slot = [0] ∧
    hasBit (readEvents exampleConsts (okEnv 77 0) twoPendingHub 1).hub.mPendingMask 1 = true := by
  have h := (sync_capacity_limit exampleConsts_wf (okEnv 77 0) twoPendingHub 1 (by decide)
    (by decide)).2 (syncAt 9) (by decide) rfl rfl rfl rfl
  have hpe : pendingEnabled exampleConsts twoPendingHub = [0, 1] := by decide
  rw [hpe] at h
  exact ⟨hpe, by simpa using h.1, by simpa using h.2.1, h.2.2 1 (by simp)⟩

theorem syncLoop_of_mask_zero (C : Consts) (env : Env) (time : Int) (n j : Nat) (s : Hub)
    (count : Int) (hmask : s.mPendingMask = 0) :
    syncLoop C env time n j s count = (s, count, []) := by
  cases n with
  | zero => rfl
  | succ n => simp [syncLoop, hmask]

/-- The scan copies out at most as many records as there are pending-and-enabled
slots. -/
theorem syncStep_length_le_pendingEnabled (C : Consts) (env : Env) (time : Int) (s : Hub)
    (count : Int) :
    (syncStep C env time s count).2.2.length ≤ (pendingEnabled C s).length := by
  have hnd : ((syncStep C env time s count).2.2.map Emitted.slot).Nodup :=
    (syncLoop_pairwise C env time C.numSensors 0 s count).imp (fun h => Nat.ne_of_lt h)
  have hsub : (syncStep C env time s count).2.2.map Emitted.slot ⊆ pendingEnabled C s := by
    intro a ha
    obtain ⟨e, he, rfl⟩ := List.mem_map.mp ha
    have h := syncLoop_mem C env time C.numSensors 0 s count e he
    unfold pendingEnabled
    rw [List.mem_filter, List.mem_range]
    exact ⟨h.2.1, by simp [isPendingEnabled, h.2.2.1, h.2.2.2]⟩
  have := (List.subperm_of_subset hnd hsub).length_le
  simpa using this

/-- C5 (counterexample): on the example layout, with slots 0 and 1 pending and
enabled and capacity 1, the pending mask is not empty after the first sync
marker, and a second sync marker with no update in between emits slot 1. -/
theorem sync_twice_counterexample :
    (syncStep exampleConsts (okEnv 77 0) 9 twoPendingHub 1).1.mPendingMask = 2 ∧
    (syncStep exampleConsts (okEnv 77 0) 10
      (syncStep exampleConsts (okEnv 77 0) 9 twoPendingHub 1).1 1).2.2.map Emitted.slot = [1] := by
  decide

/-- C5 (amended): for every header with at most 32 slots, every state whose
pending bits all lie below `numSensors`, and every capacity strictly greater
than the number of pending-and-enabled slots, the pending mask is empty after
one sync marker, and a second sync marker processed with no update in between
emits no record. -/
theorem sync_twice_emits_nothing (C : Consts) (hle : C.numSensors ≤ 32) (env : Env) (time : Int)
    (s : Hub) (count : Int) (hmask : s.mPendingMask < 2 ^ C.numSensors)
    (hcap : ((pendingEnabled C s).length : Int) < count) :
    (syncStep C env time s count).1.mPendingMask = 0 ∧
    ∀ (env2 : Env) (time2 count2 : Int),
      (syncStep C env2 time2 (syncStep C env time s count).1 count2).2.2 = [] := by
  have hzero : (syncStep C env time s count).1.mPendingMask = 0 := by
    have hlen := syncStep_length_le_pendingEnabled C env time s count
    have hcnt := syncLoop_count C env time C.numSensors 0 s count
    have hleft : (syncLoop C env time C.numSensors 0 s count).2.1 ≠ 0 := by
      unfold syncStep at hlen
      omega
    apply Nat.eq_of_testBit_eq
    intro i
    rw [Nat.zero_testBit, ← hasBit_eq_testBit]
    by_cases hi : i < C.numSensors
    · exact syncLoop_drained C hle env time C.numSensors 0 s count (by omega) hleft i
        (Nat.zero_le _) hi
    · cases hb : hasBit (syncStep C env time s count).1.mPendingMask i
      · rfl
      · have h1 := (syncLoop_masks_imp C env time C.numSensors 0 s count i).1 hb
        rw [hasBit_eq_testBit, Nat.testBit_lt_two_pow
          (lt_of_lt_of_le hmask (Nat.pow_le_pow_right (by norm_num) (not_lt.mp hi)))] at h1
        exact absurd h1 (by simp)
  refine ⟨hzero, ?_⟩
  intro env2 time2 count2
  unfold syncStep at hzero ⊢
  rw [syncLoop_of_mask_zero C env2 time2 _ _ _ _ hzero]

/-- C5 (witness): on the example layout, with slots 0 and 1 pending and enabled
and capacity 3, the pending mask is empty after the sync marker and a second
sync marker emits nothing. -/
theorem sync_twice_emits_nothing_witness :
    (syncStep exampleConsts (okEnv 77 0) 9 twoPendingHub 3).1.mPendingMask = 0 ∧
    (syncStep exampleConsts (okEnv 78 0) 10
      (syncStep exampleConsts (okEnv 77 0) 9 twoPendingHub 3).1 3).2.2 = [] :=
  ⟨(sync_twice_emits_nothing exampleConsts (by decide) (okEnv 77 0) 9 twoPendingHub 3
      (by decide) (by decide)).1,
    (sync_twice_emits_nothing exampleConsts (by decide) (okEnv 77 0) 9 twoPendingHub 3
      (by decide) (by decide)).2 (okEnv 78 0) 10 3⟩

theorem find_sensor_light {C : Consts} (hC : C.WF) :
    find_sensor C (C.handle .ID_L) = C.slot .CW_LIGHT := by
  simp [find_sensor, hC.handle_inj.eq_iff]

theorem find_sensor_orientation {C : Consts} (hC : C.WF) :
    find_sensor C (C.handle .ID_O) = C.slot .CW_ORIENTATION := by
  simp [find_sensor, hC.handle_inj.eq_iff]

theorem ne_zero_of_hasBit {m j : Nat} (h : hasBit m j = true) : m ≠ 0 := by
  intro h0
  rw [h0, hasBit_zero] at h
  exact absurd h (by simp)

/-- C6: the synthetic record after enabling light. For every well-formed header
that gives the handle `ID_L` the value of the slot index `CW_LIGHT` (so that
`setInitialState(what)` reaches its light case), and every state with no
synthetic flag raised: if `setEnable(ID_L, 1)` opens the control file and the
current-value query reports `v ≥ 0`, the next `readEvents` call with capacity at
least 1 returns 1 and writes exactly one record, of the light slot, with
`light = indexToValue(v)` and the timestamp of the call; the events held by the
reader and waiting in the event device are left where they are. -/
theorem enable_light_then_read {C : Consts} (hC : C.WF)
    (hid : C.handle .ID_L = (C.slot .CW_LIGHT : Int)) (env env2 : Env) (s : Hub) (v : Int)
    (hv : 0 ≤ v) (hflags : raised s = []) (hopen : env.openOk s.nOpen = true)
    (hquery : env.query (C.abs .EVENT_TYPE_LIGHT) = some v) (count : Int) (hcount : 1 ≤ count) :
    (setEnable C env s (C.handle .ID_L) 1).1 = 0 ∧
    (readEvents C env2 (setEnable C env s (C.handle .ID_L) 1).2 count).ret = 1 ∧
    (readEvents C env2 (setEnable C env s (C.handle .ID_L) 1).2 count).written.map Emitted.slot
      = [C.slot .CW_LIGHT] ∧
    (∀ e ∈ (readEvents C env2 (setEnable C env s (C.handle .ID_L) 1).2 count).written,
      (∃ index : Nat, (index : Int) = v ∧ e.event.data 0 = indexToValue index) ∧
      e.event.timestamp = env2.now) ∧
    (readEvents C env2 (setEnable C env s (C.handle .ID_L) 1).2 count).hub.dataFd = s.dataFd ∧
    (readEvents C env2 (setEnable C env s (C.handle .ID_L) 1).2 count).hub.mInputReader =
      s.mInputReader := by
  obtain ⟨h1, h2, h3, h4⟩ := (raised_eq_nil_iff s).mp hflags
  have hlt := hC.slot_lt .CW_LIGHT
  have hle := hC.numSensors_le
  have hM : C.slot .CW_LIGHT ≠ C.slot .CW_MAGNETIC := by
    intro h; exact absurd (hC.slot_inj h) (by decide)
  have hO : C.slot .CW_LIGHT ≠ C.slot .CW_ORIENTATION := by
    intro h; exact absurd (hC.slot_inj h) (by decide)
  have hR : C.slot .CW_LIGHT ≠ C.slot .CW_ROTATIONVECTOR := by
    intro h; exact absurd (hC.slot_inj h) (by decide)
  have hen : (setEnable C env s (C.handle .ID_L) 1) =
      (0, { s with
        nOpen := s.nOpen + 1
        ctrlLog := s.ctrlLog ++ [CtrlOp.enable (C.slot .CW_LIGHT) 1 (env.writeOk s.nOpen)]
        mPendingMask := setBit s.mPendingMask (C.slot .CW_LIGHT)
        mPendingEvents := Function.update s.mPendingEvents (C.slot .CW_LIGHT)
          { s.mPendingEvents (C.slot .CW_LIGHT) with
            data := Function.update (s.mPendingEvents (C.slot .CW_LIGHT)).data 0
              (indexToValue v.toNat) }
        mHasPendingEventLight := true
        mEnabled := clearBit s.mEnabled (C.slot .CW_LIGHT) ||| (1 <<< C.slot .CW_LIGHT) }) := by
    unfold setEnable
    simp only [find_sensor_light hC, toUInt32_slot hC, Int.toNat_ofNat]
    rw [if_neg (by omega)]
    simp [hopen, setInitialState, hid, hquery, Hub.pend, Hub.setData, floatToIndex, hM, hO, hR]
  have hbit : hasBit (clearBit s.mEnabled (C.slot .CW_LIGHT) ||| (1 <<< C.slot .CW_LIGHT))
      (C.slot .CW_LIGHT) = true := by
    rw [hasBit_or_bit, hasBit_one_shift]; simp
  have hnz := ne_zero_of_hasBit hbit
  rw [hen]
  unfold readEvents
  simp only [h1, not_lt.mpr hcount, serveSynthetic, Hub.setTimestamp, if_false, if_true,
    Bool.false_eq_true, List.map_cons, List.map_nil, List.mem_singleton, forall_eq,
    Function.update_same, ne_eq, hnz, not_false_eq_true, true_and]
  exact ⟨⟨⟨v.toNat, Int.toNat_of_nonneg hv, rfl⟩, trivial⟩, trivial⟩

/-- C6 (witness): on the example layout, enabling light in the idle state with a
queried level of 4 and then reading with capacity 1, while a sync marker waits
in the event device, returns 1 for the light record with the value 160. -/
theorem enable_light_then_read_witness :
    (readEvents exampleConsts (okEnv 77 0)
      (setEnable exampleConsts (okEnv 0 4) { idleHub with dataFd := [syncAt 9] }
        (exampleConsts.handle .ID_L) 1).2 1).ret = 1 ∧
    (readEvents exampleConsts (okEnv 77 0)
      (setEnable exampleConsts (okEnv 0 4) { idleHub with dataFd := [syncAt 9] }
        (exampleConsts.handle .ID_L) 1).2 1).written.map
          (fun e => (e.slot, e.event.data 0, e.event.timestamp)) = [(3, FVal.ofInt 160, 77)] ∧
    (readEvents exampleConsts (okEnv 77 0)
      (setEnable exampleConsts (okEnv 0 4) { idleHub with dataFd := [syncAt 9] }
        (exampleConsts.handle .ID_L) 1).2 1).hub.dataFd = [syncAt 9] :=
  ⟨(enable_light_then_read exampleConsts_wf rfl (okEnv 0 4) (okEnv 77 0)
      { idleHub with dataFd := [syncAt 9] } 4 (by decide) (by decide) rfl rfl 1 (by decide)).2.1,
    by decide,
    (enable_light_then_read exampleConsts_wf rfl (okEnv 0 4) (okEnv 77 0)
      { idleHub with dataFd := [syncAt 9] } 4 (by decide) (by decide) rfl rfl 1
      (by decide)).2.2.2.2.1⟩

/-- One call of `readEvents` with room in the buffer, while a synthetic flag is
raised, serves the first raised flag and nothing else. -/
theorem readEvents_serves_first_raised (C : Consts) (env : Env) (s : Hub) (count : Int)
    (hcount : 1 ≤ count) (f : SynFlag) (rest : List SynFlag) (hraised : raised s = f :: rest) :
    (readEvents C env s count).written.map Emitted.slot = [f.slot C] ∧
    raised (readEvents C env s count).hub = rest ∧
    (readEvents C env s count).hub.dataFd = s.dataFd ∧
    (readEvents C env s count).hub.mInputReader = s.mInputReader := by
  unfold raised at hraised
  unfold readEvents
  cases hP : s.mHasPendingEventPressure <;> cases hL : s.mHasPendingEventLight <;>
    cases hM : s.mHasPendingEventMagnetic <;> cases hO : s.mHasPendingEventOrientation <;>
    simp only [hP, hL, hM, hO, if_true, if_false, Bool.false_eq_true, List.nil_append,
      List.cons_append, List.cons.injEq, reduceCtorEq] at hraised <;>
    obtain ⟨rfl, rfl⟩ := hraised <;>
    simp [not_lt.mpr hcount, serveSynthetic, Hub.setTimestamp, raised, SynFlag.slot, hP, hL, hM,
      hO]

/-- C7: synthetic records are drained in the fixed order pressure, light,
magnetic, orientation, one per call. For every state, every capacity at least 1
and every run of `n` successive `readEvents` calls, `n` at most the number of
raised flags: call `i` writes exactly one record, of the slot of the `i`-th
raised flag in that order; after the run exactly the first `n` raised flags are
cleared and the others are as before; and the events held by the reader and
waiting in the event device are untouched. -/
theorem readMany_serves_raised_in_order (C : Consts) (count : Int) (hcount : 1 ≤ count)
    (envs : List Env) (s : Hub) (hlen : envs.length ≤ (raised s).length) :
    (readMany C count envs s).1.map (List.map Emitted.slot) =
      ((raised s).take envs.length).map (fun f => [f.slot C]) ∧
    raised (readMany C count envs s).2 = (raised s).drop envs.length ∧
    (readMany C count envs s).2.dataFd = s.dataFd ∧
    (readMany C count envs s).2.mInputReader = s.mInputReader := by
  induction envs generalizing s with
  | nil => simp [readMany]
  | cons env envs ih =>
    cases hr : raised s with
    | nil => rw [hr] at hlen; simp at hlen
    | cons f rest =>
      obtain ⟨h1, h2, h3, h4⟩ := readEvents_serves_first_raised C env s count hcount f rest hr
      have h := ih (readEvents C env s count).hub
        (by rw [h2]; rw [hr] at hlen; simpa using hlen)
      rw [h2, h3, h4] at h
      simp only [readMany, List.map_cons, List.length_cons, List.take_succ_cons,
        List.drop_succ_cons, h1]
      exact ⟨by rw [h.1], h.2⟩

/-- C7 (witness): on the example layout, after enabling magnetic, light and
pressure in that order, three calls with capacity 1 serve slot 5 (pressure),
slot 3 (light) and slot 1 (magnetic), leave no flag raised and leave the waiting
sync marker alone. -/
theorem readMany_serves_raised_in_order_witness :
    raised threeFlagsHub = [SynFlag.pressure, SynFlag.light, SynFlag.magnetic] ∧
    (readMany exampleConsts 1 [okEnv 77 0, okEnv 78 0, okEnv 79 0] threeFlagsHub).1.map
      (List.map Emitted.slot) = [[5], [3], [1]] ∧
    raised (readMany exampleConsts 1 [okEnv 77 0, okEnv 78 0, okEnv 79 0] threeFlagsHub).2 = [] ∧
    (readMany exampleConsts 1 [okEnv 77 0, okEnv 78 0, okEnv 79 0] threeFlagsHub).2.dataFd =
      [syncAt 9] := by
  have hr : raised threeFlagsHub = [SynFlag.pressure, SynFlag.light, SynFlag.magnetic] := by
    decide
  have h := readMany_serves_raised_in_order exampleConsts 1 (by decide)
    [okEnv 77 0, okEnv 78 0, okEnv 79 0] threeFlagsHub (by decide)
  rw [hr] at h
  exact ⟨hr, h.1, h.2.1, h.2.2.1⟩

/-- C8: enabling orientation queues nothing. For every well-formed header that
gives the handle `ID_O` the value of the slot index `CW_ORIENTATION` (so that
`setInitialState(what)` reaches its orientation case), every state and every
successful query of the orientation accuracy: `setEnable(ID_O, 1)` stores the
queried value (narrowed to the signed byte) in the status of the orientation
slot, but leaves the pending
mask and the orientation flag as they were, where the specification has the
pending bit set and the flag raised. -/
theorem setEnable_orientation_not_queued {C : Consts} (hC : C.WF)
    (hid : C.handle .ID_O = (C.slot .CW_ORIENTATION : Int)) (env : Env) (s : Hub) (v : Int)
    (hopen : env.openOk s.nOpen = true)
    (hquery : env.query (C.abs .ABS_ORI_ACCURACY) = some v) :
    (setEnable C env s (C.handle .ID_O) 1).1 = 0 ∧
    ((setEnable C env s (C.handle .ID_O) 1).2.mPendingEvents (C.slot .CW_ORIENTATION)).status
      = floatToInt8 v ∧
    hasBit (setEnable C env s (C.handle .ID_O) 1).2.mEnabled (C.slot .CW_ORIENTATION) = true ∧
    (setEnable C env s (C.handle .ID_O) 1).2.mPendingMask = s.mPendingMask ∧
    (setEnable C env s (C.handle .ID_O) 1).2.mHasPendingEventOrientation =
      s.mHasPendingEventOrientation := by
  have hlt := hC.slot_lt .CW_ORIENTATION
  have hle := hC.numSensors_le
  have hL : C.handle .ID_O ≠ C.handle .ID_L := by
    intro h; exact absurd (hC.handle_inj h) (by decide)
  have hP : C.handle .ID_O ≠ C.handle .ID_PS := by
    intro h; exact absurd (hC.handle_inj h) (by decide)
  have hM : C.handle .ID_O ≠ C.handle .ID_M := by
    intro h; exact absurd (hC.handle_inj h) (by decide)
  have hbit : hasBit (clearBit s.mEnabled (C.slot .CW_ORIENTATION) |||
      (1 <<< C.slot .CW_ORIENTATION)) (C.slot .CW_ORIENTATION) = true := by
    rw [hasBit_or_bit, hasBit_one_shift]; simp
  unfold setEnable
  simp only [find_sensor_orientation hC, toUInt32_slot hC, Int.toNat_ofNat]
  rw [if_neg (by omega)]
  rw [← hid] at *
  simp only [hopen, setInitialState, hL, hP, hM, hquery, Hub.setStatus, if_true, if_false]
  simp [hbit]

/-- C8 (witness): on the example layout, `setEnable(ID_O, 1)` in the idle state
with a queried accuracy of 3 stores 3 in the status of slot 6 and leaves the
pending mask empty and the orientation flag unset. -/
theorem setEnable_orientation_not_queued_witness :
    ((setEnable exampleConsts (okEnv 0 3) idleHub (exampleConsts.handle .ID_O) 1).2.mPendingEvents
      (exampleConsts.slot .CW_ORIENTATION)).status = 3 ∧
    (setEnable exampleConsts (okEnv 0 3) idleHub (exampleConsts.handle .ID_O) 1).2.mPendingMask
      = 0 ∧
    (setEnable exampleConsts (okEnv 0 3) idleHub
      (exampleConsts.handle .ID_O) 1).2.mHasPendingEventOrientation = false :=
  ⟨(setEnable_orientation_not_queued exampleConsts_wf rfl (okEnv 0 3) idleHub 3 rfl rfl).2.1,
    (setEnable_orientation_not_queued exampleConsts_wf rfl (okEnv 0 3) idleHub 3 rfl rfl).2.2.2.1,
    (setEnable_orientation_not_queued exampleConsts_wf rfl (okEnv 0 3) idleHub 3 rfl rfl).2.2.2.2⟩

/-- C9: `readEvents` rejects an empty buffer atomically. For every state and
every capacity below 1, the call returns `-EINVAL`, writes no record and leaves
the whole state (the pending and enabled masks, the slot records, the synthetic
flags, the events held and waiting) as it was. -/
theorem readEvents_rejects_empty_buffer (C : Consts) (env : Env) (s : Hub) (count : Int)
    (hcount : count < 1) :
    (readEvents C env s count).ret = -EINVAL ∧
    (readEvents C env s count).written = [] ∧
    (readEvents C env s count).hub = s := by
  unfold readEvents
  simp [hcount]

/-- C9 (witness): on the example layout, a call with capacity 0 in a state with
two slots pending and a sync marker waiting returns -22 and changes nothing. -/
theorem readEvents_rejects_empty_buffer_witness :
    (readEvents exampleConsts (okEnv 77 0) twoPendingHub 0).ret = -22 ∧
    (readEvents exampleConsts (okEnv 77 0) twoPendingHub 0).written = [] ∧
    (readEvents exampleConsts (okEnv 77 0) twoPendingHub 0).hub = twoPendingHub :=
  readEvents_rejects_empty_buffer exampleConsts (okEnv 77 0) twoPendingHub 0 (by decide)

/-- C10 (counterexample): on the example layout, after `setEnable(ID_L, 1)` and
`setEnable(ID_L, 0)` a call with capacity 1 and a working fill writes one
record to the buffer and returns 0. -/
theorem readEvents_return_counterexample :
    (1 : Int) ≤ 1 ∧ (okEnv 77 0).fillError = none ∧
    (readEvents exampleConsts (okEnv 77 0) allOffHub 1).ret = 0 ∧
    (readEvents exampleConsts (okEnv 77 0) allOffHub 1).written.length = 1 := by
  decide

/-- C10 (amended): `readEvents` never overruns the caller's buffer. For every
state, every capacity `c ≥ 1` and every call whose fill does not fail, the
return value `r` satisfies `0 ≤ r ≤ c`, the number of records written is at most
`c`, and `r` is the number of records written, except when a synthetic record
is served while the enabled mask is zero: then one record is written and `r`
is 0. -/
theorem readEvents_within_capacity (C : Consts) (env : Env) (s : Hub) (count : Int)
    (hcount : 1 ≤ count) (hfill : env.fillError = none) :
    0 ≤ (readEvents C env s count).ret ∧
    (readEvents C env s count).ret ≤ count ∧
    ((readEvents C env s count).written.length : Int) ≤ count ∧
    ((raised s = [] ∨ s.mEnabled ≠ 0) →
      (readEvents C env s count).ret = (readEvents C env s count).written.length) ∧
    (raised s ≠ [] → s.mEnabled = 0 →
      (readEvents C env s count).ret = 0 ∧ (readEvents C env s count).written.length = 1) := by
  by_cases hflags : raised s = []
  · rw [readEvents_after_fill C env s count hcount hflags hfill]
    have h := eventLoop_length_le C env (fill env s).2.mInputReader (fill env s).2 count
      (by omega)
    simp only [hflags, ne_eq, not_true_eq_false, true_or, forall_true_left, false_implies,
      and_true]
    omega
  · have hsyn : ∃ j s1, readEvents C env s count = serveSynthetic env s1 j ∧
        s1.mEnabled = s.mEnabled := by
      rw [raised_eq_nil_iff] at hflags
      unfold readEvents
      rw [if_neg (not_lt.mpr hcount)]
      split_ifs with h1 h2 h3 h4
      · exact ⟨_, _, rfl, rfl⟩
      · exact ⟨_, _, rfl, rfl⟩
      · exact ⟨_, _, rfl, rfl⟩
      · exact ⟨_, _, rfl, rfl⟩
      · simp only [Bool.not_eq_true] at h1 h2 h3 h4
        exact absurd ⟨h1, h2, h3, h4⟩ hflags
    obtain ⟨j, s1, hr, he⟩ := hsyn
    rw [hr]
    simp only [serveSynthetic, Hub.setTimestamp, he, List.length_singleton, hflags, false_or]
    by_cases hz : s.mEnabled = 0
    · simp [hz]; omega
    · simp [hz]; omega

/-- C10 (witness): on the example layout, a call with capacity 1 over a sync
marker with two slots pending and enabled returns 1 for 1 record written. -/
theorem readEvents_within_capacity_witness :
    0 ≤ (readEvents exampleConsts (okEnv 77 0) twoPendingHub 1).ret ∧
    (readEvents exampleConsts (okEnv 77 0) twoPendingHub 1).ret ≤ 1 ∧
    (readEvents exampleConsts (okEnv 77 0) twoPendingHub 1).ret =
      (readEvents exampleConsts (okEnv 77 0) twoPendingHub 1).written.length :=
  ⟨(readEvents_within_capacity exampleConsts (okEnv 77 0) twoPendingHub 1 (by decide) rfl).1,
    (readEvents_within_capacity exampleConsts (okEnv 77 0) twoPendingHub 1 (by decide) rfl).2.1,
    (readEvents_within_capacity exampleConsts (okEnv 77 0) twoPendingHub 1 (by decide)
      rfl).2.2.2.1 (Or.inl (by decide))⟩

/-! ## The control entry points -/

/-- The slot index found for a handle is -1 or the index of a named slot. -/
theorem find_sensor_eq (C : Consts) (handle : Int) :
    find_sensor C handle = -1 ∨ ∃ k, find_sensor C handle = (C.slot k : Int) := by
  have step : ∀ (c : Prop) [Decidable c] (k : Slot) (b : Int),
      (b = -1 ∨ ∃ k, b = (C.slot k : Int)) →
      ((if c then (C.slot k : Int) else b) = -1 ∨
        ∃ k2, (if c then (C.slot k : Int) else b) = (C.slot k2 : Int)) := by
    intro c _ k b hb
    by_cases hc : c
    · rw [if_pos hc]; exact Or.inr ⟨k, rfl⟩
    · rw [if_neg hc]; exact hb
  unfold find_sensor
  repeat (refine step _ _ _ ?_)
  exact Or.inl rfl

/-- With a well-formed header the test `uint32_t(what) >= numSensors` fails
exactly when `what` is a slot index below `numSensors`. -/
theorem toUInt32_find_sensor_lt {C : Consts} (hC : C.WF) (handle : Int) :
    toUInt32 (find_sensor C handle) < C.numSensors ↔
      (0 ≤ find_sensor C handle ∧ find_sensor C handle < C.numSensors) := by
  have hle := hC.numSensors_le
  rcases find_sensor_eq C handle with h | ⟨k, h⟩
  · rw [h]
    unfold toUInt32
    constructor
    · intro h1; omega
    · intro h1; omega
  · rw [h, toUInt32_slot hC]
    have := hC.slot_lt k
    constructor
    · intro _; omega
    · intro _; omega

/-- The enabled mask after `setEnable`. -/
theorem setEnable_mEnabled (C : Consts) (env : Env) (s : Hub) (handle en : Int) :
    (setEnable C env s handle en).2.mEnabled =
      if toUInt32 (find_sensor C handle) ≥ C.numSensors then s.mEnabled
      else if env.openOk s.nOpen = true then
        clearBit s.mEnabled (find_sensor C handle).toNat |||
          ((if en ≠ 0 then 1 else 0) <<< (find_sensor C handle).toNat)
      else s.mEnabled := by
  unfold setEnable
  by_cases h1 : toUInt32 (find_sensor C handle) ≥ C.numSensors
  · simp only [h1, if_true]
  · simp only [h1, if_false]
    by_cases h2 : env.openOk s.nOpen = true
    · simp only [h2, if_true]
      split_ifs <;> (try split) <;>
        first | contradiction | simp [(setInitialState_frame C env _ _).1]
    · simp only [h2, if_false]
      split_ifs <;> (try split) <;>
        first | contradiction | simp [(setInitialState_frame C env _ _).1]

/-- The result of `setEnable` and of `setDelay` is `-EINVAL` or 0 according to
the test of the slot index. -/
theorem setEnable_setDelay_result (C : Consts) (env : Env) (s : Hub) (handle en ns : Int) :
    (setEnable C env s handle en).1 =
      (if toUInt32 (find_sensor C handle) ≥ C.numSensors then -EINVAL else 0) ∧
    (setDelay C env s handle ns).1 =
      (if toUInt32 (find_sensor C handle) ≥ C.numSensors then -EINVAL else 0) := by
  by_cases h : toUInt32 (find_sensor C handle) ≥ C.numSensors
  · constructor <;> simp only [setEnable, setDelay, h, if_true]
  · constructor
    · simp only [setEnable, h, if_false]
    · simp only [setDelay, h, if_false]
      split_ifs <;> rfl

/-- C11: invalid identifiers are rejected without side effect. For every
well-formed header and every state: when `find_sensor` does not map the handle
to a slot index below `numSensors`, `setEnable` and `setDelay` return `-EINVAL`
and leave the whole state as it was (so no control file is opened or written,
and the masks, the slot records and the synthetic flags are unchanged); when it
does, both return 0. -/
theorem invalid_handle_rejected {C : Consts} (hC : C.WF) (env : Env) (s : Hub)
    (handle en ns : Int) :
    (¬ (0 ≤ find_sensor C handle ∧ find_sensor C handle < C.numSensors) →
      setEnable C env s handle en = (-EINVAL, s) ∧ setDelay C env s handle ns = (-EINVAL, s)) ∧
    ((0 ≤ find_sensor C handle ∧ find_sensor C handle < C.numSensors) →
      (setEnable C env s handle en).1 = 0 ∧ (setDelay C env s handle ns).1 = 0) := by
  have hiff := toUInt32_find_sensor_lt hC handle
  constructor
  · intro h
    have hge : toUInt32 (find_sensor C handle) ≥ C.numSensors := by
      rw [← hiff] at h; omega
    unfold setEnable setDelay
    simp [hge]
  · intro h
    have hlt : ¬ toUInt32 (find_sensor C handle) ≥ C.numSensors := by
      rw [← hiff] at h; omega
    have hr := setEnable_setDelay_result C env s handle en ns
    rw [if_neg hlt] at hr
    exact hr

/-- C11 (witness): on the example layout the handle 99 is rejected by both
entry points with -22 and the state unchanged, and the handle of the light
sensor is accepted by both. -/
theorem invalid_handle_rejected_witness :
    setEnable exampleConsts (okEnv 0 0) twoPendingHub 99 1 = (-22, twoPendingHub) ∧
    setDelay exampleConsts (okEnv 0 0) twoPendingHub 99 20000000 = (-22, twoPendingHub) ∧
    (setEnable exampleConsts (okEnv 0 0) twoPendingHub (exampleConsts.handle .ID_L) 1).1 = 0 ∧
    (setDelay exampleConsts (okEnv 0 0) twoPendingHub
      (exampleConsts.handle .ID_L) 20000000).1 = 0 :=
  ⟨((invalid_handle_rejected exampleConsts_wf (okEnv 0 0) twoPendingHub 99 1 20000000).1
      (by decide)).1,
    ((invalid_handle_rejected exampleConsts_wf (okEnv 0 0) twoPendingHub 99 1 20000000).1
      (by decide)).2,
    ((invalid_handle_rejected exampleConsts_wf (okEnv 0 0) twoPendingHub
      (exampleConsts.handle .ID_L) 1 20000000).2 (by decide)).1,
    ((invalid_handle_rejected exampleConsts_wf (okEnv 0 0) twoPendingHub
      (exampleConsts.handle .ID_L) 1 20000000).2 (by decide)).2⟩

/-- C12: the enabled bit tracks the request, not the confirmed write. For every
header with at most 32 slots, every state and every handle that `find_sensor`
maps to a slot `w` below `numSensors`: if the control file opens, then after
`setEnable(h, en)` the enabled bit of `w` is set exactly when `en` is not 0,
whatever the outcome of the write, and every other bit of the 32-bit enabled
mask is as before; if the control file does not open, the enabled mask is
unchanged; in both cases the call returns 0. -/
theorem setEnable_tracks_request (C : Consts) (hle : C.numSensors ≤ 32) (env : Env) (s : Hub)
    (handle en : Int) (w : Nat) (hw : find_sensor C handle = (w : Int))
    (hlt : w < C.numSensors) :
    (setEnable C env s handle en).1 = 0 ∧
    (env.openOk s.nOpen = true →
      hasBit (setEnable C env s handle en).2.mEnabled w = decide (en ≠ 0) ∧
      ∀ i, i < 32 → i ≠ w →
        hasBit (setEnable C env s handle en).2.mEnabled i = hasBit s.mEnabled i) ∧
    (env.openOk s.nOpen = false → (setEnable C env s handle en).2.mEnabled = s.mEnabled) := by
  have hu : toUInt32 (find_sensor C handle) = w := by
    rw [hw]; unfold toUInt32; omega
  have hnot : ¬ toUInt32 (find_sensor C handle) ≥ C.numSensors := by omega
  have hr := (setEnable_setDelay_result C env s handle en 0).1
  rw [if_neg hnot] at hr
  have hm := setEnable_mEnabled C env s handle en
  rw [if_neg hnot, hw, Int.toNat_ofNat] at hm
  refine ⟨hr, ?_, ?_⟩
  · intro hopen
    rw [hm, if_pos hopen]
    constructor
    · rw [hasBit_or_bit, hasBit_clearBit_self (by omega)]
      by_cases hen : en = 0
      · simp [hen, hasBit_zero]
      · simp [hen, hasBit_one_shift]
    · intro i hi hne
      rw [hasBit_or_bit, hasBit_clearBit_of_ne hi (Ne.symm hne)]
      by_cases hen : en = 0
      · simp [hen, hasBit_zero]
      · simp [hen, hasBit_one_shift, Ne.symm hne]
  · intro hopen
    rw [hm]
    simp [hopen]

/-- C12 (witness): on the example layout, with slots 0 and 1 enabled, enabling
light sets bit 3 and keeps bits 0 and 1 although the write fails, and changes
nothing when the control file does not open. -/
theorem setEnable_tracks_request_witness :
    (setEnable exampleConsts { okEnv 0 0 with writeOk := fun _ => false } twoPendingHub
      (exampleConsts.handle .ID_L) 1).2.mEnabled = 11 ∧
    (setEnable exampleConsts { okEnv 0 0 with openOk := fun _ => false } twoPendingHub
      (exampleConsts.handle .ID_L) 1).2.mEnabled = 3 :=
  ⟨by decide,
    (setEnable_tracks_request exampleConsts (by decide)
      { okEnv 0 0 with openOk := fun _ => false } twoPendingHub (exampleConsts.handle .ID_L) 1 3
      (by decide) (by decide)).2.2 rfl⟩

/-- C13: disabling does not touch pending state. For every header, state and
handle, `setEnable(h, 0)` leaves the pending mask, every slot record and every
synthetic flag exactly as they were; in particular a pending bit set before the
call is set after it. -/
theorem setEnable_zero_keeps_pending (C : Consts) (env : Env) (s : Hub) (handle : Int) :
    (setEnable C env s handle 0).2.mPendingMask = s.mPendingMask ∧
    (setEnable C env s handle 0).2.mPendingEvents = s.mPendingEvents ∧
    (setEnable C env s handle 0).2.mHasPendingEventPressure = s.mHasPendingEventPressure ∧
    (setEnable C env s handle 0).2.mHasPendingEventActivity = s.mHasPendingEventActivity ∧
    (setEnable C env s handle 0).2.mHasPendingEventLight = s.mHasPendingEventLight ∧
    (setEnable C env s handle 0).2.mHasPendingEventMagnetic = s.mHasPendingEventMagnetic ∧
    (setEnable C env s handle 0).2.mHasPendingEventOrientation =
      s.mHasPendingEventOrientation ∧
    ∀ j, hasBit s.mPendingMask j = true →
      hasBit (setEnable C env s handle 0).2.mPendingMask j = true := by
  obtain ⟨h1, h2, h3, h4, h5, h6, h7, _, _⟩ := setEnable_zero_frame C env s handle
  refine ⟨h1, h2, h3, h4, h5, h6, h7, ?_⟩
  intro j hj
  rw [h1]; exact hj

/-! ## The records copied out on a sync marker -/

theorem calculate_rv_4th_element_other (C : Consts) (s : Hub) (j k : Nat) (hk : k ≠ j) :
    (calculate_rv_4th_element C s j).mPendingEvents k = s.mPendingEvents k := by
  unfold calculate_rv_4th_element
  split_ifs <;> simp [Hub.setData, Function.update_noteq hk]

theorem calculate_rv_4th_element_congr (C : Consts) (s t : Hub) (j : Nat)
    (h : s.mPendingEvents j = t.mPendingEvents j) :
    (calculate_rv_4th_element C s j).mPendingEvents j =
      (calculate_rv_4th_element C t j).mPendingEvents j := by
  unfold calculate_rv_4th_element
  split_ifs <;> simp [Hub.setData, h]

theorem syncVisit_events (C : Consts) (env : Env) (time : Int) (s : Hub) (j : Nat) :
    (syncVisit C env time s j).mPendingEvents =
      Function.update s.mPendingEvents j { s.mPendingEvents j with timestamp := time } := by
  unfold syncVisit
  split_ifs
  · simp [Hub.setTimestamp, (setEnable_zero_frame C env _ _).2.1]
  · simp [Hub.setTimestamp]

/-- The record of slot `j` after the loop body has stamped it and derived the
scalar component: the derivation applied to the record before, stamped. -/
theorem calculate_syncVisit_event (C : Consts) (env : Env) (time : Int) (s : Hub) (j : Nat) :
    (calculate_rv_4th_element C (syncVisit C env time s j) j).mPendingEvents j =
      { (calculate_rv_4th_element C s j).mPendingEvents j with timestamp := time } := by
  unfold calculate_rv_4th_element
  split_ifs <;> simp [Hub.setData, syncVisit_events]

/-- Every record the scan copies out is the record its slot held before the
scan, with the scalar component derived and the time of the sync marker. -/
theorem syncLoop_mem_event (C : Consts) (env : Env) (time : Int) (n j : Nat) (s : Hub)
    (count : Int) (e : Emitted) (he : e ∈ (syncLoop C env time n j s count).2.2) :
    e.event =
      { (calculate_rv_4th_element C s e.slot).mPendingEvents e.slot with timestamp := time } := by
  induction n generalizing j s count with
  | zero => simp [syncLoop] at he
  | succ n ih =>
    simp only [syncLoop] at he
    split_ifs at he with h1 h2 h3
    · rcases List.mem_cons.mp he with rfl | he
      · exact calculate_syncVisit_event C env time s j
      · have hslot := (syncLoop_mem C env time n (j + 1) _ _ e he).1
        have hne : e.slot ≠ j := by omega
        rw [ih _ _ _ he]
        rw [calculate_rv_4th_element_congr C _ s e.slot
          (by rw [calculate_rv_4th_element_other C _ j e.slot hne, syncVisit_events,
            Function.update_noteq hne])]
    · have hslot := (syncLoop_mem C env time n (j + 1) _ _ e he).1
      have hne : e.slot ≠ j := by omega
      rw [ih _ _ _ he]
      rw [calculate_rv_4th_element_congr C _ s e.slot
        (by rw [syncVisit_events, Function.update_noteq hne])]
    · exact ih _ _ _ he
    · simp at he

/-- The slots below `n` that pass a test passed by `m` alone. -/
theorem filter_range_eq_singleton (p : Nat → Bool) (m n : Nat) (hm : m < n)
    (hp : ∀ j, j < n → (p j = true ↔ j = m)) : (List.range n).filter p = [m] := by
  induction n with
  | zero => omega
  | succ n ih =>
    rw [List.range_succ, List.filter_append]
    rcases Nat.eq_or_lt_of_le (Nat.le_of_lt_succ hm) with rfl | hlt
    · have hnil : (List.range m).filter p = [] := by
        rw [List.filter_eq_nil_iff]
        intro a ha
        rw [List.mem_range] at ha
        intro hpa
        have := (hp a (by omega)).mp hpa
        omega
      have hpm : p m = true := (hp m (by omega)).mpr rfl
      rw [hnil]
      simp [hpm]
    · have hpn : ¬ p n = true := by
        intro hpn
        have := (hp n (by omega)).mp hpn
        omega
      rw [ih hlt (fun j hj => hp j (by omega))]
      simp [hpn]

/-! ## The magnetometer frame -/

theorem processEvent_mag {C : Consts} (hA : C.AbsDistinct) (s : Hub) (v : Int) :
    processEvent C s (C.abs .ABS_MAG_X) v =
      s.axis (C.slot .CW_MAGNETIC) 0 ((FVal.ofInt v).mul (FVal.conv .CONVERT_M)) ∧
    processEvent C s (C.abs .ABS_MAG_Y) v =
      s.axis (C.slot .CW_MAGNETIC) 1 ((FVal.ofInt v).mul (FVal.conv .CONVERT_M)) ∧
    processEvent C s (C.abs .ABS_MAG_Z) v =
      s.axis (C.slot .CW_MAGNETIC) 2 ((FVal.ofInt v).mul (FVal.conv .CONVERT_M)) ∧
    processEvent C s (C.abs .ABS_MAG_ACCURACY) v = s.accuracy (C.slot .CW_MAGNETIC) v := by
  refine ⟨?_, ?_, ?_, ?_⟩ <;> simp [processEvent, hA.eq_iff]

theorem map_slot_eq_singleton {l : List Emitted} {m : Nat}
    (h : l.map Emitted.slot = [m]) : ∃ e, l = [e] ∧ e.slot = m := by
  cases l with
  | nil => simp at h
  | cons e t =>
    cases t with
    | nil => exact ⟨e, rfl, by simpa using h⟩
    | cons e2 t2 => simp at h

theorem setData_type (s : Hub) (j i : Nat) (v : FVal) (k : Nat) :
    ((s.setData j i v).mPendingEvents k).type = (s.mPendingEvents k).type := by
  by_cases h : k = j
  · subst h; simp [Hub.setData]
  · simp [Hub.setData, Function.update_noteq h]

theorem setStatus_type (s : Hub) (j : Nat) (v : Int) (k : Nat) :
    ((s.setStatus j v).mPendingEvents k).type = (s.mPendingEvents k).type := by
  by_cases h : k = j
  · subst h; simp [Hub.setStatus]
  · simp [Hub.setStatus, Function.update_noteq h]

theorem initPressureAxis_type (C : Consts) (env : Env) (s : Hub) (code : AbsCode) (i k : Nat) :
    ((initPressureAxis C env s code i).mPendingEvents k).type = (s.mPendingEvents k).type := by
  unfold initPressureAxis
  split
  · exact setData_type (s.pend (C.slot .CW_PRESSURE)) _ _ _ k
  · exact setData_type s _ _ _ k

theorem setInitialState_type (C : Consts) (env : Env) (s : Hub) (id : Int) (k : Nat) :
    ((setInitialState C env s id).2.mPendingEvents k).type = (s.mPendingEvents k).type := by
  unfold setInitialState
  split_ifs
  · split
    · exact setData_type (s.pend (C.slot .CW_LIGHT)) _ _ _ k
    · rfl
  · simp only [initPressureAxis_type]
  · split
    · exact setStatus_type (s.pend (C.slot .CW_MAGNETIC)) _ _ k
    · rfl
  · split
    · exact setStatus_type s _ _ k
    · rfl
  · rfl

/-- The calls of `setEnable` leave the type of every record as it is. -/
theorem setEnable_type (C : Consts) (env : Env) (s : Hub) (handle : Int) (en : Int) (k : Nat) :
    ((setEnable C env s handle en).2.mPendingEvents k).type = (s.mPendingEvents k).type := by
  unfold setEnable
  simp only []
  split_ifs <;> (try split) <;> first
    | rfl
    | exact setInitialState_type C env _ _ k

/-- With a well-formed header, the constructor leaves the magnetic slot with the
type `SENSOR_TYPE_MAGNETIC_FIELD`, whatever the storage held. -/
theorem CwMcuSensor_type_magnetic {C : Consts} (hC : C.WF) (A : SysConsts) (env : Env)
    (hasFd : Bool) (mem : Hub) :
    ((CwMcuSensor C A env hasFd mem).mPendingEvents (C.slot .CW_MAGNETIC)).type =
      A.sensorType .SENSOR_TYPE_MAGNETIC_FIELD := by
  unfold CwMcuSensor
  simp only []
  split_ifs
  · rw [setEnable_type]
    simp [Hub.initRecord, Hub.initRecordHigh, Hub.setMeta, Hub.zeroData, Hub.setStatus,
      Function.update_apply, hC.slot_inj.eq_iff]
  · simp [Hub.initRecord, Hub.initRecordHigh, Hub.setMeta, Hub.zeroData, Hub.setStatus,
      Function.update_apply, hC.slot_inj.eq_iff]
/-- The scan of a sync marker when the magnetic slot alone is pending, and it is
enabled: one record, that of the magnetic slot, stamped with the marker's time. -/
theorem syncStep_magnetic_alone {C : Consts} (hC : C.WF) (env : Env) (time : Int) (s4 : Hub)
    (count : Int) (hcount : 1 ≤ count)
    (hp4 : ∀ j, hasBit s4.mPendingMask j = decide (C.slot .CW_MAGNETIC = j))
    (hen : hasBit s4.mEnabled (C.slot .CW_MAGNETIC) = true) :
    ∃ e, (syncStep C env time s4 count).2.2 = [e] ∧ e.slot = C.slot .CW_MAGNETIC ∧
      e.event = { s4.mPendingEvents (C.slot .CW_MAGNETIC) with timestamp := time } := by
  have hle := hC.numSensors_le
  have hmlt := hC.slot_lt .CW_MAGNETIC
  have hsig : C.slot .CW_MAGNETIC ≠ C.slot .CW_SIGNIFICANT_MOTION := by
    intro h; exact absurd (hC.slot_inj h) (by decide)
  have hr1 : C.slot .CW_MAGNETIC ≠ C.slot .CW_ROTATIONVECTOR := by
    intro h; exact absurd (hC.slot_inj h) (by decide)
  have hr2 : C.slot .CW_MAGNETIC ≠ C.slot .CW_GAME_ROTATION_VECTOR := by
    intro h; exact absurd (hC.slot_inj h) (by decide)
  have hr3 : C.slot .CW_MAGNETIC ≠ C.slot .CW_GEOMAGNETIC_ROTATION_VECTOR := by
    intro h; exact absurd (hC.slot_inj h) (by decide)
  have hpe : pendingEnabled C s4 = [C.slot .CW_MAGNETIC] := by
    unfold pendingEnabled
    apply filter_range_eq_singleton _ _ _ hmlt
    intro j _
    unfold isPendingEnabled
    rw [hp4]
    constructor
    · intro h
      simp only [Bool.and_eq_true, decide_eq_true_eq] at h
      exact h.1.symm
    · intro h
      subst h
      simp [hen]
  have hsig4 : isPendingEnabled s4 (C.slot .CW_SIGNIFICANT_MOTION) = false := by
    unfold isPendingEnabled
    rw [hp4]
    simp [hsig]
  have hex := (syncLoop_exact hC env time C.numSensors 0 s4 count (by omega) (by omega) hsig4).1
  rw [← pendingEnabled_eq, hpe] at hex
  obtain ⟨k, hk⟩ : ∃ k, count.toNat = k + 1 := ⟨count.toNat - 1, by omega⟩
  rw [hk, List.take_succ_cons, List.take_nil] at hex
  obtain ⟨e, hwe, hes⟩ := map_slot_eq_singleton hex
  have hmem : e ∈ (syncLoop C env time C.numSensors 0 s4 count).2.2 := by
    rw [hwe]; simp
  have hev := syncLoop_mem_event C env _ _ _ _ _ e hmem
  rw [hes] at hev
  have hcalc : calculate_rv_4th_element C s4 (C.slot .CW_MAGNETIC) = s4 := by
    simp [calculate_rv_4th_element, hr1, hr2, hr3]
  rw [hcalc] at hev
  exact ⟨e, hwe, hes, hev⟩

/-- C14 (counterexample): on the example layout, with the magnetometer enabled,
no flag raised and nothing pending, one `readEvents` call with capacity 1 over
the frame 100, 200, 300, accuracy 3 and a sync marker returns 0 and writes
nothing: the reader takes four events and the sync marker waits for the next
call. With the accuracy 200 in the frame, the record that the second call
writes has the status -56. -/
theorem magnetometer_frame_counterexample :
    hasBit magnetometerHub.mEnabled (exampleConsts.slot .CW_MAGNETIC) = true ∧
    raised magnetometerHub = [] ∧ magnetometerHub.mPendingMask = 0 ∧
    magnetometerHub.dataFd = magnetometerFrame 100 200 300 3 1000 ∧
    (readEvents exampleConsts (okEnv 77 0) magnetometerHub 1).ret = 0 ∧
    (readEvents exampleConsts (okEnv 77 0) magnetometerHub 1).written.length = 0 ∧
    (readEvents exampleConsts (okEnv 78 0)
      (readEvents exampleConsts (okEnv 77 0) wideAccuracyHub 1).hub 1).written.map
        (fun e => e.event.status) = [-56] := by
  decide

/-- C14 (amended): the magnetometer frame. For every well-formed header with
distinct absolute codes and every state in which the magnetic slot is enabled
and holds the type `SENSOR_TYPE_MAGNETIC_FIELD` that the constructor gave it, no
synthetic flag is raised, the pending mask is empty and the reader holds
nothing, with the events `ABS_MAG_X = x`, `ABS_MAG_Y = y`, `ABS_MAG_Z = z`,
`ABS_MAG_ACCURACY = a` and a sync marker waiting in the event device: the first
`readEvents` call with capacity at least 1 takes the four absolute events, returns
0 and writes nothing; the next call, with capacity at least 1, returns 1 and
writes one record, of the magnetic slot, of type `SENSOR_TYPE_MAGNETIC_FIELD`,
with data `[x * CONVERT_M, y * CONVERT_M, z * CONVERT_M]`, as status `a`
narrowed to the signed byte (`a` itself when `-128 ≤ a ≤ 127`) and as timestamp
the time of the sync marker converted to nanoseconds. -/
theorem magnetometer_frame {C : Consts} (hC : C.WF) (hA : C.AbsDistinct) (A : SysConsts)
    (env1 env2 : Env) (s : Hub) (count1 count2 : Int) (hcount1 : 1 ≤ count1)
    (hcount2 : 1 ≤ count2)
    (henabled : hasBit s.mEnabled (C.slot .CW_MAGNETIC) = true) (hflags : raised s = [])
    (hmask : s.mPendingMask = 0) (hfill1 : env1.fillError = none)
    (hfill2 : env2.fillError = none) (hreader : s.mInputReader = [])
    (htype : (s.mPendingEvents (C.slot .CW_MAGNETIC)).type =
      A.sensorType .SENSOR_TYPE_MAGNETIC_FIELD)
    (x y z a : Int) (e1 e2 e3 e4 e5 : InputEvent)
    (hfd : s.dataFd =
      [{ e1 with type := EV_ABS, code := C.abs .ABS_MAG_X, value := x },
       { e2 with type := EV_ABS, code := C.abs .ABS_MAG_Y, value := y },
       { e3 with type := EV_ABS, code := C.abs .ABS_MAG_Z, value := z },
       { e4 with type := EV_ABS, code := C.abs .ABS_MAG_ACCURACY, value := a },
       { e5 with type := EV_SYN }]) :
    (readEvents C env1 s count1).ret = 0 ∧
    (readEvents C env1 s count1).written = [] ∧
    (readEvents C env2 (readEvents C env1 s count1).hub count2).ret = 1 ∧
    ∃ e, (readEvents C env2 (readEvents C env1 s count1).hub count2).written = [e] ∧
      e.slot = C.slot .CW_MAGNETIC ∧
      e.event.type = A.sensorType .SENSOR_TYPE_MAGNETIC_FIELD ∧
      e.event.data 0 = (FVal.ofInt x).mul (FVal.conv .CONVERT_M) ∧
      e.event.data 1 = (FVal.ofInt y).mul (FVal.conv .CONVERT_M) ∧
      e.event.data 2 = (FVal.ofInt z).mul (FVal.conv .CONVERT_M) ∧
      e.event.status = floatToInt8 a ∧
      (-128 ≤ a → a ≤ 127 → e.event.status = a) ∧
      e.event.timestamp = timevalToNano e5.sec e5.usec ∧
      e.event.sensor = (s.mPendingEvents (C.slot .CW_MAGNETIC)).sensor := by
  obtain ⟨pX, pY, pZ, pA⟩ : (∀ t v, processEvent C t (C.abs .ABS_MAG_X) v = _) ∧
      (∀ t v, processEvent C t (C.abs .ABS_MAG_Y) v = _) ∧
      (∀ t v, processEvent C t (C.abs .ABS_MAG_Z) v = _) ∧
      (∀ t v, processEvent C t (C.abs .ABS_MAG_ACCURACY) v = _) :=
    ⟨fun t v => (processEvent_mag hA t v).1, fun t v => (processEvent_mag hA t v).2.1,
      fun t v => (processEvent_mag hA t v).2.2.1, fun t v => (processEvent_mag hA t v).2.2.2⟩
  have hc1 : count1 ≠ 0 := by omega
  have hc2 : count2 ≠ 0 := by omega
  obtain ⟨t, ht⟩ : ∃ t : Hub, t = ((((s.axis (C.slot .CW_MAGNETIC) 0
      ((FVal.ofInt x).mul (FVal.conv .CONVERT_M))).axis (C.slot .CW_MAGNETIC) 1
      ((FVal.ofInt y).mul (FVal.conv .CONVERT_M))).axis (C.slot .CW_MAGNETIC) 2
      ((FVal.ofInt z).mul (FVal.conv .CONVERT_M))).accuracy (C.slot .CW_MAGNETIC) a) := ⟨_, rfl⟩
  have hfirst : readEvents C env1 s count1 =
      ⟨0, [], t.withBatch [] [{ e5 with type := EV_SYN }]⟩ := by
    rw [readEvents_after_fill C env1 s count1 hcount1 hflags hfill1]
    have hf : (fill env1 s).2 = s.withBatch
        [{ e1 with type := EV_ABS, code := C.abs .ABS_MAG_X, value := x },
         { e2 with type := EV_ABS, code := C.abs .ABS_MAG_Y, value := y },
         { e3 with type := EV_ABS, code := C.abs .ABS_MAG_Z, value := z },
         { e4 with type := EV_ABS, code := C.abs .ABS_MAG_ACCURACY, value := a }]
        [{ e5 with type := EV_SYN }] := by
      unfold fill
      simp only [hfill1, hreader, hfd]
      rfl
    rw [hf]
    simp only [Hub.withBatch, eventLoop, hc1, if_false, if_true, absEvent, hA.eq_iff,
      reduceCtorEq, pX, pY, pZ, pA, EV_ABS, EV_SYN, EV_REL]
    rw [ht]
    rfl
  rw [hfirst]
  refine ⟨rfl, rfl, ?_⟩
  have hraised : raised (t.withBatch [] [{ e5 with type := EV_SYN }]) = [] := by
    rw [← hflags, ht]; rfl
  have hsecond : readEvents C env2 (t.withBatch [] [{ e5 with type := EV_SYN }]) count2 =
      ⟨((eventLoop C env2 [{ e5 with type := EV_SYN }]
          (t.withBatch [{ e5 with type := EV_SYN }] []) count2).2.length : Int),
        (eventLoop C env2 [{ e5 with type := EV_SYN }]
          (t.withBatch [{ e5 with type := EV_SYN }] []) count2).2,
        (eventLoop C env2 [{ e5 with type := EV_SYN }]
          (t.withBatch [{ e5 with type := EV_SYN }] []) count2).1⟩ := by
    rw [readEvents_of_no_flags C env2 _ count2 hcount2 hraised hfill2
      (by simp [Hub.withBatch, READER_CAPACITY])]
    rfl
  simp only [hsecond]
  have hp4 : ∀ j, hasBit (t.withBatch [{ e5 with type := EV_SYN }] []).mPendingMask j =
      decide (C.slot .CW_MAGNETIC = j) := by
    intro j
    rw [ht]
    simp [Hub.withBatch, Hub.axis, Hub.accuracy, Hub.pend, Hub.setData, Hub.setStatus,
      hasBit_setBit, hmask, hasBit_zero]
  have he4 : hasBit (t.withBatch [{ e5 with type := EV_SYN }] []).mEnabled
      (C.slot .CW_MAGNETIC) = true := by
    rw [ht]; exact henabled
  have hrec : (t.withBatch [{ e5 with type := EV_SYN }] []).mPendingEvents
      (C.slot .CW_MAGNETIC) =
      { s.mPendingEvents (C.slot .CW_MAGNETIC) with
        data := Function.update (Function.update (Function.update
          (s.mPendingEvents (C.slot .CW_MAGNETIC)).data 0
            ((FVal.ofInt x).mul (FVal.conv .CONVERT_M))) 1
            ((FVal.ofInt y).mul (FVal.conv .CONVERT_M))) 2
            ((FVal.ofInt z).mul (FVal.conv .CONVERT_M))
        status := floatToInt8 a } := by
    rw [ht]
    simp [Hub.withBatch, Hub.axis, Hub.accuracy, Hub.pend, Hub.setData, Hub.setStatus]
  obtain ⟨e, hwe, hes, hev⟩ := syncStep_magnetic_alone hC env2
    (timevalToNano e5.sec e5.usec) _ count2 hcount2 hp4 he4
  rw [hrec] at hev
  have hloop : (eventLoop C env2 [{ e5 with type := EV_SYN }]
      (t.withBatch [{ e5 with type := EV_SYN }] []) count2).2 = [e] := by
    simp only [eventLoop, hc2, if_false, if_true, EV_ABS, EV_SYN, EV_REL,
      List.append_nil]
    norm_num
    exact hwe
  rw [hloop]
  refine ⟨by simp, e, rfl, hes, ?_⟩
  rw [hev]
  refine ⟨htype, by simp, by simp, by simp, rfl, ?_, rfl, rfl⟩
  intro h1 h2
  show floatToInt8 a = a
  unfold floatToInt8
  omega

/-- C14 (witness): on the example layout, in the state the constructor builds,
after `setEnable(ID_M, 1)`, with the frame 100, 200, 300, accuracy 3 and a sync
marker at 1000 seconds waiting: the first call returns 0, the second returns 1
and writes one record of slot 1 and type 2 (`SENSOR_TYPE_MAGNETIC_FIELD`) with
data `[100 * CONVERT_M, 200 * CONVERT_M, 300 * CONVERT_M]`, status 3 and
timestamp 1000 seconds in nanoseconds. -/
theorem magnetometer_frame_witness :
    (readEvents exampleConsts (okEnv 77 0) builtMagnetometerHub 1).ret = 0 ∧
    (readEvents exampleConsts (okEnv 78 0)
      (readEvents exampleConsts (okEnv 77 0) builtMagnetometerHub 1).hub 1).ret = 1 ∧
    (readEvents exampleConsts (okEnv 78 0)
      (readEvents exampleConsts (okEnv 77 0) builtMagnetometerHub 1).hub 1).written.map
      (fun e => (e.slot, e.event.type, e.event.status, e.event.timestamp)) =
      [(1, 2, 3, 1000000000000)] ∧
    (readEvents exampleConsts (okEnv 78 0)
      (readEvents exampleConsts (okEnv 77 0) builtMagnetometerHub 1).hub 1).written.map
      (fun e => (e.event.data 0, e.event.data 1, e.event.data 2)) =
      [((FVal.ofInt 100).mul (FVal.conv .CONVERT_M),
        (FVal.ofInt 200).mul (FVal.conv .CONVERT_M),
        (FVal.ofInt 300).mul (FVal.conv .CONVERT_M))] :=
  ⟨(magnetometer_frame exampleConsts_wf exampleConsts_absDistinct exampleSys (okEnv 77 0)
      (okEnv 78 0) builtMagnetometerHub 1 1 (by decide) (by decide) (by decide) (by decide)
      (by decide) rfl rfl (by decide) (by decide) 100 200 300 3 (absAt 0 0) (absAt 0 0)
      (absAt 0 0) (absAt 0 0) (syncAt 1000) rfl).1,
    (magnetometer_frame exampleConsts_wf exampleConsts_absDistinct exampleSys (okEnv 77 0)
      (okEnv 78 0) builtMagnetometerHub 1 1 (by decide) (by decide) (by decide) (by decide)
      (by decide) rfl rfl (by decide) (by decide) 100 200 300 3 (absAt 0 0) (absAt 0 0)
      (absAt 0 0) (absAt 0 0) (syncAt 1000) rfl).2.2.1,
    by decide, by decide⟩

/-! ## The light level -/

/-- The light table as integers, with the index clamped. -/
theorem indexToValue_eq (i : Nat) :
    indexToValue i =
      FVal.ofInt (([0, 10, 40, 90, 160, 225, 320, 640, 1280, 2600] : List Int).getD (min i 9) 0) := by
  unfold indexToValue LIGHTSENSOR_LEVEL
  by_cases h : i > 10 - 1
  · simp only [h, if_true]
    rw [min_eq_right (by omega)]
  · simp only [h, if_false]
    rw [min_eq_left (by omega)]

/-- C15: the light-level lookup. `indexToValue` maps the indices 0 to 9 to 0, 10,
40, 90, 160, 225, 320, 640, 1280 and 2600, maps every index from 10 on to 2600,
and is non-decreasing over all indices (its values are floats that hold
integers, compared as integers); index 0 gives 0 and index 9 gives 2600. -/
theorem indexToValue_table :
    (List.range 10).map indexToValue =
      ([0, 10, 40, 90, 160, 225, 320, 640, 1280, 2600] : List Int).map FVal.ofInt ∧
    (∀ i, 10 ≤ i → indexToValue i = FVal.ofInt 2600) ∧
    (∀ i j, i ≤ j → ∃ a b : Int,
      indexToValue i = FVal.ofInt a ∧ indexToValue j = FVal.ofInt b ∧ a ≤ b) ∧
    indexToValue 0 = FVal.ofInt 0 ∧ indexToValue 9 = FVal.ofInt 2600 := by
  refine ⟨by decide, ?_, ?_, by decide, by decide⟩
  · intro i hi
    rw [indexToValue_eq, min_eq_right (by omega)]
    rfl
  · intro i j hij
    refine ⟨_, _, indexToValue_eq i, indexToValue_eq j, ?_⟩
    have hmono : ∀ a, a < 10 → ∀ b, b < 10 → a ≤ b →
        ([0, 10, 40, 90, 160, 225, 320, 640, 1280, 2600] : List Int).getD a 0 ≤
          ([0, 10, 40, 90, 160, 225, 320, 640, 1280, 2600] : List Int).getD b 0 := by
      decide
    exact hmono _ (by omega) _ (by omega) (by omega)

theorem intToIndex_of_nonneg (w : Nat) (v : Int) (hw : 31 ≤ w) (h0 : 0 ≤ v)
    (hv : v < 2147483648) : intToIndex w v = v.toNat := by
  unfold intToIndex
  have hpow : (2147483648 : Int) ≤ 2 ^ w := by
    have h1 : (2 : Int) ^ 31 ≤ 2 ^ w := pow_le_pow_right₀ (by norm_num) hw
    norm_num at h1
    exact h1
  rw [Int.emod_eq_of_lt h0 (by omega)]

/-- C16: the light sentinel. For every header whose `size_t` has at least 31
bits, every state and every absolute light-level event: when the raw value is
-1 the event changes nothing (it is consumed by the loop with the state as it
was); when the raw value `v` is not negative (and a 32-bit `int`), the event
stores `indexToValue(v)` in the light slot and sets the light pending bit. -/
theorem light_event_sentinel (C : Consts) (hsize : 31 ≤ C.sizeBits) (s : Hub)
    (event : InputEvent) (htype : event.type = EV_ABS)
    (hcode : event.code = C.abs .EVENT_TYPE_LIGHT) :
    (event.value = -1 →
      absEvent C s event = s ∧
      ∀ (env : Env) (rest : List InputEvent) (count : Int), count ≠ 0 →
        eventLoop C env (event :: rest) s count = eventLoop C env rest s count) ∧
    (0 ≤ event.value → event.value < 2147483648 →
      absEvent C s event =
        (s.pend (C.slot .CW_LIGHT)).setData (C.slot .CW_LIGHT) 0
          (indexToValue event.value.toNat) ∧
      ((absEvent C s event).mPendingEvents (C.slot .CW_LIGHT)).data 0 =
        indexToValue event.value.toNat ∧
      hasBit (absEvent C s event).mPendingMask (C.slot .CW_LIGHT) = true) := by
  constructor
  · intro hv
    have habs : absEvent C s event = s := by simp [absEvent, hcode, hv]
    refine ⟨habs, ?_⟩
    intro env rest count hc
    simp only [eventLoop, hc, htype, if_false, if_true, habs]
  · intro h0 hv
    have hne : event.value ≠ -1 := by omega
    have habs : absEvent C s event =
        (s.pend (C.slot .CW_LIGHT)).setData (C.slot .CW_LIGHT) 0
          (indexToValue event.value.toNat) := by
      simp [absEvent, hcode, hne, intToIndex_of_nonneg C.sizeBits event.value hsize h0 hv]
    refine ⟨habs, ?_, ?_⟩
    · rw [habs]; simp [Hub.setData, Hub.pend]
    · rw [habs]; simp [Hub.setData, Hub.pend, hasBit_setBit]

/-- C16 (witness): on the example layout, a light event with the value -1 leaves
the idle state as it is, and one with the value 4 stores 160 in the light slot
and sets its pending bit. -/
theorem light_event_sentinel_witness :
    absEvent exampleConsts idleHub (absAt (exampleConsts.abs .EVENT_TYPE_LIGHT) (-1)) = idleHub ∧
    ((absEvent exampleConsts idleHub
      (absAt (exampleConsts.abs .EVENT_TYPE_LIGHT) 4)).mPendingEvents 3).data 0 = FVal.ofInt 160 ∧
    hasBit (absEvent exampleConsts idleHub
      (absAt (exampleConsts.abs .EVENT_TYPE_LIGHT) 4)).mPendingMask 3 = true :=
  ⟨((light_event_sentinel exampleConsts (by decide) idleHub
      (absAt (exampleConsts.abs .EVENT_TYPE_LIGHT) (-1)) rfl rfl).1 rfl).1,
    ((light_event_sentinel exampleConsts (by decide) idleHub
      (absAt (exampleConsts.abs .EVENT_TYPE_LIGHT) 4) rfl rfl).2 (by decide) (by decide)).2.1,
    ((light_event_sentinel exampleConsts (by decide) idleHub
      (absAt (exampleConsts.abs .EVENT_TYPE_LIGHT) 4) rfl rfl).2 (by decide) (by decide)).2.2⟩

/-! ## The scalar component of a rotation vector -/

/-- The value of the derived scalar component in exact arithmetic. -/
theorem eval_rv4 {K : Type} [LinearOrderedField K] (sqrt : K → K)
    (hsqrt : ∀ a : K, 0 ≤ a → 0 ≤ sqrt a ∧ sqrt a * sqrt a = a) (cv : Conv → K)
    (q1 q2 q3 : FVal) :
    0 ≤ (FVal.rv4 q1 q2 q3).eval sqrt cv ∧
    (FVal.rv4 q1 q2 q3).eval sqrt cv * (FVal.rv4 q1 q2 q3).eval sqrt cv =
      max 0 (1 - q1.eval sqrt cv * q1.eval sqrt cv - q2.eval sqrt cv * q2.eval sqrt cv -
        q3.eval sqrt cv * q3.eval sqrt cv) ∧
    (q1.eval sqrt cv * q1.eval sqrt cv + q2.eval sqrt cv * q2.eval sqrt cv +
        q3.eval sqrt cv * q3.eval sqrt cv ≤ 1 →
      (FVal.rv4 q1 q2 q3).eval sqrt cv =
        sqrt (1 - q1.eval sqrt cv * q1.eval sqrt cv - q2.eval sqrt cv * q2.eval sqrt cv -
          q3.eval sqrt cv * q3.eval sqrt cv)) ∧
    (1 < q1.eval sqrt cv * q1.eval sqrt cv + q2.eval sqrt cv * q2.eval sqrt cv +
        q3.eval sqrt cv * q3.eval sqrt cv →
      (FVal.rv4 q1 q2 q3).eval sqrt cv = 0) := by
  simp only [FVal.eval]
  generalize q1.eval sqrt cv = x
  generalize q2.eval sqrt cv = y
  generalize q3.eval sqrt cv = z
  by_cases hq : 1 - x * x - y * y - z * z > 0
  · have hs := hsqrt (1 - x * x - y * y - z * z) (le_of_lt hq)
    simp only [hq, if_true]
    refine ⟨hs.1, ?_, fun _ => trivial, ?_⟩
    · rw [hs.2, max_eq_right (le_of_lt hq)]
    · intro h
      linarith
  · simp only [hq, if_false]
    have hle : 1 - x * x - y * y - z * z ≤ 0 := not_lt.mp hq
    refine ⟨le_refl 0, ?_, ?_, fun _ => trivial⟩
    · rw [max_eq_left hle, mul_zero]
    · intro h
      have h0 : 1 - x * x - y * y - z * z = 0 := le_antisymm hle (by linarith)
      have hs := hsqrt 0 (le_refl 0)
      rw [h0]
      exact (mul_self_eq_zero.mp hs.2).symm

/-- C17: the scalar component of a rotation vector, in exact arithmetic (any
ordered field `K` with a square root, the reals among them). For every record
that the scan of a sync marker emits: if its slot is one of the three
rotation-vector slots and held the components `(x, y, z)` before the scan, the
record carries them unchanged and its 4th component `w` satisfies `w ≥ 0` and
`w * w = max 0 (1 - x*x - y*y - z*z)`, with `w = sqrt (1 - x*x - y*y - z*z)` when
`x*x + y*y + z*z ≤ 1` and `w = 0` when it exceeds 1; for every other slot the 4th
data element is the one the slot held. -/
theorem rotation_vector_scalar {K : Type} [LinearOrderedField K] (sqrt : K → K)
    (hsqrt : ∀ a : K, 0 ≤ a → 0 ≤ sqrt a ∧ sqrt a * sqrt a = a) (cv : Conv → K)
    (C : Consts) (env : Env) (time : Int) (s : Hub) (count : Int) (e : Emitted)
    (he : e ∈ (syncStep C env time s count).2.2) :
    (isRotationSlot C e.slot →
      e.event.data 0 = (s.mPendingEvents e.slot).data 0 ∧
      e.event.data 1 = (s.mPendingEvents e.slot).data 1 ∧
      e.event.data 2 = (s.mPendingEvents e.slot).data 2 ∧
      0 ≤ (e.event.data 3).eval sqrt cv ∧
      (e.event.data 3).eval sqrt cv * (e.event.data 3).eval sqrt cv =
        max 0 (1 -
          ((s.mPendingEvents e.slot).data 0).eval sqrt cv *
            ((s.mPendingEvents e.slot).data 0).eval sqrt cv -
          ((s.mPendingEvents e.slot).data 1).eval sqrt cv *
            ((s.mPendingEvents e.slot).data 1).eval sqrt cv -
          ((s.mPendingEvents e.slot).data 2).eval sqrt cv *
            ((s.mPendingEvents e.slot).data 2).eval sqrt cv) ∧
      (((s.mPendingEvents e.slot).data 0).eval sqrt cv *
            ((s.mPendingEvents e.slot).data 0).eval sqrt cv +
          ((s.mPendingEvents e.slot).data 1).eval sqrt cv *
            ((s.mPendingEvents e.slot).data 1).eval sqrt cv +
          ((s.mPendingEvents e.slot).data 2).eval sqrt cv *
            ((s.mPendingEvents e.slot).data 2).eval sqrt cv ≤ 1 →
        (e.event.data 3).eval sqrt cv =
          sqrt (1 -
            ((s.mPendingEvents e.slot).data 0).eval sqrt cv *
              ((s.mPendingEvents e.slot).data 0).eval sqrt cv -
            ((s.mPendingEvents e.slot).data 1).eval sqrt cv *
              ((s.mPendingEvents e.slot).data 1).eval sqrt cv -
            ((s.mPendingEvents e.slot).data 2).eval sqrt cv *
              ((s.mPendingEvents e.slot).data 2).eval sqrt cv)) ∧
      (1 < ((s.mPendingEvents e.slot).data 0).eval sqrt cv *
            ((s.mPendingEvents e.slot).data 0).eval sqrt cv +
          ((s.mPendingEvents e.slot).data 1).eval sqrt cv *
            ((s.mPendingEvents e.slot).data 1).eval sqrt cv +
          ((s.mPendingEvents e.slot).data 2).eval sqrt cv *
            ((s.mPendingEvents e.slot).data 2).eval sqrt cv →
        (e.event.data 3).eval sqrt cv = 0)) ∧
    (¬ isRotationSlot C e.slot →
      e.event.data 3 = (s.mPendingEvents e.slot).data 3 ∧
      calculate_rv_4th_element C s e.slot = s) := by
  have hev := syncLoop_mem_event C env time C.numSensors 0 s count e he
  constructor
  · intro hrot
    have hdata : e.event.data = Function.update (s.mPendingEvents e.slot).data 3
        (FVal.rv4 ((s.mPendingEvents e.slot).data 0) ((s.mPendingEvents e.slot).data 1)
          ((s.mPendingEvents e.slot).data 2)) := by
      rw [hev]
      unfold isRotationSlot at hrot
      simp [calculate_rv_4th_element, hrot, Hub.setData]
    have h := eval_rv4 sqrt hsqrt cv ((s.mPendingEvents e.slot).data 0)
      ((s.mPendingEvents e.slot).data 1) ((s.mPendingEvents e.slot).data 2)
    rw [hdata]
    simp only [Function.update_same, ne_eq, OfNat.zero_ne_ofNat, not_false_eq_true,
      Function.update_noteq, OfNat.one_ne_ofNat]
    refine ⟨trivial, trivial, ?_, h⟩
    rw [Function.update_noteq (by decide)]
  · intro hrot
    unfold isRotationSlot at hrot
    have hcalc : calculate_rv_4th_element C s e.slot = s := by
      simp [calculate_rv_4th_element, hrot]
    rw [hev, hcalc]
    exact ⟨rfl, rfl⟩

/-- C17 (witness): over the reals with `Real.sqrt`, on the example layout, a sync
marker with the accelerometer and the rotation vector pending and enabled, the
rotation vector holding (0, 0, 0), emits slots 0 and 7, and the 4th component
`w` of the rotation-vector record satisfies `w ≥ 0` and `w * w = 1`. -/
theorem rotation_vector_scalar_witness :
    (syncStep exampleConsts (okEnv 77 0) 5 rotationHub 2).2.2.map Emitted.slot = [0, 7] ∧
    0 ≤ ((((syncStep exampleConsts (okEnv 77 0) 5 rotationHub 2).2.2.map
      (fun e => e.event.data 3)).getD 1 (FVal.ofInt 0)).eval Real.sqrt (fun _ => 1)) ∧
    ((((syncStep exampleConsts (okEnv 77 0) 5 rotationHub 2).2.2.map
      (fun e => e.event.data 3)).getD 1 (FVal.ofInt 0)).eval Real.sqrt (fun _ => 1)) *
    ((((syncStep exampleConsts (okEnv 77 0) 5 rotationHub 2).2.2.map
      (fun e => e.event.data 3)).getD 1 (FVal.ofInt 0)).eval Real.sqrt (fun _ => 1)) = 1 := by
  have hlen : 1 < (syncStep exampleConsts (okEnv 77 0) 5 rotationHub 2).2.2.length := by decide
  have h := rotation_vector_scalar Real.sqrt
    (fun a ha => ⟨Real.sqrt_nonneg a, Real.mul_self_sqrt ha⟩) (fun _ => 1) exampleConsts
    (okEnv 77 0) 5 rotationHub 2
    ((syncStep exampleConsts (okEnv 77 0) 5 rotationHub 2).2.2.get ⟨1, hlen⟩)
    (List.get_mem _ _ _)
  have hrot : isRotationSlot exampleConsts
      ((syncStep exampleConsts (okEnv 77 0) 5 rotationHub 2).2.2.get ⟨1, hlen⟩).slot :=
    Or.inl rfl
  obtain ⟨_, _, _, hw0, hww, _, _⟩ := h.1 hrot
  have hd : ((syncStep exampleConsts (okEnv 77 0) 5 rotationHub 2).2.2.get ⟨1, hlen⟩).event.data 3
      = ((syncStep exampleConsts (okEnv 77 0) 5 rotationHub 2).2.2.map
          (fun e => e.event.data 3)).getD 1 (FVal.ofInt 0) := rfl
  have hx : ∀ i, (rotationHub.mPendingEvents
      ((syncStep exampleConsts (okEnv 77 0) 5 rotationHub 2).2.2.get ⟨1, hlen⟩).slot).data i
      = FVal.ofInt 0 := fun _ => rfl
  rw [hx 0, hx 1, hx 2, hd] at hww
  rw [hd] at hw0
  refine ⟨by decide, hw0, ?_⟩
  rw [hww]
  simp [FVal.eval]

/-! ## The calibration file and the teardown -/

/-- C18: a short accelerometer or gyroscope file is accepted. For every header,
every file that can be opened, whatever it holds, and every array,
`cw_read_calibrator_file` returns 0 for the types `CW_GYRO` and
`CW_ACCELERATION`: the count of integers that `fscanf` assigned is only logged
when it is not 3, where the specification has a non-zero result whenever fewer
than 3 integers are parsed. -/
theorem cw_read_calibrator_file_accepts_short (C : Consts) (type : Nat) (content : List Nat)
    (str : Nat → Int) (htype : type = C.slot .CW_GYRO ∨ type = C.slot .CW_ACCELERATION) :
    (cw_read_calibrator_file C type (some content) str).1 = 0 := by
  unfold cw_read_calibrator_file
  simp [htype]

/-- C18 (witness): on the example layout, the file `1 2` gives `fscanf` 2
integers and the accelerometer read returns 0 all the same; for the compass the
file `1 2 x`, whose third token is not a number, is accepted with 0 as well
after 2 integers, while the file `1 2`, which merely ends early, is rejected
with -1. -/
theorem cw_read_calibrator_file_accepts_short_witness :
    (fscanf3 shortFile (fun _ => 0)).1 = 2 ∧
    (cw_read_calibrator_file exampleConsts (exampleConsts.slot .CW_ACCELERATION)
      (some shortFile) (fun _ => 0)).1 = 0 ∧
    (cw_read_calibrator_file exampleConsts (exampleConsts.slot .CW_MAGNETIC)
      (some malformedFile) (fun _ => 0)).1 = 0 ∧
    (cw_read_calibrator_file exampleConsts (exampleConsts.slot .CW_MAGNETIC)
      (some shortFile) (fun _ => 0)).1 = -1 :=
  ⟨by decide,
    cw_read_calibrator_file_accepts_short exampleConsts (exampleConsts.slot .CW_ACCELERATION)
      shortFile (fun _ => 0) (Or.inr rfl),
    by decide, by decide⟩

/-- C19: the destructor disables one handle only. For every header with at most
32 slots, every state and every slot index `i` below 32 other than the one that
`find_sensor` gives for the handle 0: the enabled bit of `i` after the
destructor is the one before it, so a slot that was enabled stays enabled,
where the specification has every enabled slot disabled and the mask zero. -/
theorem destroy_keeps_other_slots (C : Consts) (hle : C.numSensors ≤ 32) (env : Env) (s : Hub)
    (i : Nat) (hi : i < 32) (hne : find_sensor C 0 ≠ (i : Int)) :
    hasBit (destroy C env s).mEnabled i = hasBit s.mEnabled i := by
  unfold destroy
  split_ifs with h0
  · rw [setEnable_mEnabled]
    simp only [ne_eq, not_true_eq_false, if_false, Nat.zero_shiftLeft, Nat.or_zero]
    split_ifs with h1 h2
    · rfl
    · have hw : (find_sensor C 0).toNat ≠ i := by
        rcases find_sensor_eq C 0 with h | ⟨k, h⟩
        · rw [h] at h1
          unfold toUInt32 at h1
          omega
        · rw [h] at hne ⊢
          rw [Int.toNat_ofNat]
          intro hk
          exact hne (by rw [hk])
      exact hasBit_clearBit_of_ne hi hw
    · rfl
  · rfl

/-- C19 (witness): on the example layout, with only the light slot (slot 3)
enabled and a working control channel, the destructor issues the one request
`0 0` (for the accelerometer) and leaves the light slot enabled: the mask is 8,
not 0. -/
theorem destroy_keeps_other_slots_witness :
    lightOnHub.mEnabled = 8 ∧
    hasBit (destroy exampleConsts (okEnv 0 0) lightOnHub).mEnabled 3 = true ∧
    (destroy exampleConsts (okEnv 0 0) lightOnHub).mEnabled = 8 ∧
    (destroy exampleConsts (okEnv 0 0) lightOnHub).ctrlLog =
      lightOnHub.ctrlLog ++ [CtrlOp.enable 0 0 true] :=
  ⟨by decide,
    (destroy_keeps_other_slots exampleConsts (by decide) (okEnv 0 0) lightOnHub 3 (by decide)
      (by decide)).trans (by decide),
    by decide, by decide⟩

/-! ## The frame of `processEvent` -/

/-- With distinct absolute codes, each code of the table of `processEvent` runs
its own case: for the two accuracy codes it stores the status of the slot that
owns the code, for every other code it stores the element that the code
designates in the float array of that slot, with the raw value converted for the
slot (the raw value itself for the two step codes). -/
theorem processEvent_table {C : Consts} (hA : C.AbsDistinct) (s : Hub) (c : AbsCode)
    (hc : c ≠ .EVENT_TYPE_LIGHT) (v : Int) :
    processEvent C s (C.abs c) v =
      (if c = .ABS_MAG_ACCURACY ∨ c = .ABS_ORI_ACCURACY then s.accuracy (C.slot c.owner) v
       else s.axis (C.slot c.owner) c.element (c.owner.scaled v)) := by
  cases c <;>
    first
    | exact absurd rfl hc
    | simp only [processEvent, hA.eq_iff, reduceCtorEq, if_false, if_true, AbsCode.owner,
        AbsCode.element, Slot.scaled, or_self, or_true, true_or, or_false, false_or]

theorem axis_frame (s : Hub) (j i : Nat) (val : FVal) :
    (s.axis j i val).mPendingMask = setBit s.mPendingMask j ∧
    (s.axis j i val).mPendingEvents = Function.update s.mPendingEvents j
      { s.mPendingEvents j with data := Function.update (s.mPendingEvents j).data i val } ∧
    (s.axis j i val).mEnabled = s.mEnabled ∧
    (s.axis j i val).mHasPendingEventPressure = s.mHasPendingEventPressure ∧
    (s.axis j i val).mHasPendingEventActivity = s.mHasPendingEventActivity ∧
    (s.axis j i val).mHasPendingEventLight = s.mHasPendingEventLight ∧
    (s.axis j i val).mHasPendingEventMagnetic = s.mHasPendingEventMagnetic ∧
    (s.axis j i val).mHasPendingEventOrientation = s.mHasPendingEventOrientation ∧
    (s.axis j i val).mInputReader = s.mInputReader ∧
    (s.axis j i val).dataFd = s.dataFd ∧
    (s.axis j i val).nOpen = s.nOpen ∧
    (s.axis j i val).ctrlLog = s.ctrlLog := by
  simp [Hub.axis, Hub.pend, Hub.setData]

theorem accuracy_frame (s : Hub) (j : Nat) (v : Int) :
    (s.accuracy j v).mPendingMask = setBit s.mPendingMask j ∧
    (s.accuracy j v).mPendingEvents = Function.update s.mPendingEvents j
      { s.mPendingEvents j with status := floatToInt8 v } ∧
    (s.accuracy j v).mEnabled = s.mEnabled ∧
    (s.accuracy j v).mHasPendingEventPressure = s.mHasPendingEventPressure ∧
    (s.accuracy j v).mHasPendingEventActivity = s.mHasPendingEventActivity ∧
    (s.accuracy j v).mHasPendingEventLight = s.mHasPendingEventLight ∧
    (s.accuracy j v).mHasPendingEventMagnetic = s.mHasPendingEventMagnetic ∧
    (s.accuracy j v).mHasPendingEventOrientation = s.mHasPendingEventOrientation ∧
    (s.accuracy j v).mInputReader = s.mInputReader ∧
    (s.accuracy j v).dataFd = s.dataFd ∧
    (s.accuracy j v).nOpen = s.nOpen ∧
    (s.accuracy j v).ctrlLog = s.ctrlLog := by
  simp [Hub.accuracy, Hub.pend, Hub.setStatus]

/-- C20 (counterexample): on the example layout, `processEvent(ABS_STEP_COUNTER, 7)`
stores the raw value 7 in element 0 of the step-counter slot (slot 22): the
element is not the value scaled by a conversion constant. -/
theorem processEvent_step_counter_counterexample :
    ((processEvent exampleConsts idleHub (exampleConsts.abs .ABS_STEP_COUNTER) 7).mPendingEvents
      (exampleConsts.slot .CW_STEP_COUNTER)).data 0 = FVal.ofInt 7 ∧
    isScaledBy 7 (((processEvent exampleConsts idleHub
      (exampleConsts.abs .ABS_STEP_COUNTER) 7).mPendingEvents
        (exampleConsts.slot .CW_STEP_COUNTER)).data 0) = false := by
  decide

/-- C20 (amended): the frame of the demultiplexer. For every header with
distinct absolute codes, every state, every code `c` of the table of
`processEvent` and every raw value `v`, `processEvent(c, v)` sets the pending
bit of the slot that owns `c` and no other pending bit, changes one field of
the record of that slot (for the two accuracy codes the status, which takes the
value narrowed to the signed byte, the float array untouched; for every other
code the element of the float array that the code designates, which takes the
raw value converted for the slot: unscaled for the two step codes, multiplied or
divided by the conversion constant of the slot for every other code), and
leaves every other slot record, the enabled mask, the synthetic flags and the
event queues unchanged. -/
theorem processEvent_frame {C : Consts} (hA : C.AbsDistinct) (s : Hub) (c : AbsCode)
    (hc : c ≠ .EVENT_TYPE_LIGHT) (v : Int) :
    (∀ i, hasBit (processEvent C s (C.abs c) v).mPendingMask i =
      (hasBit s.mPendingMask i || decide (C.slot c.owner = i))) ∧
    (∀ k, k ≠ C.slot c.owner →
      (processEvent C s (C.abs c) v).mPendingEvents k = s.mPendingEvents k) ∧
    (processEvent C s (C.abs c) v).mPendingEvents (C.slot c.owner) =
      (if c = .ABS_MAG_ACCURACY ∨ c = .ABS_ORI_ACCURACY then
        { s.mPendingEvents (C.slot c.owner) with status := floatToInt8 v }
      else
        { s.mPendingEvents (C.slot c.owner) with
          data := Function.update (s.mPendingEvents (C.slot c.owner)).data c.element
            (c.owner.scaled v) }) ∧
    (if c = .ABS_STEP_DETECTOR ∨ c = .ABS_STEP_COUNTER then c.owner.scaled v = FVal.ofInt v
      else isScaledBy v (c.owner.scaled v) = true) ∧
    (processEvent C s (C.abs c) v).mEnabled = s.mEnabled ∧
    (processEvent C s (C.abs c) v).mHasPendingEventPressure = s.mHasPendingEventPressure ∧
    (processEvent C s (C.abs c) v).mHasPendingEventActivity = s.mHasPendingEventActivity ∧
    (processEvent C s (C.abs c) v).mHasPendingEventLight = s.mHasPendingEventLight ∧
    (processEvent C s (C.abs c) v).mHasPendingEventMagnetic = s.mHasPendingEventMagnetic ∧
    (processEvent C s (C.abs c) v).mHasPendingEventOrientation =
      s.mHasPendingEventOrientation ∧
    (processEvent C s (C.abs c) v).mInputReader = s.mInputReader ∧
    (processEvent C s (C.abs c) v).dataFd = s.dataFd := by
  have hscale : (if c = .ABS_STEP_DETECTOR ∨ c = .ABS_STEP_COUNTER then
      c.owner.scaled v = FVal.ofInt v else isScaledBy v (c.owner.scaled v) = true) := by
    cases c <;> first
      | exact absurd rfl hc
      | simp [AbsCode.owner, Slot.scaled, isScaledBy]
  rw [processEvent_table hA s c hc v]
  by_cases hacc : c = .ABS_MAG_ACCURACY ∨ c = .ABS_ORI_ACCURACY
  · obtain ⟨h1, h2, h3, h4, h5, h6, h7, h8, h9, h10, _, _⟩ :=
      accuracy_frame s (C.slot c.owner) v
    simp only [hacc, if_true]
    exact ⟨fun i => by rw [h1, hasBit_setBit],
      fun k hk => by rw [h2, Function.update_noteq hk],
      by rw [h2, Function.update_same], hscale, h3, h4, h5, h6, h7, h8, h9, h10⟩
  · obtain ⟨h1, h2, h3, h4, h5, h6, h7, h8, h9, h10, _, _⟩ :=
      axis_frame s (C.slot c.owner) c.element (c.owner.scaled v)
    simp only [hacc, if_false]
    exact ⟨fun i => by rw [h1, hasBit_setBit],
      fun k hk => by rw [h2, Function.update_noteq hk],
      by rw [h2, Function.update_same], hscale, h3, h4, h5, h6, h7, h8, h9, h10⟩

/-- C20 (witness): on the example layout, `processEvent(ABS_GYRO_Y, 5)` in the
idle state sets the pending bit of the gyroscope (slot 2) alone, stores
`5 * CONVERT_GYRO` in element 1 of its record and leaves the enabled mask 0. -/
theorem processEvent_frame_witness :
    (processEvent exampleConsts idleHub (exampleConsts.abs .ABS_GYRO_Y) 5).mPendingMask = 4 ∧
    ((processEvent exampleConsts idleHub (exampleConsts.abs .ABS_GYRO_Y) 5).mPendingEvents
      2).data 1 = (FVal.ofInt 5).mul (FVal.conv .CONVERT_GYRO) ∧
    (processEvent exampleConsts idleHub (exampleConsts.abs .ABS_GYRO_Y) 5).mPendingEvents 3 =
      idleHub.mPendingEvents 3 ∧
    (processEvent exampleConsts idleHub (exampleConsts.abs .ABS_GYRO_Y) 5).mEnabled = 0 :=
  ⟨by decide, by decide,
    (processEvent_frame exampleConsts_absDistinct idleHub .ABS_GYRO_Y (by decide) 5).2.1 3
      (by decide),
    (processEvent_frame exampleConsts_absDistinct idleHub .ABS_GYRO_Y (by decide) 5).2.2.2.2.1⟩

/-! ## Events with a code outside the tables -/

/-- A code outside the table of `processEvent` runs no case of its `switch`. -/
theorem processEvent_unknown (C : Consts) (s : Hub) (code : Nat) (value : Int)
    (h : ∀ c, c ≠ AbsCode.EVENT_TYPE_LIGHT → code ≠ C.abs c) :
    processEvent C s code value = s := by
  have step : ∀ (c : Prop) [Decidable c] (a b : Hub), ¬ c → b = s →
      (if c then a else b) = s := by
    intro c _ a b hc hb
    rw [if_neg hc, hb]
  unfold processEvent
  repeat (refine step _ _ _ (h _ (by decide)) ?_)
  rfl

/-- An absolute event with a code that is neither the light code nor in the table
of `processEvent` changes nothing. -/
theorem absEvent_unknown (C : Consts) (s : Hub) (event : InputEvent)
    (h : ∀ c, event.code ≠ C.abs c) : absEvent C s event = s := by
  unfold absEvent
  rw [if_neg (h _)]
  exact processEvent_unknown C s _ _ (fun c _ => h c)

theorem processEvent_withBatch (C : Consts) (s : Hub) (held waiting : List InputEvent)
    (code : Nat) (value : Int) :
    processEvent C (s.withBatch held waiting) code value =
      (processEvent C s code value).withBatch held waiting := by
  have step : ∀ (c : Prop) [Decidable c] (a b a1 b1 : Hub), a1 = a.withBatch held waiting →
      b1 = b.withBatch held waiting →
      (if c then a1 else b1) = (if c then a else b).withBatch held waiting := by
    intro c _ a b a1 b1 ha hb
    split_ifs
    · exact ha
    · exact hb
  unfold processEvent
  repeat (refine step _ _ _ _ _ rfl ?_)
  rfl

theorem absEvent_withBatch (C : Consts) (s : Hub) (held waiting : List InputEvent)
    (event : InputEvent) :
    absEvent C (s.withBatch held waiting) event =
      (absEvent C s event).withBatch held waiting := by
  unfold absEvent
  split_ifs
  · rfl
  · rfl
  · exact processEvent_withBatch C s held waiting _ _

theorem relEvent_withBatch (C : Consts) (s : Hub) (held waiting : List InputEvent)
    (event : InputEvent) :
    relEvent C (s.withBatch held waiting) event =
      (relEvent C s event).withBatch held waiting := by
  unfold relEvent
  split_ifs <;> rfl

theorem setEnable_zero_withBatch (C : Consts) (env : Env) (s : Hub)
    (held waiting : List InputEvent) (handle : Int) :
    (setEnable C env (s.withBatch held waiting) handle 0).2 =
      (setEnable C env s handle 0).2.withBatch held waiting := by
  unfold setEnable
  simp only [ne_eq, not_true_eq_false, and_false, if_false, Hub.withBatch]
  split_ifs <;> (try split) <;> rfl

theorem syncVisit_withBatch (C : Consts) (env : Env) (time : Int) (s : Hub)
    (held waiting : List InputEvent) (j : Nat) :
    syncVisit C env time (s.withBatch held waiting) j =
      (syncVisit C env time s j).withBatch held waiting := by
  unfold syncVisit
  split_ifs
  · have h := setEnable_zero_withBatch C env
      { s with mPendingMask := clearBit s.mPendingMask j } held waiting
      (C.handle .ID_CW_SIGNIFICANT_MOTION)
    have h2 : ({ s.withBatch held waiting with
        mPendingMask := clearBit (s.withBatch held waiting).mPendingMask j } : Hub) =
        ({ s with mPendingMask := clearBit s.mPendingMask j } : Hub).withBatch held waiting :=
      rfl
    simp only [h2, h]
    rfl
  · rfl

theorem calculate_rv_4th_element_withBatch (C : Consts) (s : Hub)
    (held waiting : List InputEvent) (j : Nat) :
    calculate_rv_4th_element C (s.withBatch held waiting) j =
      (calculate_rv_4th_element C s j).withBatch held waiting := by
  unfold calculate_rv_4th_element
  split_ifs <;> rfl

/-- The scan on a sync marker neither reads nor writes what the reader holds and
what waits in the event device. -/
theorem syncLoop_withBatch (C : Consts) (env : Env) (time : Int) (n j : Nat) (s : Hub)
    (held waiting : List InputEvent) (count : Int) :
    syncLoop C env time n j (s.withBatch held waiting) count =
      ((syncLoop C env time n j s count).1.withBatch held waiting,
        (syncLoop C env time n j s count).2.1, (syncLoop C env time n j s count).2.2) := by
  induction n generalizing j s count with
  | zero => rfl
  | succ n ih =>
    have hm : (s.withBatch held waiting).mPendingMask = s.mPendingMask := rfl
    simp only [syncLoop, hm, syncVisit_withBatch, calculate_rv_4th_element_withBatch]
    have he : ∀ t : Hub, (t.withBatch held waiting).mEnabled = t.mEnabled := fun _ => rfl
    have hr : ∀ t : Hub, (t.withBatch held waiting).mPendingEvents = t.mPendingEvents :=
      fun _ => rfl
    simp only [he, hr]
    split_ifs
    · rw [ih]
    · rw [ih]
    · rw [ih]
    · rfl

/-- The loop over the events sets what the reader holds from its own list, and
carries what waits in the event device along. -/
theorem eventLoop_withBatch (C : Consts) (env : Env) (l : List InputEvent) (s : Hub)
    (held waiting : List InputEvent) (count : Int) :
    eventLoop C env l (s.withBatch held waiting) count =
      ((eventLoop C env l s count).1.withBatch (eventLoop C env l s count).1.mInputReader
          waiting,
        (eventLoop C env l s count).2) := by
  induction l generalizing s count with
  | nil => rfl
  | cons event rest ih =>
    simp only [eventLoop, absEvent_withBatch, relEvent_withBatch, syncStep, syncLoop_withBatch,
      ih]
    split_ifs <;> rfl

/-- The loop over the events leaves alone what waits in the event device. -/
theorem eventLoop_dataFd (C : Consts) (env : Env) (l : List InputEvent) (s : Hub)
    (count : Int) : (eventLoop C env l s count).1.dataFd = s.dataFd := by
  have h := eventLoop_withBatch C env l s s.mInputReader s.dataFd count
  have hs : s.withBatch s.mInputReader s.dataFd = s := rfl
  rw [hs] at h
  have h2 := congrArg (fun r => r.1.dataFd) h
  exact h2

/-- With no capacity the loop over the events hands nothing out. -/
theorem eventLoop_zero (C : Consts) (env : Env) (l : List InputEvent) (s : Hub) :
    eventLoop C env l s 0 = (s.withBatch l s.dataFd, []) := by
  cases l <;> simp [eventLoop, Hub.withBatch]

/-- Removing absolute events with unknown codes from the list the loop runs over
changes neither the records copied out nor the state, but for the events left in
the reader, which are the same with the unknown ones removed. -/
theorem eventLoop_filter (C : Consts) (env : Env) (drop : InputEvent → Bool)
    (hdrop : ∀ e, drop e = true → e.type = EV_ABS ∧ ∀ c, e.code ≠ C.abs c)
    (l : List InputEvent) (s : Hub) (count : Int) :
    eventLoop C env (l.filter (fun e => !drop e)) s count =
      ((eventLoop C env l s count).1.withBatch
          ((eventLoop C env l s count).1.mInputReader.filter (fun e => !drop e))
          (eventLoop C env l s count).1.dataFd,
        (eventLoop C env l s count).2) := by
  induction l generalizing s count with
  | nil => rfl
  | cons event rest ih =>
    by_cases hcount : count = 0
    · subst hcount
      rw [eventLoop_zero, eventLoop_zero]
      rfl
    · cases hd : drop event
      · rw [List.filter_cons_of_pos (by simp [hd])]
        simp only [eventLoop, hcount, if_false]
        split_ifs
        · exact ih _ _
        · exact ih _ _
        · simp only [ih]
        · exact ih _ _
      · rw [List.filter_cons_of_neg (by simp [hd])]
        obtain ⟨htype, hcode⟩ := hdrop event hd
        simp only [eventLoop, hcount, if_false, htype, if_true]
        rw [absEvent_unknown C s event hcode]
        exact ih _ _

/-- The loop of `readEvents` after a fill that has moved every waiting event into
the reader, with the selected events removed from the batch. -/
theorem readEvents_filter_loop (C : Consts) (env : Env) (drop : InputEvent → Bool)
    (hdrop : ∀ e, drop e = true → e.type = EV_ABS ∧ ∀ c, e.code ≠ C.abs c)
    (s : Hub) (count : Int) :
    eventLoop C env ((s.withoutEvents drop).mInputReader ++ (s.withoutEvents drop).dataFd)
        { s.withoutEvents drop with
          mInputReader := (s.withoutEvents drop).mInputReader ++ (s.withoutEvents drop).dataFd
          dataFd := [] } count =
      ((eventLoop C env (s.mInputReader ++ s.dataFd)
          { s with mInputReader := s.mInputReader ++ s.dataFd, dataFd := [] }
          count).1.withoutEvents drop,
        (eventLoop C env (s.mInputReader ++ s.dataFd)
          { s with mInputReader := s.mInputReader ++ s.dataFd, dataFd := [] } count).2) := by
  have hheld : (s.withoutEvents drop).mInputReader ++ (s.withoutEvents drop).dataFd =
      (s.mInputReader ++ s.dataFd).filter (fun e => !drop e) := by
    simp [Hub.withoutEvents, List.filter_append]
  have hstate : ({ s.withoutEvents drop with
      mInputReader := (s.withoutEvents drop).mInputReader ++ (s.withoutEvents drop).dataFd
      dataFd := [] } : Hub) =
      ({ s with mInputReader := s.mInputReader ++ s.dataFd, dataFd := [] } : Hub).withBatch
        ((s.withoutEvents drop).mInputReader ++ (s.withoutEvents drop).dataFd) [] := rfl
  rw [hstate, eventLoop_withBatch, hheld, eventLoop_filter C env drop hdrop]
  have hd := eventLoop_dataFd C env (s.mInputReader ++ s.dataFd)
    { s with mInputReader := s.mInputReader ++ s.dataFd, dataFd := [] } count
  simp only [Hub.withBatch, Hub.withoutEvents, hd, List.filter_nil]

/-- The loop of `readEvents` over the events the reader holds, with the selected
events removed from the batch. -/
theorem readEvents_filter_held (C : Consts) (env : Env) (drop : InputEvent → Bool)
    (hdrop : ∀ e, drop e = true → e.type = EV_ABS ∧ ∀ c, e.code ≠ C.abs c)
    (s : Hub) (count : Int) :
    eventLoop C env (s.withoutEvents drop).mInputReader (s.withoutEvents drop) count =
      ((eventLoop C env s.mInputReader s count).1.withoutEvents drop,
        (eventLoop C env s.mInputReader s count).2) := by
  have hr : (s.withoutEvents drop).mInputReader = s.mInputReader.filter (fun e => !drop e) :=
    rfl
  have hs : s.withoutEvents drop = s.withBatch (s.mInputReader.filter (fun e => !drop e))
      (s.dataFd.filter (fun e => !drop e)) := rfl
  rw [hr, hs, eventLoop_withBatch, eventLoop_filter C env drop hdrop]
  have hd := eventLoop_dataFd C env s.mInputReader s count
  simp only [Hub.withBatch, Hub.withoutEvents, hd]

theorem fill_of_error (env : Env) (s : Hub) (err : Int) (h : env.fillError = some err) :
    fill env s = (err, s) := by
  unfold fill
  simp only [h]

theorem fill_nonneg (env : Env) (s : Hub) (h : env.fillError = none) :
    ¬ (fill env s).1 < 0 := by
  unfold fill
  simp only [h]
  omega

/-- C21 (counterexample): on the example layout, with the accelerometer and the
magnetometer enabled and eight events waiting, four of them of the unknown code
999, `readEvents` with capacity 4 handles the four events the reader has room
for and writes one record (slot 0); over the batch with the unknown events
removed, which is four events long, it writes two records (slots 0 and 1). -/
theorem unknown_codes_dropped_counterexample :
    noisyHub.dataFd.length = 8 ∧
    (noisyHub.withoutEvents isUnknownEvent).dataFd =
      [absAt (exampleConsts.abs .ABS_ACC_X) 7, syncAt 9,
        absAt (exampleConsts.abs .ABS_MAG_X) 8, syncAt 10] ∧
    (readEvents exampleConsts (okEnv 77 0) noisyHub 4).ret = 1 ∧
    (readEvents exampleConsts (okEnv 77 0) noisyHub 4).written.map Emitted.slot = [0] ∧
    (readEvents exampleConsts (okEnv 77 0) (noisyHub.withoutEvents isUnknownEvent) 4).ret = 2 ∧
    (readEvents exampleConsts (okEnv 77 0)
      (noisyHub.withoutEvents isUnknownEvent) 4).written.map Emitted.slot = [0, 1] := by
  decide

/-- C21 (amended): unknown codes are dropped without disturbing the batch. For
every header, state, code and value: when the code is outside the table of
`processEvent`, `processEvent` returns the state as it was (pending mask, enabled
mask, records, flags and all); when the code is also not the light code, so does
the `EV_ABS` branch of `readEvents`. For every selection `drop` of absolute
events with such codes: the loop of `readEvents` over a list of events copies
out the same records and ends in the same state as over the list with the
selected events removed (the events left unread being those of the whole list
with the selected ones removed); and when the batch (the events the reader holds
and those waiting in the event device) fits the reader, `readEvents` over the
batch with the selected events removed returns the same value, writes the same
records and ends in the same state as over the whole batch. -/
theorem unknown_codes_dropped (C : Consts) (env : Env) (drop : InputEvent → Bool)
    (hdrop : ∀ e, drop e = true → e.type = EV_ABS ∧ ∀ c, e.code ≠ C.abs c)
    (s : Hub) (count : Int) :
    (∀ code value, (∀ c, c ≠ AbsCode.EVENT_TYPE_LIGHT → code ≠ C.abs c) →
      processEvent C s code value = s) ∧
    (∀ e, drop e = true → absEvent C s e = s) ∧
    (∀ l : List InputEvent,
      (eventLoop C env (l.filter (fun e => !drop e)) s count).2 =
        (eventLoop C env l s count).2 ∧
      (eventLoop C env (l.filter (fun e => !drop e)) s count).1 =
        (eventLoop C env l s count).1.withBatch
          ((eventLoop C env l s count).1.mInputReader.filter (fun e => !drop e))
          (eventLoop C env l s count).1.dataFd) ∧
    (s.mInputReader.length + s.dataFd.length ≤ READER_CAPACITY →
      (readEvents C env (s.withoutEvents drop) count).ret = (readEvents C env s count).ret ∧
      (readEvents C env (s.withoutEvents drop) count).written =
        (readEvents C env s count).written ∧
      (readEvents C env (s.withoutEvents drop) count).hub =
        (readEvents C env s count).hub.withoutEvents drop) := by
  refine ⟨fun code value h => processEvent_unknown C s code value h,
    fun e he => absEvent_unknown C s e (hdrop e he).2,
    fun l => by rw [eventLoop_filter C env drop hdrop l s count]; exact ⟨rfl, rfl⟩, ?_⟩
  intro hfit
  have hfit2 : (s.withoutEvents drop).mInputReader.length +
      (s.withoutEvents drop).dataFd.length ≤ READER_CAPACITY := by
    have h1 := List.length_filter_le (fun e => !drop e) s.mInputReader
    have h2 := List.length_filter_le (fun e => !drop e) s.dataFd
    show (s.mInputReader.filter (fun e => !drop e)).length +
      (s.dataFd.filter (fun e => !drop e)).length ≤ READER_CAPACITY
    omega
  have hflags : (s.withoutEvents drop).mHasPendingEventPressure = s.mHasPendingEventPressure ∧
      (s.withoutEvents drop).mHasPendingEventLight = s.mHasPendingEventLight ∧
      (s.withoutEvents drop).mHasPendingEventMagnetic = s.mHasPendingEventMagnetic ∧
      (s.withoutEvents drop).mHasPendingEventOrientation = s.mHasPendingEventOrientation :=
    ⟨rfl, rfl, rfl, rfl⟩
  have hloop := readEvents_filter_loop C env drop hdrop s count
  unfold readEvents
  rw [hflags.1, hflags.2.1, hflags.2.2.1, hflags.2.2.2]
  by_cases hc : count < 1
  · rw [if_pos hc, if_pos hc]
    exact ⟨rfl, rfl, rfl⟩
  rw [if_neg hc, if_neg hc]
  by_cases hP : s.mHasPendingEventPressure = true
  · rw [if_pos hP, if_pos hP]; exact ⟨rfl, rfl, rfl⟩
  rw [if_neg hP, if_neg hP]
  by_cases hL : s.mHasPendingEventLight = true
  · rw [if_pos hL, if_pos hL]; exact ⟨rfl, rfl, rfl⟩
  rw [if_neg hL, if_neg hL]
  by_cases hM : s.mHasPendingEventMagnetic = true
  · rw [if_pos hM, if_pos hM]; exact ⟨rfl, rfl, rfl⟩
  rw [if_neg hM, if_neg hM]
  by_cases hO : s.mHasPendingEventOrientation = true
  · rw [if_pos hO, if_pos hO]; exact ⟨rfl, rfl, rfl⟩
  rw [if_neg hO, if_neg hO]
  simp only []
  cases hfe : env.fillError with
  | some err =>
    rw [fill_of_error env s err hfe, fill_of_error env (s.withoutEvents drop) err hfe]
    simp only []
    by_cases herr : err < 0
    · rw [if_pos herr, if_pos herr]; exact ⟨rfl, rfl, rfl⟩
    · rw [if_neg herr, if_neg herr, readEvents_filter_held C env drop hdrop]
      exact ⟨rfl, rfl, rfl⟩
  | none =>
    rw [if_neg (fill_nonneg env s hfe), if_neg (fill_nonneg env _ hfe),
      fill_of_fit env s hfe hfit, fill_of_fit env _ hfe hfit2]
    simp only []
    rw [hloop]
    exact ⟨rfl, rfl, rfl⟩

/-- C21 (witness): on the example layout, with the accelerometer and the
magnetometer enabled and a batch of four events in which two events of the
unknown code 999 stand before an accelerometer sample and a sync marker,
`readEvents` with capacity 4 writes the record of slot 0 over the whole batch,
and the same record over the batch with the unknown events removed. -/
theorem unknown_codes_dropped_witness :
    (smallNoisyHub.withoutEvents isUnknownEvent).dataFd =
      [absAt (exampleConsts.abs .ABS_ACC_X) 7, syncAt 9] ∧
    (readEvents exampleConsts (okEnv 77 0) smallNoisyHub 4).written.map Emitted.slot = [0] ∧
    (readEvents exampleConsts (okEnv 77 0)
      (smallNoisyHub.withoutEvents isUnknownEvent) 4).written =
      (readEvents exampleConsts (okEnv 77 0) smallNoisyHub 4).written ∧
    (readEvents exampleConsts (okEnv 77 0) (smallNoisyHub.withoutEvents isUnknownEvent) 4).ret =
      (readEvents exampleConsts (okEnv 77 0) smallNoisyHub 4).ret :=
  ⟨by decide, by decide,
    ((unknown_codes_dropped exampleConsts (okEnv 77 0) isUnknownEvent
      (fun e he => by
        have h : e = unknownEvent := of_decide_eq_true he
        subst h
        exact ⟨rfl, fun c => by cases c <;> decide⟩)
      smallNoisyHub 4).2.2.2 (by decide)).2.1,
    ((unknown_codes_dropped exampleConsts (okEnv 77 0) isUnknownEvent
      (fun e he => by
        have h : e = unknownEvent := of_decide_eq_true he
        subst h
        exact ⟨rfl, fun c => by cases c <;> decide⟩)
      smallNoisyHub 4).2.2.2 (by decide)).1⟩

/-! ## Disabled slots on a sync marker -/

/-- The text that the compass loop of `cw_save_calibrator_file` builds never
exceeds the buffer: at most 255 bytes before the terminator. -/
theorem saveCompass_length (n i : Nat) (str : Nat → Int) (text : List Nat) (pos : Nat)
    (hpos : text.length ≤ pos) (hlen : text.length ≤ SAVE_BUFFER_SIZE - 1) :
    (saveCompass n i str text pos).length ≤ SAVE_BUFFER_SIZE - 1 := by
  induction n generalizing i text pos with
  | zero => exact hlen
  | succ n ih =>
    simp only [saveCompass]
    split_ifs with h
    · apply ih
      · simp only [List.length_append, List.length_take]
        omega
      · simp only [List.length_append, List.length_take]
        omega
    · exact hlen

/-- C23: the compass round trip loses data when the text does not fit the
buffer. Whatever the 26 values, the text that `cw_save_calibrator_file` writes
for the compass is at most 255 bytes long, while 26 values can take 312 bytes.
On the example layout, with files that open: for 26 values of -2147483648 the
file that `cw_save_calibrator_file` writes is read back by
`cw_read_calibrator_file` with the result -1; for 25 values of 123456789
followed by 1234567 the read returns 0 but yields 12345 as the last value; a
calibration with short values (0, -1, 2, ..., -25) does come back unchanged
with the result 0. -/
theorem compass_round_trip_truncates :
    (∀ str : Nat → Int,
      (saveCompass COMPASS_CALIBRATION_DATA_SIZE 0 str [] 0).length ≤ 255) ∧
    (cw_read_calibrator_file exampleConsts (exampleConsts.slot .CW_MAGNETIC)
      (cw_save_calibrator_file exampleConsts (exampleConsts.slot .CW_MAGNETIC) true
        extremeCalibration) (fun _ => 0)).1 = -1 ∧
    (cw_read_calibrator_file exampleConsts (exampleConsts.slot .CW_MAGNETIC)
      (cw_save_calibrator_file exampleConsts (exampleConsts.slot .CW_MAGNETIC) true
        longCalibration) (fun _ => 0)).1 = 0 ∧
    (cw_read_calibrator_file exampleConsts (exampleConsts.slot .CW_MAGNETIC)
      (cw_save_calibrator_file exampleConsts (exampleConsts.slot .CW_MAGNETIC) true
        longCalibration) (fun _ => 0)).2 25 = 12345 ∧
    longCalibration 25 = 1234567 ∧
    (cw_read_calibrator_file exampleConsts (exampleConsts.slot .CW_MAGNETIC)
      (cw_save_calibrator_file exampleConsts (exampleConsts.slot .CW_MAGNETIC) true
        smallCalibration) (fun _ => 0)).1 = 0 ∧
    (List.range 26).map (cw_read_calibrator_file exampleConsts (exampleConsts.slot .CW_MAGNETIC)
      (cw_save_calibrator_file exampleConsts (exampleConsts.slot .CW_MAGNETIC) true
        smallCalibration) (fun _ => 0)).2 = (List.range 26).map smallCalibration :=
  ⟨fun str => saveCompass_length COMPASS_CALIBRATION_DATA_SIZE 0 str [] 0 (le_refl _)
      (Nat.zero_le _),
    by decide⟩

/-! ## A synthetic record and the next sync marker -/

/-- The slot of a synthetic flag is below `numSensors`. -/
theorem SynFlag.slot_lt {C : Consts} (hC : C.WF) (f : SynFlag) : f.slot C < C.numSensors := by
  cases f <;> exact hC.slot_lt _

/-- C25: the return value of a read that serves a synthetic record. For every
state with at least one synthetic flag raised and every capacity at least 1,
`readEvents` writes one record, the record of the slot of the first raised flag
(in the order pressure, light, magnetic, orientation) stamped with the time of
the call, clears that flag and no other, and returns 1 if the enabled mask is
not zero (whichever slot is enabled) and 0 if it is zero; the enabled mask and
the pending mask are unchanged. -/
theorem readEvents_synthetic_return (C : Consts) (env : Env) (s : Hub) (count : Int)
    (hcount : 1 ≤ count) (f : SynFlag) (rest : List SynFlag) (hraised : raised s = f :: rest) :
    (readEvents C env s count).written.map Emitted.slot = [f.slot C] ∧
    (∀ e ∈ (readEvents C env s count).written,
      e.event = { s.mPendingEvents (f.slot C) with timestamp := env.now }) ∧
    raised (readEvents C env s count).hub = rest ∧
    (readEvents C env s count).ret = (if s.mEnabled ≠ 0 then 1 else 0) ∧
    (readEvents C env s count).hub.mEnabled = s.mEnabled ∧
    (readEvents C env s count).hub.mPendingMask = s.mPendingMask := by
  unfold raised at hraised
  unfold readEvents
  cases hP : s.mHasPendingEventPressure <;> cases hL : s.mHasPendingEventLight <;>
    cases hM : s.mHasPendingEventMagnetic <;> cases hO : s.mHasPendingEventOrientation <;>
    simp only [hP, hL, hM, hO, if_true, if_false, Bool.false_eq_true, List.nil_append,
      List.cons_append, List.cons.injEq, reduceCtorEq] at hraised <;>
    obtain ⟨rfl, rfl⟩ := hraised <;>
    simp [not_lt.mpr hcount, serveSynthetic, Hub.setTimestamp, raised, SynFlag.slot, hP, hL, hM,
      hO]

/-- C25 (witness): on the example layout, after `setEnable(ID_L, 1)` and
`setEnable(ID_L, 0)` (light flag raised, nothing enabled) a call with capacity 1
writes the light record and returns 0; after `setEnable(ID_L, 1)`,
`setEnable(ID_A, 1)` and `setEnable(ID_L, 0)` (only the accelerometer enabled) it
writes the light record and returns 1. -/
theorem readEvents_synthetic_return_witness :
    (readEvents exampleConsts (okEnv 77 0) allOffHub 1).written.map Emitted.slot = [3] ∧
    (readEvents exampleConsts (okEnv 77 0) allOffHub 1).ret = 0 ∧
    raised (readEvents exampleConsts (okEnv 77 0) allOffHub 1).hub = [] ∧
    (readEvents exampleConsts (okEnv 77 0) lightOffHub 1).written.map Emitted.slot = [3] ∧
    (readEvents exampleConsts (okEnv 77 0) lightOffHub 1).ret = 1 :=
  ⟨(readEvents_synthetic_return exampleConsts (okEnv 77 0) allOffHub 1 (by decide) .light []
      (by decide)).1,
    (readEvents_synthetic_return exampleConsts (okEnv 77 0) allOffHub 1 (by decide) .light []
      (by decide)).2.2.2.1,
    (readEvents_synthetic_return exampleConsts (okEnv 77 0) allOffHub 1 (by decide) .light []
      (by decide)).2.2.1,
    (readEvents_synthetic_return exampleConsts (okEnv 77 0) lightOffHub 1 (by decide) .light []
      (by decide)).1,
    (readEvents_synthetic_return exampleConsts (okEnv 77 0) lightOffHub 1 (by decide) .light []
      (by decide)).2.2.2.1⟩

/-! ## Negative light levels -/

theorem intToIndex_of_neg (w : Nat) (v : Int) (hw : 32 ≤ w) (h1 : v < -1)
    (hv : -2147483648 ≤ v) : 9 < intToIndex w v := by
  unfold intToIndex
  have hpow : (4294967296 : Int) ≤ 2 ^ w := by
    have h : (2 : Int) ^ 32 ≤ 2 ^ w := pow_le_pow_right₀ (by norm_num) hw
    norm_num at h
    exact h
  generalize (2 : Int) ^ w = m at hpow ⊢
  have hmod : v % m = v + m := by
    rw [← Int.add_emod_self, Int.emod_eq_of_lt (by omega) (by omega)]
  rw [hmod]
  omega

/-- C26: negative light codes other than the sentinel saturate high. For every
header whose `size_t` has at least 32 bits, every state and every absolute
light-level event whose raw value `v` is a 32-bit `int` below -1, the index
`v mod 2^w` is above 9, so the event stores 2600 (the last table entry) in the
light slot and sets the light pending bit. -/
theorem light_event_negative (C : Consts) (hsize : 32 ≤ C.sizeBits) (s : Hub) (event : InputEvent)
    (hcode : event.code = C.abs .EVENT_TYPE_LIGHT) (hneg : event.value < -1)
    (hint : -2147483648 ≤ event.value) :
    9 < intToIndex C.sizeBits event.value ∧
    intToIndex C.sizeBits event.value = (event.value % 2 ^ C.sizeBits).toNat ∧
    absEvent C s event =
      (s.pend (C.slot .CW_LIGHT)).setData (C.slot .CW_LIGHT) 0 (FVal.ofInt 2600) ∧
    ((absEvent C s event).mPendingEvents (C.slot .CW_LIGHT)).data 0 = FVal.ofInt 2600 ∧
    hasBit (absEvent C s event).mPendingMask (C.slot .CW_LIGHT) = true := by
  have hidx := intToIndex_of_neg C.sizeBits event.value hsize hneg hint
  have hne : event.value ≠ -1 := by omega
  have hval : indexToValue (intToIndex C.sizeBits event.value) = FVal.ofInt 2600 := by
    rw [indexToValue_eq, min_eq_right (by omega)]
    rfl
  have habs : absEvent C s event =
      (s.pend (C.slot .CW_LIGHT)).setData (C.slot .CW_LIGHT) 0 (FVal.ofInt 2600) := by
    simp [absEvent, hcode, hne, hval]
  refine ⟨hidx, rfl, habs, ?_, ?_⟩
  · rw [habs]; simp [Hub.setData, Hub.pend]
  · rw [habs]; simp [Hub.setData, Hub.pend, hasBit_setBit]

/-- C26 (witness): on the example layout (a 64-bit `size_t`), a light event with
the value -2 in the idle state stores 2600 in the light slot (slot 3) and sets
its pending bit. -/
theorem light_event_negative_witness :
    ((absEvent exampleConsts idleHub
      (absAt (exampleConsts.abs .EVENT_TYPE_LIGHT) (-2))).mPendingEvents 3).data 0 =
        FVal.ofInt 2600 ∧
    hasBit (absEvent exampleConsts idleHub
      (absAt (exampleConsts.abs .EVENT_TYPE_LIGHT) (-2))).mPendingMask 3 = true :=
  ⟨(light_event_negative exampleConsts (by decide) idleHub
      (absAt (exampleConsts.abs .EVENT_TYPE_LIGHT) (-2)) rfl (by decide) (by decide)).2.2.2.1,
    (light_event_negative exampleConsts (by decide) idleHub
      (absAt (exampleConsts.abs .EVENT_TYPE_LIGHT) (-2)) rfl (by decide) (by decide)).2.2.2.2⟩

end CwMcu
